import Mathlib

/-!
# CGIFHelper: GIF frame compositor and animation timer

Shallow embedding of `src/common/gifhelper.cpp` / `gifhelper.h`, and of the second decoder of
the same name in `src/game/client/vgui_avatarimage.cpp` (namespace `vgui_avatarimage`).

Modelling conventions
* `uint8` / `GifByteType` are `Fin 256`; byte buffers are `List uint8` addressed by byte offset.
* giflib's `int`/`GifWord` fields that are parsed from unsigned GIF words (sizes, positions,
  counts) are `Nat`; fields that can hold `-1` (`TransparentColor`) or are switched on
  (`DisposalMode`, `DelayTime`) are `Int`.
* The methods are embedded with exact products for sizes and offsets.  What the code computes
  in 32-bit `int` is embedded next to them, each product reduced to 32 bits in two's complement
  (`int32`): the byte size of `FrameSize` (`cubFrameSize32`), the block sizes and row offsets of
  `FrameData` (`cubSize32`, `nRowOffset32`) and the source coordinate of the resampler (`nSrc`,
  with truncating division).  The two agree on a screen of fewer than `2^31` RGBA bytes
  (`ScreenFitsInt`, `screenFitsInt_of_lt`) and, for the resampler, for axes of at most 32768
  pixels (`nSrc_exact`); the theorems that open an image or state a size or an offset carry
  these bounds.  Beyond them the 32-bit values differ (claims C20 and C34).
* `double` values (`m_dIterateTime`, `Plat_FloatTime()`) are exact rationals; IEEE rounding is
  not modelled.  The clock is an explicit argument `now`.
* giflib itself is outside the repository.  `DGifSavedExtensionToGCB` is represented by the
  optional graphics control block stored with every saved image, `DGifOpen`/`DGifSlurp` by their
  outcome (`GifParse`).
* A null dereference is a fault: the operation returns `none`.
* The engine's `CUtlBuffer` is outside the repository; the stream readers see it as a byte
  sequence with a read cursor.
* Of `CAvatarImage` the array `m_textureIDs`, the flag `m_bAnimating` and the decoder are
  embedded; the texture-building loop and `Paint` return the indices they apply to
  `m_textureIDs` next to the state.
* "Any state" of an instance is a state reachable from the constructor by completed calls of the
  public methods (`CGIFHelper.Reachable`).
* For the bounds of array indices the loops of `FrameData` are embedded a second time, as the
  list of their accesses (`FrameDataAccesses`); replaying the stores of that list gives the
  buffers of the first embedding.
-/

abbrev uint8 := Fin 256

abbrev GifByteType := Fin 256

/-- giflib `GifColorType`. -/
structure GifColorType where
  Red : GifByteType
  Green : GifByteType
  Blue : GifByteType
deriving DecidableEq, Repr

/-- giflib `ColorMapObject`: `Colors` is allocated with exactly `ColorCount` entries. -/
structure ColorMapObject where
  Colors : List GifColorType
deriving DecidableEq, Repr

def ColorMapObject.ColorCount (m : ColorMapObject) : Nat := m.Colors.length

/-- giflib `GifImageDesc`. -/
structure GifImageDesc where
  Left : Nat
  Top : Nat
  Width : Nat
  Height : Nat
  Interlace : Bool
  ColorMap : Option ColorMapObject
deriving DecidableEq, Repr

/-- giflib `GraphicsControlBlock`. -/
structure GraphicsControlBlock where
  DisposalMode : Int
  UserInputFlag : Bool
  DelayTime : Int
  TransparentColor : Int
deriving DecidableEq, Repr

def DISPOSAL_UNSPECIFIED : Int := 0

def DISPOSE_DO_NOT : Int := 1

def DISPOSE_BACKGROUND : Int := 2

def DISPOSE_PREVIOUS : Int := 3

def NO_TRANSPARENT_COLOR : Int := -1

/-- giflib `SavedImage`.  `RasterBits = none` is the null pointer; `gcb` is what
`DGifSavedExtensionToGCB` extracts from the frame's extension blocks (`none`: it does not
return `GIF_OK`). -/
structure SavedImage where
  ImageDesc : GifImageDesc
  RasterBits : Option (List GifByteType)
  gcb : Option GraphicsControlBlock
deriving DecidableEq, Repr

/-- giflib `GifFileType` after `DGifSlurp`. -/
structure GifFileType where
  SWidth : Nat
  SHeight : Nat
  SBackGroundColor : Nat
  SColorMap : Option ColorMapObject
  SavedImages : List SavedImage
  Image : GifImageDesc := ⟨0, 0, 0, 0, false, none⟩
deriving DecidableEq, Repr

def GifFileType.ImageCount (f : GifFileType) : Nat := f.SavedImages.length

/-- giflib `DGifSavedExtensionToGCB`: `none` stands for `GIF_ERROR` (index out of range or no
graphics control extension). -/
def DGifSavedExtensionToGCB (f : GifFileType) (ImageIndex : Nat) : Option GraphicsControlBlock :=
  match f.SavedImages.get? ImageIndex with
  | none => none
  | some frame => frame.gcb

/-- The engine's `ImageFormat` values `CGIFHelper` distinguishes; `other` is any further value of
the enum. -/
inductive ImageFormat where
  | IMAGE_FORMAT_RGBA8888
  | IMAGE_FORMAT_ABGR8888
  | IMAGE_FORMAT_RGB888
  | IMAGE_FORMAT_BGR888
  | IMAGE_FORMAT_ARGB8888
  | IMAGE_FORMAT_BGRA8888
  | IMAGE_FORMAT_DXT1_RUNTIME
  | other (code : Nat)
deriving DecidableEq, Repr

/-- The engine's `ImageLoader` routines (outside the repository) whose results the decoder only
passes on: `GetMemRequired w h fmt` is `ImageLoader::GetMemRequired( w, h, 1, fmt, false )`;
`Convert src fmt w h` is the byte sequence `ImageLoader::ConvertImageFormat` writes to its
destination when it converts the `w`x`h` RGBA8888 image `src` to a format `fmt` other than
RGBA8888. -/
structure ImageLoader where
  GetMemRequired : Nat → Nat → ImageFormat → Nat
  Convert : List uint8 → ImageFormat → Nat → Nat → List uint8

/-- Modelled from the spec: the engine's `ImageLoader::SizeInBytes`, which is not part of the
sources at hand; 4 bytes per pixel for the 32-bit formats, 3 for the 24-bit ones (0 elsewhere,
where the decoder never asks). -/
def ImageLoader.SizeInBytes : ImageFormat → Nat
  | .IMAGE_FORMAT_RGBA8888 => 4
  | .IMAGE_FORMAT_ABGR8888 => 4
  | .IMAGE_FORMAT_ARGB8888 => 4
  | .IMAGE_FORMAT_BGRA8888 => 4
  | .IMAGE_FORMAT_RGB888 => 3
  | .IMAGE_FORMAT_BGR888 => 3
  | _ => 0

/-- The engine's `ImageLoader::ConvertImageFormat( src, IMAGE_FORMAT_RGBA8888, dst, dstFormat, w, h )`: the
bytes written to `dst`.  With equal source and destination format the engine copies the
`w*h*4` bytes of the image. -/
def ImageLoader.ConvertImageFormat (eng : ImageLoader) (src : List uint8) (dstFormat : ImageFormat)
    (w h : Nat) : List uint8 :=
  if dstFormat = .IMAGE_FORMAT_RGBA8888 then src.take (w * h * 4) else eng.Convert src dstFormat w h

/-- The call `Q_memcpy( dst, src, n )`: the content of `dst` afterwards. -/
def Q_memcpy (dst src : List uint8) (n : Nat) : List uint8 := src.take n ++ dst.drop n

/-- A routine writes the bytes `bytes` to the start of the buffer `dst`. -/
def writeBytes (dst bytes : List uint8) : List uint8 := bytes ++ dst.drop bytes.length

/-- The allocation `stackalloc( n )`.  The content is indeterminate in C++; both uses overwrite all `n` bytes
before anything is read. -/
def stackalloc (n : Nat) : List uint8 := List.replicate n 0

/-- Stores four bytes at `p[0..3]`, `p` at byte offset `off` of `buf`. -/
def store4 (buf : List uint8) (off : Nat) (b0 b1 b2 b3 : uint8) : List uint8 :=
  (((buf.set off b0).set (off + 1) b1).set (off + 2) b2).set (off + 3) b3

/-- Store of a `uint32` through a `uint32 *` at byte offset `off` (little-endian, as on the x86
targets of the engine). -/
def storeU32 (buf : List uint8) (off : Nat) (v : Nat) : List uint8 :=
  store4 buf off (Fin.ofNat (v % 256)) (Fin.ofNat (v / 2 ^ 8 % 256)) (Fin.ofNat (v / 2 ^ 16 % 256))
    (Fin.ofNat (v / 2 ^ 24 % 256))

/-- What `pubOutFrameBuffer` points to: a buffer of the caller (with its content), or
`m_pubPrevFrameBuffer` itself, as in the call made by `OpenImage`. -/
inductive OutBuffer where
  | caller (bytes : List uint8)
  | prevFrame
deriving DecidableEq, Repr

/-- Members of `class CGIFHelper` (gifhelper.h:42-46). -/
structure CGIFHelper where
  m_pImage : Option GifFileType
  m_pubPrevFrameBuffer : Option (List uint8)
  m_iSelectedFrame : Nat
  m_dIterateTime : ℚ
deriving DecidableEq

namespace CGIFHelper

/-- Constructor (gifhelper.h:15-17). -/
def new : CGIFHelper := ⟨none, none, 0, 0⟩

def k_dMinTime : ℚ := 2 / 100

def k_dDefaultTime : ℚ := 1 / 10

/-- Method `CGIFHelper::NextFrame` (gifhelper.cpp:116-141); `now` is `Plat_FloatTime()`. -/
def NextFrame (self : CGIFHelper) (now : ℚ) : Bool × CGIFHelper :=
  match self.m_pImage with
  | none => (false, self)
  | some img =>
    let sel := self.m_iSelectedFrame + 1
    let sel := if sel ≥ img.ImageCount then 0 else sel
    let self1 : CGIFHelper := { self with m_iSelectedFrame := sel }
    let self2 : CGIFHelper :=
      match DGifSavedExtensionToGCB img sel with
      | some gcb =>
        let dDelayTime : ℚ := (gcb.DelayTime : ℚ) * (1 / 100)
        { self1 with
          m_dIterateTime := (if dDelayTime < k_dMinTime then k_dDefaultTime else dDelayTime) + now }
      | none => self1
    (decide (self2.m_iSelectedFrame = 0), self2)

/-- Method `CGIFHelper::GetFrameCount` (gifhelper.cpp:147-150). -/
def GetFrameCount (self : CGIFHelper) : Nat :=
  match self.m_pImage with
  | some img => img.ImageCount
  | none => 0

/-- Method `CGIFHelper::GetSelectedFrame` (gifhelper.h:27). -/
def GetSelectedFrame (self : CGIFHelper) : Nat := self.m_iSelectedFrame

/-- Method `CGIFHelper::ShouldIterateFrame` (gifhelper.h:28); `now` is `Plat_FloatTime()`. -/
def ShouldIterateFrame (self : CGIFHelper) (now : ℚ) : Bool :=
  decide (self.m_dIterateTime < now)

/-- The loops `n = 1; while ( n < limit ) n <<= 1;` of `FrameSize` (gifhelper.cpp:357-366),
started at `n`; `fuel` bounds the number of iterations. -/
def growToPow2 (limit : Nat) : Nat → Nat → Nat
  | 0, n => n
  | fuel + 1, n => if n < limit then growToPow2 limit fuel (n <<< 1) else n

/-- Method `CGIFHelper::FrameSize` (gifhelper.cpp:335-371): the returned `int`, `nWide` and
`nTall`.  The byte size of a direct format is the exact product here; the code computes it in
32-bit `int` (`cubFrameSize32`), which gives the same value while the product is below `2^31`. -/
def FrameSize (eng : ImageLoader) (self : CGIFHelper) (eFormat : ImageFormat) : Int × Nat × Nat :=
  match self.m_pImage with
  | none => (-1, 0, 0)
  | some img =>
    match eFormat with
    | .IMAGE_FORMAT_RGBA8888 | .IMAGE_FORMAT_BGRA8888 | .IMAGE_FORMAT_ARGB8888
    | .IMAGE_FORMAT_ABGR8888 | .IMAGE_FORMAT_RGB888 | .IMAGE_FORMAT_BGR888 =>
      (((img.SWidth * img.SHeight * ImageLoader.SizeInBytes eFormat : Nat) : Int),
        img.SWidth, img.SHeight)
    | .IMAGE_FORMAT_DXT1_RUNTIME =>
      let nWide := growToPow2 img.SWidth img.SWidth 1
      let nTall := growToPow2 img.SHeight img.SHeight 1
      (((eng.GetMemRequired nWide nTall eFormat : Nat) : Int), nWide, nTall)
    | .other _ => (-1, 0, 0)

/-- The constant `ImageLoader::SizeInBytes( IMAGE_FORMAT_RGBA8888 )` (gifhelper.cpp:165). -/
def cBytesPerPixel : Nat := 4

/-- The column loop of `lambdaComputeFrame` (gifhelper.cpp:225-244) with `n` iterations left:
`x`, `iPixel` and the offset `pubDest` into the composition buffer are the loop variables.
Returns the final `iPixel` and the buffer; `none` when the raster or the colour map is null. -/
def paintRow (pColorMap : Option ColorMapObject) (nTransparentIndex : Int)
    (RasterBits : Option (List GifByteType)) (Left nScreenWide : Nat) :
    Nat → Nat → Nat → Nat → List uint8 → Option (Nat × List uint8)
  | 0, _, iPixel, _, comp => some (iPixel, comp)
  | n + 1, x, iPixel, pubDest, comp =>
    let nScreenX := x + Left
    if nScreenX ≥ nScreenWide then
      paintRow pColorMap nTransparentIndex RasterBits Left nScreenWide n (x + 1) (iPixel + 1)
        (pubDest + cBytesPerPixel) comp
    else
      match RasterBits, pColorMap with
      | some bits, some cm =>
        let idx : GifByteType := bits.getD iPixel 0
        let comp1 :=
          if idx.val < cm.ColorCount ∧ (idx.val : Int) ≠ nTransparentIndex then
            let color := cm.Colors.getD idx.val ⟨0, 0, 0⟩
            store4 comp pubDest color.Red color.Green color.Blue 255
          else comp
        paintRow pColorMap nTransparentIndex RasterBits Left nScreenWide n (x + 1) (iPixel + 1)
          (pubDest + cBytesPerPixel) comp1
      | _, _ => none

/-- The row loop of `lambdaComputeFrame` (gifhelper.cpp:212-245): `y` and `iPixel` are the loop
variables, `fuel` bounds the number of iterations. -/
def paintRows (pColorMap : Option ColorMapObject) (nTransparentIndex : Int)
    (RasterBits : Option (List GifByteType)) (imageDesc : GifImageDesc)
    (nScreenWide nScreenTall nRowIncrement : Nat) :
    Nat → Nat → Nat → List uint8 → Option (List uint8)
  | 0, _, _, comp => some comp
  | fuel + 1, y, iPixel, comp =>
    if y < imageDesc.Height then
      let nScreenY := y + imageDesc.Top
      if nScreenY ≥ nScreenTall then
        paintRows pColorMap nTransparentIndex RasterBits imageDesc nScreenWide nScreenTall
          nRowIncrement fuel (y + nRowIncrement) (iPixel + imageDesc.Width) comp
      else
        let pubDest := nScreenY * (nScreenWide * cBytesPerPixel) + imageDesc.Left * cBytesPerPixel
        match paintRow pColorMap nTransparentIndex RasterBits imageDesc.Left nScreenWide
            imageDesc.Width 0 iPixel pubDest comp with
        | none => none
        | some (iPixel1, comp1) =>
          paintRows pColorMap nTransparentIndex RasterBits imageDesc nScreenWide nScreenTall
            nRowIncrement fuel (y + nRowIncrement) iPixel1 comp1
    else some comp

/-- The nearest-neighbour loops of `lambdaComputeFrame` (gifhelper.cpp:249-267): the target buffer
afterwards.  The products `y * nScreenTall` and `x * nScreenWide` are exact here; the code
computes them in 32-bit `int` (`nSrc`), with the same quotient while they are below `2^31`. -/
def resample (comp : List uint8) (nScreenWide nScreenTall nTargetWide nTargetTall : Nat)
    (target : List uint8) : List uint8 :=
  (List.range nTargetTall).foldl
    (fun t y =>
      let nSrcY := (y * nScreenTall) / nTargetTall
      (List.range nTargetWide).foldl
        (fun t x =>
          let nSrcX := (x * nScreenWide) / nTargetWide
          let d := y * (nTargetWide * cBytesPerPixel) + x * cBytesPerPixel
          let s := nSrcY * (nScreenWide * cBytesPerPixel) + nSrcX * cBytesPerPixel
          store4 t d (comp.getD s 0) (comp.getD (s + 1) 0) (comp.getD (s + 2) 0)
            (comp.getD (s + 3) 0))
        t)
    target

/-- The call `lambdaComputeFrame( nRowOffset, nRowIncrement )` (gifhelper.cpp:209-269) on the composition
buffer `comp` and the target buffer; `target = none` says that `pubTargetFrameBuffer` is the
composition buffer itself. -/
def lambdaComputeFrame (pColorMap : Option ColorMapObject) (nTransparentIndex : Int)
    (RasterBits : Option (List GifByteType)) (imageDesc : GifImageDesc)
    (nScreenWide nScreenTall nTargetWide nTargetTall : Nat)
    (nRowOffset nRowIncrement : Nat) (comp : List uint8) (target : Option (List uint8)) :
    Option (List uint8 × Option (List uint8)) :=
  match paintRows pColorMap nTransparentIndex RasterBits imageDesc nScreenWide nScreenTall
      nRowIncrement imageDesc.Height nRowOffset (nRowOffset * imageDesc.Width) comp with
  | none => none
  | some comp1 =>
    match target with
    | none => some (comp1, none)
    | some t => some (comp1, some (resample comp1 nScreenWide nScreenTall nTargetWide nTargetTall t))

def k_rowOffsets : List Nat := [0, 4, 2, 1]

def k_rowIncrements : List Nat := [8, 8, 4, 2]

/-- The pass loop `for ( nPass = 0; nPass < 4; nPass++ )` (gifhelper.cpp:275-278), over the
passes listed in `passes`. -/
def interlacePasses (pColorMap : Option ColorMapObject) (nTransparentIndex : Int)
    (RasterBits : Option (List GifByteType)) (imageDesc : GifImageDesc)
    (nScreenWide nScreenTall nTargetWide nTargetTall : Nat) :
    List Nat → List uint8 → Option (List uint8) → Option (List uint8 × Option (List uint8))
  | [], comp, target => some (comp, target)
  | nPass :: rest, comp, target =>
    match lambdaComputeFrame pColorMap nTransparentIndex RasterBits imageDesc nScreenWide
        nScreenTall nTargetWide nTargetTall (k_rowOffsets.getD nPass 0)
        (k_rowIncrements.getD nPass 0) comp target with
    | none => none
    | some (comp1, target1) =>
      interlacePasses pColorMap nTransparentIndex RasterBits imageDesc nScreenWide nScreenTall
        nTargetWide nTargetTall rest comp1 target1

/-- The fill loops of the `DISPOSE_BACKGROUND` case (gifhelper.cpp:296-306) on
`m_pubPrevFrameBuffer`. -/
def fillBackground (prev : List uint8) (imageDesc : GifImageDesc) (nScreenWide : Nat)
    (nFillTall nFillWide : Int) (unFillColor : Nat) : List uint8 :=
  (List.range nFillTall.toNat).foldl
    (fun buf y =>
      let punRow := (y + imageDesc.Top) * (nScreenWide * cBytesPerPixel) +
        imageDesc.Left * cBytesPerPixel
      (List.range nFillWide.toNat).foldl (fun buf x => storeU32 buf (punRow + 4 * x) unFillColor) buf)
    prev

/-- The disposal `switch` (gifhelper.cpp:286-316): `m_pubPrevFrameBuffer` afterwards; `none` when
`SColorMap` is null in the `DISPOSE_BACKGROUND` case. -/
def applyDisposal (img : GifFileType) (imageDesc : GifImageDesc) (nDisposalMethod : Int)
    (prev comp : List uint8) : Option (List uint8) :=
  let nScreenWide := img.SWidth
  let nScreenTall := img.SHeight
  if nDisposalMethod = DISPOSE_BACKGROUND then
    match img.SColorMap with
    | none => none
    | some sColorMap =>
      if img.SBackGroundColor < sColorMap.ColorCount then
        let color := sColorMap.Colors.getD img.SBackGroundColor ⟨0, 0, 0⟩
        let nFillTall : Int := min (imageDesc.Height : Int) ((nScreenTall : Int) - imageDesc.Top)
        let nFillWide : Int := min (imageDesc.Width : Int) ((nScreenWide : Int) - imageDesc.Left)
        let unFillColor : Nat :=
          (color.Red.val ||| (color.Green.val <<< 8) ||| (color.Blue.val <<< 16) |||
            (0xFF <<< 24)) % 2 ^ 32
        some (fillBackground prev imageDesc nScreenWide nFillTall nFillWide unFillColor)
      else some prev
  else if nDisposalMethod = DISPOSE_PREVIOUS then some prev
  else some (Q_memcpy prev comp (nScreenWide * cBytesPerPixel * nScreenTall))

/-- The values of `nTransparentIndex` and `nDisposalMethod` that `FrameData` resolves for frame
`i` (gifhelper.cpp:182-190). -/
def frameControl (img : GifFileType) (i : Nat) : Int × Int :=
  match DGifSavedExtensionToGCB img i with
  | some gcb => (gcb.TransparentColor, gcb.DisposalMode)
  | none => (NO_TRANSPARENT_COLOR, DISPOSAL_UNSPECIFIED)

/-- Method `CGIFHelper::FrameData` (gifhelper.cpp:158-327).  Returns the state and the output buffer
afterwards; `none` is a fault (null dereference).  Block sizes and row offsets are exact products
here; the code computes them in 32-bit `int` (`cubSize32`, `nRowOffset32`), with the same values
on a screen of fewer than `2^31` bytes (`ScreenFitsInt`). -/
def FrameData (eng : ImageLoader) (self : CGIFHelper) (eFormat : ImageFormat)
    (pubOutFrameBuffer : OutBuffer) : Option (CGIFHelper × OutBuffer) :=
  match self.m_pImage with
  | none => some (self, pubOutFrameBuffer)
  | some img =>
    match img.SavedImages.head? with
    | none => none
    | some first =>
      if first.RasterBits.isNone then some (self, pubOutFrameBuffer)
      else
        let (cub, nTargetWide, nTargetTall) := FrameSize eng self eFormat
        if cub = -1 then some (self, pubOutFrameBuffer)
        else
          match img.SavedImages.get? self.m_iSelectedFrame, self.m_pubPrevFrameBuffer with
          | some frame, some prev =>
            let imageDesc := frame.ImageDesc
            let pColorMap :=
              match imageDesc.ColorMap with
              | some m => some m
              | none => img.SColorMap
            let nScreenWide := img.SWidth
            let nScreenTall := img.SHeight
            let nScreenStride := nScreenWide * cBytesPerPixel
            let nTransparentIndex := (frameControl img self.m_iSelectedFrame).1
            let nDisposalMethod := (frameControl img self.m_iSelectedFrame).2
            let cubScreenSize := nScreenStride * nScreenTall
            let cubTargetSize := nTargetWide * cBytesPerPixel * nTargetTall
            let comp0 := Q_memcpy (stackalloc cubScreenSize) prev cubScreenSize
            let target0 : Option (List uint8) :=
              if nTargetWide = nScreenWide ∧ nTargetTall = nScreenTall then none
              else some (List.replicate cubTargetSize 0)
            let computed :=
              if imageDesc.Interlace then
                interlacePasses pColorMap nTransparentIndex frame.RasterBits imageDesc nScreenWide
                  nScreenTall nTargetWide nTargetTall [0, 1, 2, 3] comp0 target0
              else
                lambdaComputeFrame pColorMap nTransparentIndex frame.RasterBits imageDesc
                  nScreenWide nScreenTall nTargetWide nTargetTall 0 1 comp0 target0
            match computed with
            | none => none
            | some (comp, target) =>
              match applyDisposal img imageDesc nDisposalMethod prev comp with
              | none => none
              | some prev1 =>
                let pubTargetFrameBuffer := target.getD comp
                let written :=
                  eng.ConvertImageFormat pubTargetFrameBuffer eFormat nTargetWide nTargetTall
                match pubOutFrameBuffer with
                | .caller bytes =>
                  some ({ self with m_pubPrevFrameBuffer := some prev1 },
                    .caller (writeBytes bytes written))
                | .prevFrame =>
                  some ({ self with m_pubPrevFrameBuffer := some (writeBytes prev1 written) },
                    .prevFrame)
          | _, _ => none

/-- Method `CGIFHelper::CloseImage` (gifhelper.cpp:55-110). -/
def CloseImage (self : CGIFHelper) (bKeepMetadata : Bool) : CGIFHelper :=
  match self.m_pImage with
  | none => self
  | some img =>
    let img1 : GifFileType :=
      { img with
        Image := { img.Image with ColorMap := none }
        SColorMap := none
        SavedImages := img.SavedImages.map fun pFrame =>
          { pFrame with
            ImageDesc := { pFrame.ImageDesc with ColorMap := none }
            RasterBits := none } }
    if !bKeepMetadata then
      { m_pImage := none, m_pubPrevFrameBuffer := none, m_iSelectedFrame := 0, m_dIterateTime := 0 }
    else
      { self with m_pImage := some img1, m_pubPrevFrameBuffer := none }

/-- Outcome of giflib's `DGifOpen` and `DGifSlurp` on the byte stream: `DGifOpen` returns null,
`DGifSlurp` fails on the file `DGifOpen` returned, or both succeed. -/
inductive GifParse where
  | openFailed
  | slurpFailed (img : GifFileType)
  | ok (img : GifFileType)
deriving DecidableEq, Repr

/-- Method `CGIFHelper::OpenImage` (gifhelper.cpp:23-50).  `gif` is what giflib makes of the stream;
`fresh i` is the byte that `new uint8[ n ]` happens to hold at offset `i` (the array is not
initialised).  `none` is a fault inside `FrameData`.  The canvas has the exact
`SWidth * SHeight * 4` bytes here; the code passes the 32-bit value `cubFrameSize32` to `new`,
the same length on a screen of fewer than `2^31` bytes (`ScreenFitsInt`). -/
def OpenImage (eng : ImageLoader) (self : CGIFHelper) (gif : GifParse) (fresh : Nat → uint8) :
    Option (Bool × CGIFHelper) :=
  let self0 := if self.m_pImage.isSome then self.CloseImage false else self
  match gif with
  | .openFailed => some (false, { self0 with m_pImage := none })
  | .slurpFailed img => some (false, ({ self0 with m_pImage := some img }).CloseImage false)
  | .ok img =>
    let self1 : CGIFHelper := { self0 with m_pImage := some img }
    let cub := (FrameSize eng self1 .IMAGE_FORMAT_RGBA8888).1
    let self2 : CGIFHelper :=
      { self1 with m_pubPrevFrameBuffer := some ((List.range cub.toNat).map fresh) }
    match FrameData eng self2 .IMAGE_FORMAT_RGBA8888 .prevFrame with
    | none => none
    | some (self3, _) => some (true, self3)

/-- The result of `k` consecutive `NextFrame` calls, the `j`-th call (counting from 0) made at
clock value `clock j`: the flag returned by the last call and the state after it. -/
def NextFrameCalls (clock : Nat → ℚ) : Nat → CGIFHelper → Bool × CGIFHelper
  | 0, self => (false, self)
  | k + 1, self => NextFrame (NextFrameCalls clock k self).2 (clock k)

end CGIFHelper

/-- Byte offset of channel `k` of screen pixel (`sy`, `sx`) in an RGBA8888 buffer of a screen
`nScreenWide` pixels wide. -/
def pixOff (nScreenWide sy sx k : Nat) : Nat := (sy * nScreenWide + sx) * 4 + k

/-- Channel `k` of the opaque pixel written for a colour. -/
def colorByte (c : GifColorType) (k : Nat) : uint8 :=
  if k = 0 then c.Red else if k = 1 then c.Green else if k = 2 then c.Blue else 255

/-- The byte the compositor leaves in channel `k` of a destination pixel that it paints from
raster position `iPixel`: the colour's channel when the index is inside the colour map and not
the transparent index, the old byte otherwise (gifhelper.cpp:234-242). -/
def paintedByte (cm : ColorMapObject) (nTransparentIndex : Int) (bits : List GifByteType)
    (iPixel k : Nat) (old : uint8) : uint8 :=
  if (bits.getD iPixel 0).val < cm.ColorCount ∧ ((bits.getD iPixel 0).val : Int) ≠ nTransparentIndex
  then colorByte (cm.Colors.getD (bits.getD iPixel 0).val ⟨0, 0, 0⟩) k
  else old

/-- The stored raster row from which `lambdaComputeFrame` paints display row `y`: row `y` itself
without interlacing; in pass `(offset, increment)` the `j`-th visited row `offset + j * increment`
is painted from stored row `offset + j` (`iPixel` starts at `nRowOffset * Width` and advances by
`Width` per visited row). -/
def srcRow (Interlace : Bool) (y : Nat) : Nat :=
  if Interlace then
    if y % 8 = 0 then y / 8
    else if y % 8 = 4 then 4 + (y - 4) / 8
    else if y % 4 = 2 then 2 + (y - 2) / 4
    else 1 + (y - 1) / 2
  else y

/-- The effect of one run of the row loop with row offset `o` and increment `s` on the composition
buffer: `b` is `a` with the visited on-screen rows painted. -/
def IsPass (cm : ColorMapObject) (tr : Int) (bits : List GifByteType) (d : GifImageDesc)
    (sw sh o s : Nat) (a b : List uint8) : Prop :=
  (∀ j x k, o + j * s < d.Height → o + j * s + d.Top < sh → x < d.Width → d.Left + x < sw → k < 4 →
    b[pixOff sw (o + j * s + d.Top) (d.Left + x) k]? =
      (a[pixOff sw (o + j * s + d.Top) (d.Left + x) k]?).map
        (paintedByte cm tr bits (o * d.Width + j * d.Width + x) k)) ∧
  (∀ p, (∀ j x k, o + j * s < d.Height → o + j * s + d.Top < sh → x < d.Width → d.Left + x < sw →
    k < 4 → p ≠ pixOff sw (o + j * s + d.Top) (d.Left + x) k) → b[p]? = a[p]?)

/-- The buffer `comp` is `comp0` with the frame composited onto it: every on-screen pixel
(`Top + y`, `Left + x`) of the frame is painted from raster position `srcRow y * Width + x`
(kept when that index is transparent or outside the colour map), every other byte is kept. -/
def IsComposition (cm : ColorMapObject) (tr : Int) (bits : List GifByteType) (d : GifImageDesc)
    (sw sh : Nat) (comp0 comp : List uint8) : Prop :=
  (∀ y x k, y < d.Height → y + d.Top < sh → x < d.Width → d.Left + x < sw → k < 4 →
    comp[pixOff sw (y + d.Top) (d.Left + x) k]? =
      (comp0[pixOff sw (y + d.Top) (d.Left + x) k]?).map
        (paintedByte cm tr bits (srcRow d.Interlace y * d.Width + x) k)) ∧
  (∀ p, (∀ y x k, y < d.Height → y + d.Top < sh → x < d.Width → d.Left + x < sw → k < 4 →
    p ≠ pixOff sw (y + d.Top) (d.Left + x) k) → comp[p]? = comp0[p]?)

/-- The buffer `FrameData` hands to the format conversion: the composition buffer itself when the
target size is the screen size, its nearest-neighbour resampling otherwise. -/
def targetBuffer (comp : List uint8) (nScreenWide nScreenTall nTargetWide nTargetTall : Nat) :
    List uint8 :=
  if nTargetWide = nScreenWide ∧ nTargetTall = nScreenTall then comp
  else CGIFHelper.resample comp nScreenWide nScreenTall nTargetWide nTargetTall
    (List.replicate (nTargetWide * CGIFHelper.cBytesPerPixel * nTargetTall) 0)

/-- An instance ready to render its selected frame: an image is open with its rasters in
place, `frame` is the selected frame with raster `bits` of `Width * Height` indices, `cm` is the
active colour map (the local one if the frame has it, else the global one) and `prev` is the
persistent canvas, of `SWidth * SHeight * 4` bytes. -/
structure Renderable (s : CGIFHelper) (img : GifFileType) (frame : SavedImage)
    (bits : List GifByteType) (cm : ColorMapObject) (prev : List uint8) : Prop where
  image : s.m_pImage = some img
  first : ∃ f r, img.SavedImages.head? = some f ∧ f.RasterBits = some r
  selected : img.SavedImages.get? s.m_iSelectedFrame = some frame
  raster : frame.RasterBits = some bits
  rasterSize : bits.length = frame.ImageDesc.Width * frame.ImageDesc.Height
  colors : (match frame.ImageDesc.ColorMap with
    | some m => some m
    | none => img.SColorMap) = some cm
  canvas : s.m_pubPrevFrameBuffer = some prev
  canvasSize : prev.length = img.SWidth * img.SHeight * 4

/-- The four bytes of screen pixel (`sy`, `sx`) in an RGBA8888 buffer of a screen `nScreenWide`
pixels wide. -/
def pixelAt (buf : List uint8) (nScreenWide sy sx : Nat) : List uint8 :=
  (buf.drop ((sy * nScreenWide + sx) * 4)).take 4

/-- The opaque RGBA8888 pixel of a colour. -/
def rgba (c : GifColorType) : List uint8 := [c.Red, c.Green, c.Blue, 255]

/-- The reference image of a raster: every index mapped through the colour table to an opaque
RGBA8888 pixel. -/
def referenceImage (cm : ColorMapObject) : List GifByteType → List uint8
  | [] => []
  | idx :: rest => rgba (cm.Colors.getD idx.val ⟨0, 0, 0⟩) ++ referenceImage cm rest

namespace CGIFHelper

/-- The frame index `NextFrame` selects (gifhelper.cpp:121-127). -/
def nextSelected (s : CGIFHelper) (img : GifFileType) : Nat :=
  if s.m_iSelectedFrame + 1 ≥ img.ImageCount then 0 else s.m_iSelectedFrame + 1

end CGIFHelper

/-- The number `p` is the least power of two that is at least `d`. -/
def IsLeastPow2 (d p : Nat) : Prop :=
  (∃ k, p = 2 ^ k) ∧ d ≤ p ∧ p < 2 * d ∧ (∀ i, d ≤ 2 ^ i → p ≤ 2 ^ i) ∧ ((∃ i, d = 2 ^ i) → p = d)

/-- The display rows that the row loop `for ( y = nRowOffset; y < Height; y += nRowIncrement )`
of `lambdaComputeFrame` visits from row `y` on, in order; `fuel` bounds the number of
iterations (gifhelper.cpp:212). -/
def passRows (Height nRowIncrement : Nat) : Nat → Nat → List Nat
  | 0, _ => []
  | fuel + 1, y =>
    if y < Height then y :: passRows Height nRowIncrement fuel (y + nRowIncrement) else []

/-- The display rows of an interlaced frame in the order in which the four passes of `FrameData`
visit them (gifhelper.cpp:273-278). -/
def interlaceRows (Height : Nat) : List Nat :=
  [0, 1, 2, 3].flatMap fun nPass =>
    passRows Height (CGIFHelper.k_rowIncrements.getD nPass 0) Height
      (CGIFHelper.k_rowOffsets.getD nPass 0)

/-! ## Array accesses of `FrameData` -/

/-- One array access of `FrameData`: a read of the frame's raster at `iPixel`, a read of entry
`idx` of a colour table with `ColorCount` entries, or the store of one byte at a byte offset of
the composition (scratch) buffer or of the persistent canvas `m_pubPrevFrameBuffer`. -/
inductive Access where
  | rasterRead (iPixel : Nat)
  | colorRead (idx ColorCount : Nat)
  | scratchWrite (offset : Nat) (value : uint8)
  | canvasWrite (offset : Nat) (value : uint8)
deriving DecidableEq, Repr

/-- The access stays inside its array: a colour-table index is below the table's `ColorCount`, a
store to the scratch buffer or the canvas is at a byte offset below `size`.  Raster reads are not
constrained here. -/
def Access.InRange (size : Nat) : Access → Prop
  | .rasterRead _ => True
  | .colorRead idx count => idx < count
  | .scratchWrite offset _ => offset < size
  | .canvasWrite offset _ => offset < size

/-- The scratch buffer after the stores of a sequence of accesses. -/
def replayScratch : List Access → List uint8 → List uint8
  | [], buf => buf
  | .scratchWrite offset value :: rest, buf => replayScratch rest (buf.set offset value)
  | _ :: rest, buf => replayScratch rest buf

/-- The persistent canvas after the stores of a sequence of accesses. -/
def replayCanvas : List Access → List uint8 → List uint8
  | [], buf => buf
  | .canvasWrite offset value :: rest, buf => replayCanvas rest (buf.set offset value)
  | _ :: rest, buf => replayCanvas rest buf

/-- The byte stores of `Q_memcpy( dst, src, n )`, `mk` naming the destination buffer. -/
def memcpyAccesses (mk : Nat → uint8 → Access) (src : List uint8) (n : Nat) : List Access :=
  (List.range n).map fun i => mk i (src.getD i 0)

namespace CGIFHelper

/-- The accesses of the column loop of `lambdaComputeFrame` (gifhelper.cpp:225-244), in order,
with the final `iPixel`; the loop variables are those of `paintRow`. -/
def paintRowAccesses (cm : ColorMapObject) (nTransparentIndex : Int) (bits : List GifByteType)
    (Left nScreenWide : Nat) : Nat → Nat → Nat → Nat → Nat × List Access
  | 0, _, iPixel, _ => (iPixel, [])
  | n + 1, x, iPixel, pubDest =>
    let nScreenX := x + Left
    if nScreenX ≥ nScreenWide then
      paintRowAccesses cm nTransparentIndex bits Left nScreenWide n (x + 1) (iPixel + 1)
        (pubDest + cBytesPerPixel)
    else
      let idx : GifByteType := bits.getD iPixel 0
      let here : List Access :=
        if idx.val < cm.ColorCount ∧ (idx.val : Int) ≠ nTransparentIndex then
          let color := cm.Colors.getD idx.val ⟨0, 0, 0⟩
          [.rasterRead iPixel, .colorRead idx.val cm.ColorCount,
            .scratchWrite pubDest color.Red, .scratchWrite (pubDest + 1) color.Green,
            .scratchWrite (pubDest + 2) color.Blue, .scratchWrite (pubDest + 3) 255]
        else [.rasterRead iPixel]
      let rest := paintRowAccesses cm nTransparentIndex bits Left nScreenWide n (x + 1)
        (iPixel + 1) (pubDest + cBytesPerPixel)
      (rest.1, here ++ rest.2)

/-- The accesses of the row loop of `lambdaComputeFrame` (gifhelper.cpp:212-245), in order; the
loop variables are those of `paintRows`. -/
def paintRowsAccesses (cm : ColorMapObject) (nTransparentIndex : Int) (bits : List GifByteType)
    (imageDesc : GifImageDesc) (nScreenWide nScreenTall nRowIncrement : Nat) :
    Nat → Nat → Nat → List Access
  | 0, _, _ => []
  | fuel + 1, y, iPixel =>
    if y < imageDesc.Height then
      let nScreenY := y + imageDesc.Top
      if nScreenY ≥ nScreenTall then
        paintRowsAccesses cm nTransparentIndex bits imageDesc nScreenWide nScreenTall
          nRowIncrement fuel (y + nRowIncrement) (iPixel + imageDesc.Width)
      else
        let pubDest := nScreenY * (nScreenWide * cBytesPerPixel) + imageDesc.Left * cBytesPerPixel
        let row := paintRowAccesses cm nTransparentIndex bits imageDesc.Left nScreenWide
          imageDesc.Width 0 iPixel pubDest
        row.2 ++ paintRowsAccesses cm nTransparentIndex bits imageDesc nScreenWide nScreenTall
          nRowIncrement fuel (y + nRowIncrement) row.1
    else []

/-- The accesses to raster, colour table and scratch buffer of all the calls of
`lambdaComputeFrame` that `FrameData` makes for a frame (gifhelper.cpp:271-283): the four passes
of an interlaced frame, the single pass of any other. -/
def composeAccesses (cm : ColorMapObject) (nTransparentIndex : Int) (bits : List GifByteType)
    (imageDesc : GifImageDesc) (nScreenWide nScreenTall : Nat) : List Access :=
  if imageDesc.Interlace then
    [0, 1, 2, 3].flatMap fun nPass =>
      paintRowsAccesses cm nTransparentIndex bits imageDesc nScreenWide nScreenTall
        (k_rowIncrements.getD nPass 0) imageDesc.Height (k_rowOffsets.getD nPass 0)
        (k_rowOffsets.getD nPass 0 * imageDesc.Width)
  else
    paintRowsAccesses cm nTransparentIndex bits imageDesc nScreenWide nScreenTall 1
      imageDesc.Height 0 (0 * imageDesc.Width)

/-- The byte stores of the fill loops of the `DISPOSE_BACKGROUND` case (gifhelper.cpp:296-306);
each `punRow[ x ] = unFillColor` stores four bytes, least significant first. -/
def fillAccesses (imageDesc : GifImageDesc) (nScreenWide : Nat) (nFillTall nFillWide : Int)
    (unFillColor : Nat) : List Access :=
  (List.range nFillTall.toNat).flatMap fun y =>
    let punRow := (y + imageDesc.Top) * (nScreenWide * cBytesPerPixel) +
      imageDesc.Left * cBytesPerPixel
    (List.range nFillWide.toNat).flatMap fun x =>
      [.canvasWrite (punRow + 4 * x) (Fin.ofNat (unFillColor % 256)),
        .canvasWrite (punRow + 4 * x + 1) (Fin.ofNat (unFillColor / 2 ^ 8 % 256)),
        .canvasWrite (punRow + 4 * x + 2) (Fin.ofNat (unFillColor / 2 ^ 16 % 256)),
        .canvasWrite (punRow + 4 * x + 3) (Fin.ofNat (unFillColor / 2 ^ 24 % 256))]

/-- The accesses of the disposal `switch` (gifhelper.cpp:286-316) when the composition buffer
holds `comp`; none when `SColorMap` is null in the `DISPOSE_BACKGROUND` case. -/
def disposalAccesses (img : GifFileType) (imageDesc : GifImageDesc) (nDisposalMethod : Int)
    (comp : List uint8) : List Access :=
  let nScreenWide := img.SWidth
  let nScreenTall := img.SHeight
  if nDisposalMethod = DISPOSE_BACKGROUND then
    match img.SColorMap with
    | none => []
    | some sColorMap =>
      if img.SBackGroundColor < sColorMap.ColorCount then
        let color := sColorMap.Colors.getD img.SBackGroundColor ⟨0, 0, 0⟩
        let nFillTall : Int := min (imageDesc.Height : Int) ((nScreenTall : Int) - imageDesc.Top)
        let nFillWide : Int := min (imageDesc.Width : Int) ((nScreenWide : Int) - imageDesc.Left)
        let unFillColor : Nat :=
          (color.Red.val ||| (color.Green.val <<< 8) ||| (color.Blue.val <<< 16) |||
            (0xFF <<< 24)) % 2 ^ 32
        .colorRead img.SBackGroundColor sColorMap.ColorCount ::
          fillAccesses imageDesc nScreenWide nFillTall nFillWide unFillColor
      else []
  else if nDisposalMethod = DISPOSE_PREVIOUS then []
  else memcpyAccesses .canvasWrite comp (nScreenWide * cBytesPerPixel * nScreenTall)

/-- The accesses of one `FrameData` call (gifhelper.cpp:198-316) to the frame's raster, the
colour tables, the composition buffer and the persistent canvas, in order: the copy of the canvas
`prev` into the composition buffer, the painting passes, the disposal.  The accesses to the
resampling target and to the output buffer are not listed.  Offsets and sizes are exact products;
they are the 32-bit values of the code on a screen of fewer than `2^31` bytes (`ScreenFitsInt`). -/
def FrameDataAccesses (cm : ColorMapObject) (nTransparentIndex : Int) (bits : List GifByteType)
    (img : GifFileType) (imageDesc : GifImageDesc) (nDisposalMethod : Int) (prev : List uint8) :
    List Access :=
  let cubScreenSize := img.SWidth * cBytesPerPixel * img.SHeight
  let composing := memcpyAccesses .scratchWrite prev cubScreenSize ++
    composeAccesses cm nTransparentIndex bits imageDesc img.SWidth img.SHeight
  composing ++
    disposalAccesses img imageDesc nDisposalMethod (replayScratch composing (stackalloc cubScreenSize))

end CGIFHelper

/-- A sequence of accesses without store to the persistent canvas. -/
def NoCanvasWrite (l : List Access) : Prop := ∀ a ∈ l, ∀ o v, a ≠ .canvasWrite o v

/-- A sequence of accesses without store to the scratch buffer. -/
def NoScratchWrite (l : List Access) : Prop := ∀ a ∈ l, ∀ o v, a ≠ .scratchWrite o v

/-! ## Reachable states -/

namespace CGIFHelper

/-- The states an instance can be in: the freshly constructed one and every state a completed call
of a public method leaves (`OpenImage` on any stream and allocation content, `NextFrame` at any
clock value, `FrameData` with any format into a caller's buffer, `CloseImage` with either flag). -/
inductive Reachable (eng : ImageLoader) : CGIFHelper → Prop
  | fresh : Reachable eng CGIFHelper.new
  | openImage (s : CGIFHelper) (gif : GifParse) (heap : Nat → uint8) (r : Bool) (s' : CGIFHelper) :
      Reachable eng s → OpenImage eng s gif heap = some (r, s') → Reachable eng s'
  | nextFrame (s : CGIFHelper) (now : ℚ) : Reachable eng s → Reachable eng (NextFrame s now).2
  | frameData (s : CGIFHelper) (eFormat : ImageFormat) (bytes : List uint8) (s' : CGIFHelper)
      (out' : OutBuffer) :
      Reachable eng s → FrameData eng s eFormat (.caller bytes) = some (s', out') →
      Reachable eng s'
  | closeImage (s : CGIFHelper) (bKeepMetadata : Bool) :
      Reachable eng s → Reachable eng (s.CloseImage bKeepMetadata)

end CGIFHelper

/-! ## The avatar panel's decoder (vgui_avatarimage.cpp) -/

namespace vgui_avatarimage

/-- Members of the second `class CGIFHelper`, the avatar panel's decoder
(vgui_avatarimage.h:50-77). -/
structure CGIFHelper where
  m_pImage : Option GifFileType
  m_pPrevFrameBuffer : Option (List uint8)
  m_iSelectedFrame : Nat
  m_dIterateTime : ℚ
deriving DecidableEq

namespace CGIFHelper

/-- Method `CGIFHelper::GetScreenSize` (vgui_avatarimage.cpp:848-859). -/
def GetScreenSize (self : CGIFHelper) : Nat × Nat :=
  match self.m_pImage with
  | none => (0, 0)
  | some img => (img.SWidth, img.SHeight)

/-- Method `CGIFHelper::GetFrameSize` (vgui_avatarimage.cpp:835-846); `none` when the selected
frame does not exist. -/
def GetFrameSize (self : CGIFHelper) : Option (Nat × Nat) :=
  match self.m_pImage with
  | none => some (0, 0)
  | some img =>
    match img.SavedImages.get? self.m_iSelectedFrame with
    | none => none
    | some frame => some (frame.ImageDesc.Width, frame.ImageDesc.Height)

/-- The column loop of `GetRGBA` (vgui_avatarimage.cpp:759-774 and 783-798) for frame row `y`,
with `n` iterations left: `x` and `iPixel` are the loop variables.  A clipped column takes the
`continue` before `iPixel++`.  Returns the final `iPixel` and the buffer; `none` when the raster
or the colour map is null at an on-screen pixel. -/
def paintRow (pColorMap : Option ColorMapObject) (nTransparentIndex : Int)
    (pRasterBits : Option (List GifByteType)) (iFrameLeft iFrameTop iScreenWide y : Nat) :
    Nat → Nat → Nat → List uint8 → Option (Nat × List uint8)
  | 0, _, iPixel, cur => some (iPixel, cur)
  | n + 1, x, iPixel, cur =>
    if x + iFrameLeft ≥ iScreenWide then
      paintRow pColorMap nTransparentIndex pRasterBits iFrameLeft iFrameTop iScreenWide y n (x + 1)
        iPixel cur
    else
      let iOut := ((y + iFrameTop) * iScreenWide + (x + iFrameLeft)) * 4
      match pRasterBits, pColorMap with
      | some bits, some cm =>
        let colorIndex : GifByteType := bits.getD iPixel 0
        let cur1 :=
          if colorIndex.val < cm.ColorCount ∧ (colorIndex.val : Int) ≠ nTransparentIndex then
            let color := cm.Colors.getD colorIndex.val ⟨0, 0, 0⟩
            store4 cur iOut color.Red color.Green color.Blue 255
          else cur
        paintRow pColorMap nTransparentIndex pRasterBits iFrameLeft iFrameTop iScreenWide y n
          (x + 1) (iPixel + 1) cur1
      | _, _ => none

/-- The row loop of `GetRGBA` (vgui_avatarimage.cpp:756-775 and 780-799) with row increment
`nRowIncrement`: `y` and `iPixel` are the loop variables, `fuel` bounds the number of
iterations.  A clipped row takes the `continue` and leaves `iPixel` alone. -/
def paintRows (pColorMap : Option ColorMapObject) (nTransparentIndex : Int)
    (pRasterBits : Option (List GifByteType))
    (iFrameLeft iFrameTop iFrameWide iFrameTall iScreenWide iScreenTall nRowIncrement : Nat) :
    Nat → Nat → Nat → List uint8 → Option (Nat × List uint8)
  | 0, _, iPixel, cur => some (iPixel, cur)
  | fuel + 1, y, iPixel, cur =>
    if y < iFrameTall then
      if y + iFrameTop ≥ iScreenTall then
        paintRows pColorMap nTransparentIndex pRasterBits iFrameLeft iFrameTop iFrameWide
          iFrameTall iScreenWide iScreenTall nRowIncrement fuel (y + nRowIncrement) iPixel cur
      else
        match paintRow pColorMap nTransparentIndex pRasterBits iFrameLeft iFrameTop iScreenWide y
            iFrameWide 0 iPixel cur with
        | none => none
        | some (iPixel1, cur1) =>
          paintRows pColorMap nTransparentIndex pRasterBits iFrameLeft iFrameTop iFrameWide
            iFrameTall iScreenWide iScreenTall nRowIncrement fuel (y + nRowIncrement) iPixel1 cur1
    else some (iPixel, cur)

def k_rowOffsets : List Nat := [0, 4, 2, 1]

def k_rowIncrements : List Nat := [8, 8, 4, 2]

/-- The pass loop of `GetRGBA` for an interlaced frame (vgui_avatarimage.cpp:754-777), over the
passes listed; `iPixel` runs on from pass to pass. -/
def paintPasses (pColorMap : Option ColorMapObject) (nTransparentIndex : Int)
    (pRasterBits : Option (List GifByteType))
    (iFrameLeft iFrameTop iFrameWide iFrameTall iScreenWide iScreenTall : Nat) :
    List Nat → Nat → List uint8 → Option (Nat × List uint8)
  | [], iPixel, cur => some (iPixel, cur)
  | nPass :: rest, iPixel, cur =>
    match paintRows pColorMap nTransparentIndex pRasterBits iFrameLeft iFrameTop iFrameWide
        iFrameTall iScreenWide iScreenTall (k_rowIncrements.getD nPass 0) iFrameTall
        (k_rowOffsets.getD nPass 0) iPixel cur with
    | none => none
    | some (iPixel1, cur1) =>
      paintPasses pColorMap nTransparentIndex pRasterBits iFrameLeft iFrameTop iFrameWide
        iFrameTall iScreenWide iScreenTall rest iPixel1 cur1

/-- The fill loops of the `DISPOSE_BACKGROUND` case of `GetRGBA` (vgui_avatarimage.cpp:810-821) on
`m_pPrevFrameBuffer`: `y` runs from `iFrameTop` while `y < iFrameTop + iFrameTall` and
`y < iScreenTall`, `x` from `iFrameLeft` likewise; the `int` `SBackGroundColor` is stored into
`uint8` elements. -/
def fillBackground (prev : List uint8) (SBackGroundColor : Nat)
    (iFrameLeft iFrameTop iFrameWide iFrameTall iScreenWide iScreenTall : Nat) : List uint8 :=
  (List.range' iFrameTop (min (iFrameTop + iFrameTall) iScreenTall - iFrameTop)).foldl
    (fun buf y =>
      (List.range' iFrameLeft (min (iFrameLeft + iFrameWide) iScreenWide - iFrameLeft)).foldl
        (fun buf x =>
          let idx := (y * iScreenWide + x) * 4
          store4 buf idx (Fin.ofNat SBackGroundColor) (Fin.ofNat SBackGroundColor)
            (Fin.ofNat SBackGroundColor) 255)
        buf)
    prev

/-- Method `CGIFHelper::GetRGBA` (vgui_avatarimage.cpp:716-833); `ppOutFrameBuffer` is the content of
the caller's buffer `*ppOutFrameBuffer`.  Returns the state and that buffer afterwards; `none` is
a fault (null dereference, frame index out of range). -/
def GetRGBA (self : CGIFHelper) (ppOutFrameBuffer : List uint8) :
    Option (CGIFHelper × List uint8) :=
  match self.m_pImage with
  | none => some (self, ppOutFrameBuffer)
  | some img =>
    match img.SavedImages.get? self.m_iSelectedFrame, self.GetFrameSize,
        self.m_pPrevFrameBuffer with
    | some pFrame, some (iFrameWide, iFrameTall), some prev =>
      let pColorMap :=
        match pFrame.ImageDesc.ColorMap with
        | some m => some m
        | none => img.SColorMap
      let pRasterBits := pFrame.RasterBits
      let (iScreenWide, iScreenTall) := self.GetScreenSize
      let iFrameLeft := pFrame.ImageDesc.Left
      let iFrameTop := pFrame.ImageDesc.Top
      let (nTransparentIndex, nDisposalMethod) :=
        match DGifSavedExtensionToGCB img self.m_iSelectedFrame with
        | some gcb => (gcb.TransparentColor, gcb.DisposalMode)
        | none => (NO_TRANSPARENT_COLOR, DISPOSAL_UNSPECIFIED)
      let pCurFrameBuffer0 :=
        Q_memcpy (stackalloc (iScreenWide * iScreenTall * 4)) prev (iScreenWide * iScreenTall * 4)
      let painted :=
        if pFrame.ImageDesc.Interlace then
          paintPasses pColorMap nTransparentIndex pRasterBits iFrameLeft iFrameTop iFrameWide
            iFrameTall iScreenWide iScreenTall [0, 1, 2, 3] 0 pCurFrameBuffer0
        else
          paintRows pColorMap nTransparentIndex pRasterBits iFrameLeft iFrameTop iFrameWide
            iFrameTall iScreenWide iScreenTall 1 iFrameTall 0 0 pCurFrameBuffer0
      match painted with
      | none => none
      | some (_, pCurFrameBuffer) =>
        let out := Q_memcpy ppOutFrameBuffer pCurFrameBuffer (iScreenWide * iScreenTall * 4)
        let prev1 :=
          if nDisposalMethod = DISPOSE_BACKGROUND then
            fillBackground prev img.SBackGroundColor iFrameLeft iFrameTop iFrameWide iFrameTall
              iScreenWide iScreenTall
          else if nDisposalMethod = DISPOSE_PREVIOUS then prev
          else Q_memcpy prev pCurFrameBuffer (iScreenWide * iScreenTall * 4)
        some ({ self with m_pPrevFrameBuffer := some prev1 }, out)
    | _, _, _ => none

end CGIFHelper

end vgui_avatarimage

/-! ## Example data -/

def exColors : ColorMapObject := ⟨[⟨10, 20, 30⟩, ⟨40, 50, 60⟩]⟩

def exEngine : ImageLoader := ⟨fun w h _ => w * h / 2, fun src _ _ _ => src.take 8⟩

/-- A 2x1 frame at the top-left corner: raster index 1 is a colour, index 5 lies outside the
two-entry colour table; the graphics control block carries the given disposal method, delay 0
and transparent index 0. -/
def exFrame (disposal : Int) : SavedImage :=
  ⟨⟨0, 0, 2, 1, false, none⟩, some [1, 5], some ⟨disposal, false, 0, 0⟩⟩

/-- A frame that covers the 2x2 screen, without graphics control block. -/
def exFullFrame : SavedImage := ⟨⟨0, 0, 2, 2, false, none⟩, some [1, 0, 0, 1], none⟩

def exClearGcb : GraphicsControlBlock := ⟨DISPOSAL_UNSPECIFIED, false, 5, 0⟩

/-- A frame that covers the 2x2 screen, all of it the transparent index 0, delay 5. -/
def exClearFrame : SavedImage := ⟨⟨0, 0, 2, 2, false, none⟩, some [0, 0, 0, 0], some exClearGcb⟩

def exImage (frames : List SavedImage) : GifFileType :=
  { SWidth := 2, SHeight := 2, SBackGroundColor := 1, SColorMap := some exColors,
    SavedImages := frames }

def exCanvas : List uint8 := List.replicate 16 7

def exOut : List uint8 := List.replicate 16 0

def exState (frames : List SavedImage) (selected : Nat) : CGIFHelper :=
  ⟨some (exImage frames), some exCanvas, selected, 0⟩

/-- An open instance on a one-frame container with a `w`x`h` screen. -/
def exSized (w h : Nat) : CGIFHelper :=
  ⟨some { SWidth := w, SHeight := h, SBackGroundColor := 0, SColorMap := some exColors,
          SavedImages := [exFullFrame] }, none, 0, 0⟩

/-- A 2x2 frame placed one column to the right on the 2x2 screen, so that its second column
overhangs the right edge; no graphics control block. -/
def exOverhang : SavedImage := ⟨⟨1, 0, 2, 2, false, none⟩, some [1, 0, 1, 0], none⟩

/-- A container with a 3x1 screen, which `IMAGE_FORMAT_DXT1_RUNTIME` renders at 4x1. -/
def exWideImage (frames : List SavedImage) : GifFileType :=
  { SWidth := 3, SHeight := 1, SBackGroundColor := 1, SColorMap := some exColors,
    SavedImages := frames }

/-- An interlaced 3x1 frame that covers the 3x1 screen, without graphics control block. -/
def exWideFrame : SavedImage := ⟨⟨0, 0, 3, 1, true, none⟩, some [1, 0, 1], none⟩

def exWideState : CGIFHelper :=
  ⟨some (exWideImage [exWideFrame]), some (List.replicate 12 7), 0, 0⟩

/-- An engine whose conversion hands the RGBA bytes on unchanged. -/
def exRawEngine : ImageLoader := ⟨fun w h _ => w * h * 4, fun src _ _ _ => src⟩

def exFiveColors : ColorMapObject :=
  ⟨[⟨10, 10, 10⟩, ⟨20, 20, 20⟩, ⟨30, 30, 30⟩, ⟨40, 40, 40⟩, ⟨50, 50, 50⟩]⟩

/-- An interlaced frame one pixel wide and five rows tall whose stored raster row `r` holds the
index `r`, on a 1x5 screen; no graphics control block. -/
def exInterlacedFrame : SavedImage := ⟨⟨0, 0, 1, 5, true, none⟩, some [0, 1, 2, 3, 4], none⟩

def exInterlacedState : CGIFHelper :=
  ⟨some { SWidth := 1, SHeight := 5, SBackGroundColor := 0, SColorMap := some exFiveColors,
          SavedImages := [exInterlacedFrame] }, some (List.replicate 20 7), 0, 0⟩

/-- A container without global colour table whose only frame has no local one either. -/
def exNoColorsState : CGIFHelper :=
  ⟨some { SWidth := 2, SHeight := 2, SBackGroundColor := 0, SColorMap := none,
          SavedImages := [exFullFrame] }, some exCanvas, 0, 0⟩

/-- A 3x3 frame on the 2x2 screen, overhanging the right and the bottom edge; its on-screen
pixels hold a colour, an index outside the colour table, the transparent index 0 and a colour; the
frame is disposed to background. -/
def exBigFrame : SavedImage :=
  ⟨⟨0, 0, 3, 3, false, none⟩, some [1, 5, 1, 0, 1, 1, 1, 1, 1],
    some ⟨DISPOSE_BACKGROUND, false, 0, 0⟩⟩

/-- The state `OpenImage` leaves on the two-frame example container when the fresh canvas
allocation holds the byte 7 everywhere. -/
def exOpened : CGIFHelper :=
  ⟨some (exImage [exFrame 1, exFullFrame]),
    some [40, 50, 60, 255, 7, 7, 7, 7, 7, 7, 7, 7, 7, 7, 7, 7], 0, 0⟩

/-- The avatar panel's decoder on the example container, the given frames loaded and frame
`selected` selected. -/
def exAvatarState (frames : List SavedImage) (selected : Nat) : vgui_avatarimage.CGIFHelper :=
  ⟨some (exImage frames), some exCanvas, selected, 0⟩

/-! ## Stream readers, 32-bit arithmetic and the avatar panel -/

/-- Modelled from the spec: the engine's `CUtlBuffer`, which is not part of the sources at hand, as
far as the stream readers use it: an in-memory byte sequence with a read cursor `m_Get`. -/
structure CUtlBuffer where
  m_Memory : List uint8
  m_Get : Nat
deriving DecidableEq, Repr

/-- Modelled from the spec: `CUtlBuffer::GetBytesRemaining`, the number of bytes between the read
cursor and the end of the sequence. -/
def CUtlBuffer.GetBytesRemaining (self : CUtlBuffer) : Int :=
  (self.m_Memory.length : Int) - self.m_Get

/-- Modelled from the spec: `CUtlBuffer::Get( pMem, size )`, "read N bytes": the next `size` bytes
at the cursor, and the buffer with the cursor advanced by `size`. -/
def CUtlBuffer.Get (self : CUtlBuffer) (size : Nat) : List uint8 × CUtlBuffer :=
  ((self.m_Memory.drop self.m_Get).take size, { self with m_Get := self.m_Get + size })

/-- Function `GifReadData` (gifhelper.cpp:9-18), the reader giflib calls back; `gif` is
`*pFile->UserData`.  Returns the `int` result, the destination and the buffer afterwards. -/
def GifReadData (gif : CUtlBuffer) (pubBuffer : List uint8) (cubBuffer : Int) :
    Int × List uint8 × CUtlBuffer :=
  let nBytesToRead := min cubBuffer gif.GetBytesRemaining
  if nBytesToRead > 0 then
    let (got, gif1) := gif.Get nBytesToRead.toNat
    (nBytesToRead, writeBytes pubBuffer got, gif1)
  else (nBytesToRead, pubBuffer, gif)

/-- Successive calls of a reader callback with the request sizes listed, each into a zeroed
destination of the requested size: what each call returned and left in its destination, and the
buffer afterwards. -/
def readCalls (read : CUtlBuffer → List uint8 → Int → Int × List uint8 × CUtlBuffer) :
    CUtlBuffer → List Nat → List (Int × List uint8) × CUtlBuffer
  | gif, [] => ([], gif)
  | gif, n :: rest =>
    let r := read gif (List.replicate n 0) n
    let rs := readCalls read r.2.2 rest
    ((r.1, r.2.1) :: rs.1, rs.2)

/-- The bytes a sequence of reader calls delivered: of each destination, as many bytes as the call
returned. -/
def delivered (calls : List (Int × List uint8)) : List uint8 :=
  calls.flatMap (fun r => r.2.take r.1.toNat)

namespace vgui_avatarimage

namespace CGIFHelper

/-- Method `CGIFHelper::ReadData` (vgui_avatarimage.cpp:636-645); `pBuf` is `pFile->UserData`. -/
def ReadData (pBuf : CUtlBuffer) (pBuffer : List uint8) (cubBuffer : Int) :
    Int × List uint8 × CUtlBuffer :=
  let nBytesToRead := min cubBuffer pBuf.GetBytesRemaining
  if nBytesToRead > 0 then
    let (got, pBuf1) := pBuf.Get nBytesToRead.toNat
    (nBytesToRead, writeBytes pBuffer got, pBuf1)
  else (nBytesToRead, pBuffer, pBuf)

/-- Method `CGIFHelper::CloseImage` (vgui_avatarimage.cpp:676-692). -/
def CloseImage (self : CGIFHelper) : CGIFHelper :=
  match self.m_pImage with
  | none => self
  | some _ =>
    { m_pImage := none, m_pPrevFrameBuffer := none, m_iSelectedFrame := 0, m_dIterateTime := 0 }

/-- Method `CGIFHelper::OpenImage` (vgui_avatarimage.cpp:647-674).  `gif` is what giflib makes of the
stream; `heap i` is the byte that `new uint8[ n ]` happens to hold at offset `i`. -/
def OpenImage (self : CGIFHelper) (gif : CGIFHelper.GifParse) (heap : Nat → uint8) : Bool × CGIFHelper :=
  let self0 := if self.m_pImage.isSome then self.CloseImage else self
  match gif with
  | .openFailed => (false, { self0 with m_pImage := none })
  | .slurpFailed img => (false, ({ self0 with m_pImage := some img }).CloseImage)
  | .ok img =>
    let self1 : CGIFHelper := { self0 with m_pImage := some img }
    let (iWide, iTall) := self1.GetScreenSize
    (true, { self1 with m_pPrevFrameBuffer := some ((List.range (iWide * iTall * 4)).map heap) })

/-- Method `CGIFHelper::NextFrame` (vgui_avatarimage.cpp:694-714); `now` is `Plat_FloatTime()`. -/
def NextFrame (self : CGIFHelper) (now : ℚ) : Bool × CGIFHelper :=
  match self.m_pImage with
  | none => (false, self)
  | some img =>
    let sel := self.m_iSelectedFrame + 1
    let sel := if sel ≥ img.ImageCount then 0 else sel
    let self1 : CGIFHelper := { self with m_iSelectedFrame := sel }
    let self2 : CGIFHelper :=
      match DGifSavedExtensionToGCB img sel with
      | some gcb => { self1 with m_dIterateTime := (gcb.DelayTime : ℚ) * (1 / 100) + now }
      | none => self1
    (decide (self2.m_iSelectedFrame = 0), self2)

/-- Method `CGIFHelper::GetSelectedFrame` (vgui_avatarimage.h:62). -/
def GetSelectedFrame (self : CGIFHelper) : Nat := self.m_iSelectedFrame

/-- Method `CGIFHelper::ShouldIterateFrame` (vgui_avatarimage.h:63); `now` is `Plat_FloatTime()`. -/
def ShouldIterateFrame (self : CGIFHelper) (now : ℚ) : Bool :=
  decide (self.m_dIterateTime < now)

end CGIFHelper

end vgui_avatarimage

/-- The value an `int` holds when the exact result `v` of an arithmetic operation is reduced to
32 bits in two's complement. -/
def int32 (v : Int) : Int := (v + 2 ^ 31) % 2 ^ 32 - 2 ^ 31

namespace CGIFHelper

/-- The source coordinates `nSrcY = ( y * nScreenTall ) / nTargetTall` and
`nSrcX = ( x * nScreenWide ) / nTargetWide` of the resampling loops (gifhelper.cpp:251, 257) in
the 32-bit `int` arithmetic of the code: the product is reduced to 32 bits, the division
truncates. -/
def nSrc (i nScreen nTarget : Int) : Int := Int.tdiv (int32 (i * nScreen)) nTarget

/-- The byte size `nWide * nTall * ImageLoader::SizeInBytes( eFormat )` that `FrameSize` returns
for a direct format (gifhelper.cpp:353), in the 32-bit `int` arithmetic of the code: each product
is reduced to 32 bits.  With `cBytes = 4` it is the length `OpenImage` passes to
`new uint8[ ... ]` (gifhelper.cpp:46). -/
def cubFrameSize32 (nWide nTall cBytes : Int) : Int := int32 (int32 (nWide * nTall) * cBytes)

/-- The strides `nTargetStride = nTargetWide * cBytesPerPixel` and
`nScreenStride = nScreenWide * cBytesPerPixel` of `FrameData` (gifhelper.cpp:173, 180) in 32-bit
`int` arithmetic. -/
def nStride32 (nWide : Int) : Int := int32 (nWide * cBytesPerPixel)

/-- The block sizes `cubScreenSize = nScreenStride * nScreenTall` and
`cubTargetSize = nTargetStride * nTargetTall` of `FrameData` (gifhelper.cpp:192-193) in 32-bit
`int` arithmetic. -/
def cubSize32 (nWide nTall : Int) : Int := int32 (nStride32 nWide * nTall)

/-- The row offsets `nScreenY * nScreenStride` of the painting loop and
`( y + imageDesc.Top ) * nScreenStride` of the background fill (gifhelper.cpp:222, 300) in 32-bit
`int` arithmetic. -/
def nRowOffset32 (nScreenY nScreenWide : Int) : Int := int32 (nScreenY * nStride32 nScreenWide)

end CGIFHelper

/-- On a screen of `sw` x `sh` pixels the 32-bit `int` arithmetic of `OpenImage` and `FrameData`
is exact: the length of the canvas, the size of the composition block and the offset of every
screen row are the products themselves. -/
def ScreenFitsInt (sw sh : Nat) : Prop :=
  CGIFHelper.cubFrameSize32 sw sh 4 = ((sw * sh * 4 : Nat) : Int) ∧
  CGIFHelper.cubSize32 sw sh = ((sw * CGIFHelper.cBytesPerPixel * sh : Nat) : Int) ∧
  ∀ sy, sy < sh → CGIFHelper.nRowOffset32 sy sw =
    ((sy * (sw * CGIFHelper.cBytesPerPixel) : Nat) : Int)

namespace vgui_avatarimage

/-- The constant `ANIMATED_AVATAR_MAX_FRAME_COUNT` (vgui_avatarimage.h:31). -/
def ANIMATED_AVATAR_MAX_FRAME_COUNT : Nat := 256

/-- The members of `class CAvatarImage` that the animated path uses (vgui_avatarimage.h:223-240);
`m_textureIDs` is the `CUtlArray< int, ANIMATED_AVATAR_MAX_FRAME_COUNT >`. -/
structure CAvatarImage where
  m_textureIDs : List Int
  m_bAnimating : Bool
  m_animatedImage : CGIFHelper

namespace CAvatarImage

/-- The loop `do { ... } while( !m_animatedImage.NextFrame() )` of `OnHTTPRequestCompleted`
(vgui_avatarimage.cpp:151-169) in iteration `k`, with `fuel` iterations allowed.
`CreateNewTextureID k` is the texture the surface hands out in iteration `k`, `heap` the content
of a fresh `new uint8[ n ]`, `clock k` the value of `Plat_FloatTime()` in iteration `k`.  Returns
the panel and, appended to `used`, the indices applied to `m_textureIDs` in order; `none` is a
fault in `GetRGBA` (or no fuel left). -/
def buildTextures (CreateNewTextureID : Nat → Int) (heap : Nat → uint8) (clock : Nat → ℚ) :
    Nat → Nat → CAvatarImage → List Nat → Option (CAvatarImage × List Nat)
  | 0, _, _, _ => none
  | fuel + 1, k, self, used =>
    if self.m_animatedImage.GetSelectedFrame ≥ ANIMATED_AVATAR_MAX_FRAME_COUNT then
      some (self, used)
    else
      let iWrite := self.m_animatedImage.GetSelectedFrame
      let ids := self.m_textureIDs.set iWrite (CreateNewTextureID k)
      let (iWide, iTall) := self.m_animatedImage.GetScreenSize
      let pDest := (List.range (iWide * iTall * 4)).map heap
      match self.m_animatedImage.GetRGBA pDest with
      | none => none
      | some (image1, _) =>
        let iRead := image1.GetSelectedFrame
        let r := image1.NextFrame (clock k)
        let self1 : CAvatarImage := { self with m_textureIDs := ids, m_animatedImage := r.2 }
        if r.1 then some (self1, used ++ [iWrite, iRead])
        else
          buildTextures CreateNewTextureID heap clock fuel (k + 1) self1
            (used ++ [iWrite, iRead])

/-- Method `CAvatarImage::OnHTTPRequestCompleted` (vgui_avatarimage.cpp:136-196) as far as the
decoder and `m_textureIDs` go; `gif` is what giflib makes of the response body.  Returns the
panel and the indices applied to `m_textureIDs`.  The loop ends within
`ANIMATED_AVATAR_MAX_FRAME_COUNT + 1` iterations. -/
def OnHTTPRequestCompleted (CreateNewTextureID : Nat → Int) (heap : Nat → uint8)
    (clock : Nat → ℚ) (self : CAvatarImage) (gif : CGIFHelper.GifParse) :
    Option (CAvatarImage × List Nat) :=
  let r := self.m_animatedImage.OpenImage gif heap
  if !r.1 then some ({ self with m_animatedImage := r.2 }, [])
  else
    match buildTextures CreateNewTextureID heap clock (ANIMATED_AVATAR_MAX_FRAME_COUNT + 1) 0
        { self with m_animatedImage := r.2 } [] with
    | none => none
    | some (self1, used) => some ({ self1 with m_bAnimating := true }, used)

/-- The choice of the texture in `CAvatarImage::Paint` (vgui_avatarimage.cpp:384-392); `now` is
`Plat_FloatTime()`.  Returns the panel and the indices applied to `m_textureIDs`, in order. -/
def Paint (self : CAvatarImage) (now : ℚ) : CAvatarImage × List Nat :=
  if self.m_bAnimating then
    let image1 :=
      if self.m_animatedImage.ShouldIterateFrame now then (self.m_animatedImage.NextFrame now).2
      else self.m_animatedImage
    ({ self with m_animatedImage := image1 }, [0, image1.GetSelectedFrame])
  else (self, [0])

end CAvatarImage

end vgui_avatarimage

/-- A 1x1 frame at `Top = 8193`, without graphics control block. -/
def exHugeFrame : SavedImage := ⟨⟨0, 8193, 1, 1, false, none⟩, some [1], none⟩

/-- A container with a 65535x16385 screen, whose RGBA size 4295163900 exceeds `INT_MAX`, and the
single frame `exHugeFrame`. -/
def exHugeImage : GifFileType :=
  { SWidth := 65535, SHeight := 16385, SBackGroundColor := 0, SColorMap := some exColors,
    SavedImages := [exHugeFrame] }

/-- A buffer of six bytes with the cursor after the first. -/
def exBuffer : CUtlBuffer := ⟨[10, 11, 12, 13, 14, 15], 1⟩

/-- A container of 258 frames, each covering the 2x2 screen. -/
def exManyFrames : GifFileType := exImage (List.replicate 258 exFullFrame)

/-- A panel as constructed: every texture ID is -1, the decoder is closed. -/
def exPanel : vgui_avatarimage.CAvatarImage :=
  ⟨List.replicate 256 (-1), false, ⟨none, none, 0, 0⟩⟩

/-! ## Buffer and loop lemmas -/

theorem int32_of_lt (v : Int) (h0 : 0 ≤ v) (h1 : v < 2 ^ 31) : int32 v = v := by
  unfold int32
  rw [Int.emod_eq_of_lt (by omega) (by omega)]
  omega

theorem int32_add_mul (x m : Int) : int32 (x + 2 ^ 32 * m) = int32 x := by
  unfold int32
  rw [show x + 2 ^ 32 * m + 2 ^ 31 = (x + 2 ^ 31) + 2 ^ 32 * m by ring,
    Int.add_mul_emod_self_left]

theorem int32_eq_add (a : Int) : ∃ k, int32 a = a + 2 ^ 32 * k := by
  refine ⟨-((a + 2 ^ 31) / 2 ^ 32), ?_⟩
  unfold int32
  omega

theorem int32_mul_left (a b : Int) : int32 (int32 a * b) = int32 (a * b) := by
  obtain ⟨k, hk⟩ := int32_eq_add a
  rw [hk, show (a + 2 ^ 32 * k) * b = a * b + 2 ^ 32 * (k * b) by ring, int32_add_mul]

theorem int32_mul_right (a b : Int) : int32 (a * int32 b) = int32 (a * b) := by
  rw [Int.mul_comm, int32_mul_left, Int.mul_comm]

theorem cubFrameSize32_exact {w h c : Nat} (hfit : w * h * c < 2 ^ 31) :
    CGIFHelper.cubFrameSize32 w h c = ((w * h * c : Nat) : Int) := by
  unfold CGIFHelper.cubFrameSize32
  rw [int32_mul_left, ← Int.ofNat_mul, ← Int.ofNat_mul]
  exact int32_of_lt _ (Int.ofNat_nonneg _) (by exact_mod_cast hfit)

theorem cubSize32_exact {w h : Nat} (hfit : w * h * 4 < 2 ^ 31) :
    CGIFHelper.cubSize32 w h = ((w * CGIFHelper.cBytesPerPixel * h : Nat) : Int) := by
  unfold CGIFHelper.cubSize32 CGIFHelper.nStride32
  rw [int32_mul_left, ← Int.ofNat_mul, ← Int.ofNat_mul]
  refine int32_of_lt _ (Int.ofNat_nonneg _) ?_
  have : w * CGIFHelper.cBytesPerPixel * h = w * h * 4 := by
    unfold CGIFHelper.cBytesPerPixel; ring
  rw [this]
  exact_mod_cast hfit

theorem nRowOffset32_exact {w h sy : Nat} (hfit : w * h * 4 < 2 ^ 31) (hsy : sy < h) :
    CGIFHelper.nRowOffset32 sy w = ((sy * (w * CGIFHelper.cBytesPerPixel) : Nat) : Int) := by
  unfold CGIFHelper.nRowOffset32 CGIFHelper.nStride32
  rw [int32_mul_right, ← Int.ofNat_mul, ← Int.ofNat_mul]
  refine int32_of_lt _ (Int.ofNat_nonneg _) ?_
  have h1 : sy * (w * CGIFHelper.cBytesPerPixel) ≤ w * h * 4 := by
    have : sy * (w * CGIFHelper.cBytesPerPixel) = w * sy * 4 := by
      unfold CGIFHelper.cBytesPerPixel; ring
    rw [this]
    exact Nat.mul_le_mul_right 4 (Nat.mul_le_mul_left w (Nat.le_of_lt hsy))
  have h2 : sy * (w * CGIFHelper.cBytesPerPixel) < 2 ^ 31 := Nat.lt_of_le_of_lt h1 hfit
  exact_mod_cast h2

theorem screenFitsInt_of_lt {sw sh : Nat} (hfit : sw * sh * 4 < 2 ^ 31) : ScreenFitsInt sw sh :=
  ⟨cubFrameSize32_exact hfit, cubSize32_exact hfit, fun _ hsy => nRowOffset32_exact hfit hsy⟩

theorem store4_getElem? (buf : List uint8) (off : Nat) (b0 b1 b2 b3 : uint8) (p : Nat) :
    (store4 buf off b0 b1 b2 b3)[p]? =
      (buf[p]?).map (fun old =>
        if p = off then b0 else if p = off + 1 then b1 else if p = off + 2 then b2
        else if p = off + 3 then b3 else old) := by
  unfold store4
  simp only [List.getElem?_set, List.length_set]
  rcases Nat.lt_or_ge p buf.length with h | h
  · rw [List.getElem?_eq_getElem h]
    simp only [Option.map_some']
    split_ifs <;> first | rfl | omega
  · rw [List.getElem?_eq_none h]
    simp only [Option.map_none']
    split_ifs <;> first | rfl | omega

theorem store4_length (buf : List uint8) (off : Nat) (b0 b1 b2 b3 : uint8) :
    (store4 buf off b0 b1 b2 b3).length = buf.length := by
  simp [store4]

theorem pixOff_inj {sw sy sx k sy' sx' k' : Nat} (hx : sx < sw) (hx' : sx' < sw) (hk : k < 4)
    (hk' : k' < 4) (h : pixOff sw sy sx k = pixOff sw sy' sx' k') : sy = sy' ∧ sx = sx' ∧ k = k' := by
  unfold pixOff at h
  have hq : sy * sw + sx = sy' * sw + sx' := by omega
  have hkk : k = k' := by omega
  have hsy : sy = sy' := by
    rcases Nat.lt_trichotomy sy sy' with hlt | heq | hgt
    · have := Nat.mul_le_mul_right sw (Nat.succ_le_of_lt hlt)
      rw [Nat.succ_mul] at this
      omega
    · exact heq
    · have := Nat.mul_le_mul_right sw (Nat.succ_le_of_lt hgt)
      rw [Nat.succ_mul] at this
      omega
  subst hsy
  exact ⟨rfl, by omega, hkk⟩

namespace CGIFHelper

theorem paintRow_spec (cm : ColorMapObject) (tr : Int) (bits : List GifByteType) (Left sw : Nat) :
    ∀ n x iPixel pubDest comp, ∃ comp',
      paintRow (some cm) tr (some bits) Left sw n x iPixel pubDest comp = some (iPixel + n, comp') ∧
      ∀ p, comp'[p]? = (comp[p]?).map (fun old =>
        if pubDest ≤ p ∧ (p - pubDest) / 4 < n ∧ x + (p - pubDest) / 4 + Left < sw then
          paintedByte cm tr bits (iPixel + (p - pubDest) / 4) ((p - pubDest) % 4) old
        else old) := by
  intro n
  induction n with
  | zero =>
    intro x iPixel pubDest comp
    refine ⟨comp, rfl, fun p => ?_⟩
    simp
  | succ n ih =>
    intro x iPixel pubDest comp
    unfold paintRow
    simp only [cBytesPerPixel]
    by_cases hclip : x + Left ≥ sw
    · rw [if_pos hclip]
      obtain ⟨comp', hrun, hget⟩ := ih (x + 1) (iPixel + 1) (pubDest + 4) comp
      refine ⟨comp', by rw [hrun]; congr 2; omega, fun p => ?_⟩
      rw [hget p]
      congr 1
      funext old
      by_cases hc : pubDest + 4 ≤ p ∧ (p - (pubDest + 4)) / 4 < n ∧
          x + 1 + (p - (pubDest + 4)) / 4 + Left < sw
      · rw [if_pos hc, if_pos (by omega)]
        congr 1 <;> omega
      · rw [if_neg hc]
        by_cases hc' : pubDest ≤ p ∧ (p - pubDest) / 4 < n + 1 ∧ x + (p - pubDest) / 4 + Left < sw
        · exfalso; omega
        · rw [if_neg hc']
    · rw [if_neg hclip]
      obtain ⟨comp', hrun, hget⟩ := ih (x + 1) (iPixel + 1) (pubDest + 4)
        (if (bits.getD iPixel 0).val < cm.ColorCount ∧ ((bits.getD iPixel 0).val : Int) ≠ tr then
          store4 comp pubDest (cm.Colors.getD (bits.getD iPixel 0).val ⟨0, 0, 0⟩).Red
            (cm.Colors.getD (bits.getD iPixel 0).val ⟨0, 0, 0⟩).Green
            (cm.Colors.getD (bits.getD iPixel 0).val ⟨0, 0, 0⟩).Blue 255
         else comp)
      refine ⟨comp', by rw [hrun]; congr 2; omega, fun p => ?_⟩
      rw [hget p]
      have hfirst : (if (bits.getD iPixel 0).val < cm.ColorCount ∧
            ((bits.getD iPixel 0).val : Int) ≠ tr then
          store4 comp pubDest (cm.Colors.getD (bits.getD iPixel 0).val ⟨0, 0, 0⟩).Red
            (cm.Colors.getD (bits.getD iPixel 0).val ⟨0, 0, 0⟩).Green
            (cm.Colors.getD (bits.getD iPixel 0).val ⟨0, 0, 0⟩).Blue 255
         else comp)[p]? = (comp[p]?).map (fun old =>
            if pubDest ≤ p ∧ p < pubDest + 4 then paintedByte cm tr bits iPixel (p - pubDest) old
            else old) := by
        by_cases hop : (bits.getD iPixel 0).val < cm.ColorCount ∧
            ((bits.getD iPixel 0).val : Int) ≠ tr
        · rw [if_pos hop, store4_getElem?]
          congr 1
          funext old
          unfold paintedByte colorByte
          rw [if_pos hop]
          split_ifs <;> first | rfl | (exfalso; omega)
        · rw [if_neg hop]
          unfold paintedByte
          simp only [if_neg hop, ite_self, Option.map_id']
      rw [hfirst, Option.map_map]
      congr 1
      funext old
      simp only [Function.comp]
      by_cases hc : pubDest + 4 ≤ p ∧ (p - (pubDest + 4)) / 4 < n ∧
          x + 1 + (p - (pubDest + 4)) / 4 + Left < sw
      · rw [if_pos hc, if_neg (by omega), if_pos (by omega)]
        congr 1 <;> omega
      · rw [if_neg hc]
        by_cases h0 : pubDest ≤ p ∧ p < pubDest + 4
        · rw [if_pos h0, if_pos (by omega)]
          congr 1 <;> omega
        · rw [if_neg h0, if_neg (by omega)]

end CGIFHelper

theorem row_mul_le (sw : Nat) {a b : Nat} (h : a < b) : a * sw + sw ≤ b * sw := by
  have := Nat.mul_le_mul_right sw (Nat.succ_le_of_lt h)
  rw [Nat.succ_mul] at this
  exact this

theorem option_map_ite_neg {c : Prop} [Decidable c] (hc : ¬c) (f : uint8 → uint8)
    (o : Option uint8) : o.map (fun old => if c then f old else old) = o := by
  simp [hc]

namespace CGIFHelper

theorem paintRows_spec (cm : ColorMapObject) (tr : Int) (bits : List GifByteType)
    (d : GifImageDesc) (sw sh inc : Nat) (hinc : 1 ≤ inc) :
    ∀ fuel y iPixel comp, d.Height ≤ y + fuel → ∃ comp',
      paintRows (some cm) tr (some bits) d sw sh inc fuel y iPixel comp = some comp' ∧
      (∀ j x k, y + j * inc < d.Height → y + j * inc + d.Top < sh → x < d.Width →
        d.Left + x < sw → k < 4 →
        comp'[pixOff sw (y + j * inc + d.Top) (d.Left + x) k]? =
          (comp[pixOff sw (y + j * inc + d.Top) (d.Left + x) k]?).map
            (paintedByte cm tr bits (iPixel + j * d.Width + x) k)) ∧
      (∀ p, (∀ j x k, y + j * inc < d.Height → y + j * inc + d.Top < sh → x < d.Width →
        d.Left + x < sw → k < 4 → p ≠ pixOff sw (y + j * inc + d.Top) (d.Left + x) k) →
        comp'[p]? = comp[p]?) := by
  intro fuel
  induction fuel with
  | zero =>
    intro y iPixel comp hf
    refine ⟨comp, rfl, ?_, fun _ _ => rfl⟩
    intro j x k h1
    exfalso; omega
  | succ fuel ih =>
    intro y iPixel comp hf
    have hstep : ∀ j, y + (j + 1) * inc = y + inc + j * inc := by
      intro j; rw [Nat.add_mul]; omega
    have hstepW : ∀ j x, iPixel + (j + 1) * d.Width + x = iPixel + d.Width + j * d.Width + x := by
      intro j x; rw [Nat.add_mul]; omega
    unfold paintRows
    by_cases hy : y < d.Height
    · rw [if_pos hy]
      by_cases hrow : y + d.Top ≥ sh
      · simp only [if_pos hrow]
        obtain ⟨comp', hrun, h1, h2⟩ := ih (y + inc) (iPixel + d.Width) comp (by omega)
        refine ⟨comp', hrun, ?_, ?_⟩
        · intro j x k hj1 hj2 hx hlx hk
          rcases j with _ | j
          · exfalso; omega
          · rw [hstep] at hj1 hj2 ⊢
            rw [hstepW]
            exact h1 j x k hj1 hj2 hx hlx hk
        · intro p hp
          apply h2
          intro j x k hj1 hj2 hx hlx hk
          have := hp (j + 1) x k (by rw [hstep]; exact hj1) (by rw [hstep]; exact hj2) hx hlx hk
          rw [hstep] at this
          exact this
      · simp only [if_neg hrow]
        obtain ⟨comp1, hrow_run, hrow_get⟩ := paintRow_spec cm tr bits d.Left sw d.Width 0 iPixel
          ((y + d.Top) * (sw * cBytesPerPixel) + d.Left * cBytesPerPixel) comp
        rw [hrow_run]
        simp only
        obtain ⟨comp', hrun, h1, h2⟩ := ih (y + inc) (iPixel + d.Width) comp1 (by omega)
        have hmul : (y + d.Top) * (sw * 4) = ((y + d.Top) * sw) * 4 := by ring
        simp only [cBytesPerPixel] at hrow_get
        simp only [hmul] at hrow_get
        refine ⟨comp', hrun, ?_, ?_⟩
        · intro j x k hj1 hj2 hx hlx hk
          rcases j with _ | j
          · simp only [Nat.zero_mul, Nat.add_zero] at hj1 hj2 ⊢
            rw [h2, hrow_get]
            · congr 1
              funext old
              unfold pixOff
              rw [if_pos (by omega)]
              congr 1 <;> omega
            · intro j' x' k' hj1' hj2' hx' hlx' hk' heq
              have := (pixOff_inj hlx hlx' hk hk' heq).1
              omega
          · rw [hstep] at hj1 hj2 ⊢
            have hlater := row_mul_le sw (show y + d.Top < y + inc + j * inc + d.Top by omega)
            have hc1 : comp1[pixOff sw (y + inc + j * inc + d.Top) (d.Left + x) k]? =
                comp[pixOff sw (y + inc + j * inc + d.Top) (d.Left + x) k]? := by
              rw [hrow_get]
              exact option_map_ite_neg (by unfold pixOff; omega) _ _
            rw [hstepW, h1 j x k hj1 hj2 hx hlx hk, hc1]
        · intro p hp
          rw [h2, hrow_get]
          · refine option_map_ite_neg ?_ _ _
            intro hc
            refine hp 0 ((p - ((y + d.Top) * sw * 4 + d.Left * 4)) / 4)
              ((p - ((y + d.Top) * sw * 4 + d.Left * 4)) % 4) (by omega) (by omega) (by omega)
              (by omega) (by omega) ?_
            unfold pixOff
            simp only [Nat.zero_mul, Nat.add_zero]
            omega
          · intro j x k hj1 hj2 hx hlx hk
            have := hp (j + 1) x k (by rw [hstep]; exact hj1) (by rw [hstep]; exact hj2) hx hlx hk
            rw [hstep] at this
            exact this
    · rw [if_neg hy]
      refine ⟨comp, rfl, ?_, fun _ _ => rfl⟩
      intro j x k h1
      exfalso; omega

end CGIFHelper

theorem IsPass.skip {cm : ColorMapObject} {tr : Int} {bits : List GifByteType} {d : GifImageDesc}
    {sw sh o s : Nat} {a b : List uint8} (h : IsPass cm tr bits d sw sh o s a b)
    {y x k : Nat} (hlx : d.Left + x < sw) (hk : k < 4) (hy : ∀ j, y ≠ o + j * s) :
    b[pixOff sw (y + d.Top) (d.Left + x) k]? = a[pixOff sw (y + d.Top) (d.Left + x) k]? := by
  apply h.2
  intro j x' k' _ _ _ hlx' hk' heq
  have := (pixOff_inj hlx hlx' hk hk' heq).1
  exact hy j (by omega)

theorem IsPass.hit {cm : ColorMapObject} {tr : Int} {bits : List GifByteType} {d : GifImageDesc}
    {sw sh o s : Nat} {a b : List uint8} (h : IsPass cm tr bits d sw sh o s a b)
    {y x k : Nat} (j : Nat) (hj : o + j * s = y) (hy : y < d.Height) (hys : y + d.Top < sh)
    (hx : x < d.Width) (hlx : d.Left + x < sw) (hk : k < 4) :
    b[pixOff sw (y + d.Top) (d.Left + x) k]? =
      (a[pixOff sw (y + d.Top) (d.Left + x) k]?).map
        (paintedByte cm tr bits ((o + j) * d.Width + x) k) := by
  have := h.1 j x k (by omega) (by omega) hx hlx hk
  rw [hj] at this
  rw [this, Nat.add_mul]

theorem IsPass.other {cm : ColorMapObject} {tr : Int} {bits : List GifByteType} {d : GifImageDesc}
    {sw sh o s : Nat} {a b : List uint8} (h : IsPass cm tr bits d sw sh o s a b) {p : Nat}
    (hp : ∀ y x k, y < d.Height → y + d.Top < sh → x < d.Width → d.Left + x < sw → k < 4 →
      p ≠ pixOff sw (y + d.Top) (d.Left + x) k) : b[p]? = a[p]? := by
  apply h.2
  intro j x k h1 h2 h3 h4 h5
  exact hp (o + j * s) x k h1 h2 h3 h4 h5

theorem IsComposition.of_pass {cm : ColorMapObject} {tr : Int} {bits : List GifByteType}
    {d : GifImageDesc} {sw sh : Nat} {a b : List uint8} (hi : d.Interlace = false)
    (h : IsPass cm tr bits d sw sh 0 1 a b) : IsComposition cm tr bits d sw sh a b := by
  refine ⟨?_, fun p hp => h.other hp⟩
  intro y x k hy hys hx hlx hk
  have := h.hit y (by omega) hy hys hx hlx hk
  rw [this]
  simp [srcRow, hi]

theorem IsComposition.of_passes {cm : ColorMapObject} {tr : Int} {bits : List GifByteType}
    {d : GifImageDesc} {sw sh : Nat} {c0 c1 c2 c3 c4 : List uint8} (hi : d.Interlace = true)
    (h0 : IsPass cm tr bits d sw sh 0 8 c0 c1) (h1 : IsPass cm tr bits d sw sh 4 8 c1 c2)
    (h2 : IsPass cm tr bits d sw sh 2 4 c2 c3) (h3 : IsPass cm tr bits d sw sh 1 2 c3 c4) :
    IsComposition cm tr bits d sw sh c0 c4 := by
  refine ⟨?_, fun p hp => ?_⟩
  · intro y x k hy hys hx hlx hk
    by_cases m0 : y % 8 = 0
    · rw [h3.skip hlx hk (by omega), h2.skip hlx hk (by omega), h1.skip hlx hk (by omega),
        h0.hit (y / 8) (by omega) hy hys hx hlx hk]
      simp [srcRow, hi, m0]
    · by_cases m4 : y % 8 = 4
      · rw [h3.skip hlx hk (by omega), h2.skip hlx hk (by omega),
          h1.hit ((y - 4) / 8) (by omega) hy hys hx hlx hk, h0.skip hlx hk (by omega)]
        simp [srcRow, hi, m0, m4]
      · by_cases m2 : y % 4 = 2
        · rw [h3.skip hlx hk (by omega), h2.hit ((y - 2) / 4) (by omega) hy hys hx hlx hk,
            h1.skip hlx hk (by omega), h0.skip hlx hk (by omega)]
          simp [srcRow, hi, m0, m4, m2]
        · rw [h3.hit ((y - 1) / 2) (by omega) hy hys hx hlx hk, h2.skip hlx hk (by omega),
            h1.skip hlx hk (by omega), h0.skip hlx hk (by omega)]
          simp [srcRow, hi, m0, m4, m2]
  · rw [h3.other hp, h2.other hp, h1.other hp, h0.other hp]

theorem length_eq_of_getElem?_map {a b : List uint8}
    (h : ∀ p : Nat, ∃ f : uint8 → uint8, a[p]? = (b[p]?).map f) : a.length = b.length := by
  apply Nat.le_antisymm
  · by_contra hlt
    obtain ⟨f, hf⟩ := h b.length
    rw [List.getElem?_eq_none (Nat.le_refl _), Option.map_none'] at hf
    rw [List.getElem?_eq_none_iff] at hf
    omega
  · by_contra hlt
    obtain ⟨f, hf⟩ := h a.length
    rw [List.getElem?_eq_none (Nat.le_refl _)] at hf
    have hb : b[a.length]? = none := by
      cases hb : b[a.length]? with
      | none => rfl
      | some v => rw [hb] at hf; simp at hf
    rw [List.getElem?_eq_none_iff] at hb
    omega

/-- A loop `for ( x = 0; x < n; x++ )` that stores four bytes at `base + 4 * x`. -/
theorem foldl_store4_get (body : List uint8 → Nat → List uint8) (base : Nat)
    (V : Nat → Nat → uint8)
    (hbody : ∀ t x, body t x = store4 t (base + x * 4) (V x 0) (V x 1) (V x 2) (V x 3)) :
    ∀ n t p, ((List.range n).foldl body t)[p]? =
      (t[p]?).map (fun old =>
        if base ≤ p ∧ p < base + n * 4 then V ((p - base) / 4) ((p - base) % 4) else old) := by
  intro n
  induction n with
  | zero =>
    intro t p
    exact (option_map_ite_neg (by omega) _ _).symm
  | succ n ih =>
    intro t p
    rw [List.range_succ, List.foldl_append, List.foldl_cons, List.foldl_nil, hbody,
      store4_getElem?, ih, Option.map_map]
    congr 1
    funext old
    simp only [Function.comp]
    by_cases h0 : p = base + n * 4
    · have e1 : (p - base) / 4 = n := by omega
      have e2 : (p - base) % 4 = 0 := by omega
      rw [if_pos h0, if_pos (by omega), e1, e2]
    · rw [if_neg h0]
      by_cases h1 : p = base + n * 4 + 1
      · have e1 : (p - base) / 4 = n := by omega
        have e2 : (p - base) % 4 = 1 := by omega
        rw [if_pos h1, if_pos (by omega), e1, e2]
      · rw [if_neg h1]
        by_cases h2 : p = base + n * 4 + 2
        · have e1 : (p - base) / 4 = n := by omega
          have e2 : (p - base) % 4 = 2 := by omega
          rw [if_pos h2, if_pos (by omega), e1, e2]
        · rw [if_neg h2]
          by_cases h3 : p = base + n * 4 + 3
          · have e1 : (p - base) / 4 = n := by omega
            have e2 : (p - base) % 4 = 3 := by omega
            rw [if_pos h3, if_pos (by omega), e1, e2]
          · rw [if_neg h3]
            by_cases hc : base ≤ p ∧ p < base + n * 4
            · rw [if_pos hc, if_pos (by omega)]
            · rw [if_neg hc, if_neg (by omega)]

/-- A loop over rows `y < m`, row `y` storing `w` pixels from byte offset `rowBase y`, the rows
lying one after the other in the buffer. -/
theorem foldl_rows_spec (body : List uint8 → Nat → List uint8) (rowBase : Nat → Nat) (w : Nat)
    (V : Nat → Nat → Nat → uint8)
    (hbody : ∀ t y p, (body t y)[p]? = (t[p]?).map (fun old =>
      if rowBase y ≤ p ∧ p < rowBase y + w * 4 then
        V y ((p - rowBase y) / 4) ((p - rowBase y) % 4) else old))
    (hdisj : ∀ y y', y < y' → rowBase y + w * 4 ≤ rowBase y') :
    ∀ m t,
      (∀ y x k, y < m → x < w → k < 4 →
        ((List.range m).foldl body t)[rowBase y + x * 4 + k]? =
          (t[rowBase y + x * 4 + k]?).map (fun _ => V y x k)) ∧
      (∀ p, (∀ y, y < m → ¬(rowBase y ≤ p ∧ p < rowBase y + w * 4)) →
        ((List.range m).foldl body t)[p]? = t[p]?) := by
  intro m
  induction m with
  | zero =>
    intro t
    refine ⟨fun y x k hy => absurd hy (Nat.not_lt_zero _), fun p _ => rfl⟩
  | succ m ih =>
    intro t
    obtain ⟨ih1, ih2⟩ := ih t
    refine ⟨?_, ?_⟩
    · intro y x k hy hx hk
      rw [List.range_succ, List.foldl_append, List.foldl_cons, List.foldl_nil, hbody]
      by_cases hlast : y = m
      · subst hlast
        rw [ih2 _ (fun y' hy' => by have := hdisj y' y hy'; omega)]
        congr 1
        funext old
        have e1 : (rowBase y + x * 4 + k - rowBase y) / 4 = x := by omega
        have e2 : (rowBase y + x * 4 + k - rowBase y) % 4 = k := by omega
        rw [if_pos (by omega), e1, e2]
      · rw [ih1 y x k (by omega) hx hk]
        have := hdisj y m (by omega)
        exact option_map_ite_neg (by omega) _ _
    · intro p hp
      rw [List.range_succ, List.foldl_append, List.foldl_cons, List.foldl_nil, hbody,
        ih2 p (fun y hy => hp y (by omega))]
      exact option_map_ite_neg (hp m (by omega)) _ _

theorem exists_row_of_lt {p m s : Nat} (h : p < m * s) : ∃ y, y < m ∧ y * s ≤ p ∧ p < y * s + s := by
  induction m with
  | zero => simp at h
  | succ m ih =>
    by_cases hp : p < m * s
    · obtain ⟨y, hy, h1, h2⟩ := ih hp
      exact ⟨y, by omega, h1, h2⟩
    · rw [Nat.succ_mul] at h
      exact ⟨m, by omega, by omega, by omega⟩

namespace CGIFHelper

theorem resample_spec (comp : List uint8) (sw sh tw th : Nat) (t : List uint8) :
    (∀ y x k, y < th → x < tw → k < 4 →
      (resample comp sw sh tw th t)[y * (tw * 4) + x * 4 + k]? =
        (t[y * (tw * 4) + x * 4 + k]?).map (fun _ =>
          comp.getD ((y * sh / th) * (sw * 4) + (x * sw / tw) * 4 + k) 0)) ∧
    (∀ p, th * (tw * 4) ≤ p → (resample comp sw sh tw th t)[p]? = t[p]?) := by
  have h := foldl_rows_spec
    (fun t y =>
      (List.range tw).foldl
        (fun t x =>
          store4 t (y * (tw * cBytesPerPixel) + x * cBytesPerPixel)
            (comp.getD ((y * sh) / th * (sw * cBytesPerPixel) + (x * sw) / tw * cBytesPerPixel) 0)
            (comp.getD ((y * sh) / th * (sw * cBytesPerPixel) + (x * sw) / tw * cBytesPerPixel + 1) 0)
            (comp.getD ((y * sh) / th * (sw * cBytesPerPixel) + (x * sw) / tw * cBytesPerPixel + 2) 0)
            (comp.getD ((y * sh) / th * (sw * cBytesPerPixel) + (x * sw) / tw * cBytesPerPixel + 3) 0))
        t)
    (fun y => y * (tw * 4)) tw
    (fun y x k => comp.getD ((y * sh / th) * (sw * 4) + (x * sw / tw) * 4 + k) 0)
    (fun t y p => foldl_store4_get _ (y * (tw * 4))
      (fun x k => comp.getD ((y * sh / th) * (sw * 4) + (x * sw / tw) * 4 + k) 0)
      (fun _ _ => rfl) tw t p)
    (fun y y' hyy => by
      show y * (tw * 4) + tw * 4 ≤ y' * (tw * 4)
      exact row_mul_le (tw * 4) hyy)
    th t
  refine ⟨h.1, fun p hp => h.2 p (fun y hy => ?_)⟩
  have := row_mul_le (tw * 4) hy
  omega

theorem resample_length (comp : List uint8) (sw sh tw th : Nat) (t : List uint8) :
    (resample comp sw sh tw th t).length = t.length := by
  apply length_eq_of_getElem?_map
  intro p
  by_cases hp : p < th * (tw * 4)
  · obtain ⟨y, hy, h1, h2⟩ := exists_row_of_lt hp
    have := (resample_spec comp sw sh tw th t).1 y ((p - y * (tw * 4)) / 4) ((p - y * (tw * 4)) % 4)
      hy (by omega) (by omega)
    have e : y * (tw * 4) + (p - y * (tw * 4)) / 4 * 4 + (p - y * (tw * 4)) % 4 = p := by omega
    rw [e] at this
    exact ⟨_, this⟩
  · exact ⟨id, by rw [(resample_spec comp sw sh tw th t).2 p (by omega)]; simp⟩

theorem resample_congr (comp : List uint8) (sw sh tw th : Nat) (t t' : List uint8)
    (hlen : t.length = t'.length) (hsize : t.length ≤ th * (tw * 4)) :
    resample comp sw sh tw th t = resample comp sw sh tw th t' := by
  apply List.ext_getElem?
  intro p
  by_cases hp : p < th * (tw * 4)
  · obtain ⟨y, hy, h1, h2⟩ := exists_row_of_lt hp
    have e : y * (tw * 4) + (p - y * (tw * 4)) / 4 * 4 + (p - y * (tw * 4)) % 4 = p := by omega
    have a := (resample_spec comp sw sh tw th t).1 y ((p - y * (tw * 4)) / 4)
      ((p - y * (tw * 4)) % 4) hy (by omega) (by omega)
    have b := (resample_spec comp sw sh tw th t').1 y ((p - y * (tw * 4)) / 4)
      ((p - y * (tw * 4)) % 4) hy (by omega) (by omega)
    rw [e] at a b
    rw [a, b]
    rcases Nat.lt_or_ge p t.length with hl | hl
    · rw [List.getElem?_eq_getElem hl, List.getElem?_eq_getElem (by omega : p < t'.length)]
      rfl
    · rw [List.getElem?_eq_none hl, List.getElem?_eq_none (by omega : t'.length ≤ p)]
  · rw [(resample_spec comp sw sh tw th t).2 p (by omega),
      (resample_spec comp sw sh tw th t').2 p (by omega),
      List.getElem?_eq_none (by omega), List.getElem?_eq_none (by omega)]

end CGIFHelper

/-! ## Animation timer -/

namespace CGIFHelper

theorem NextFrame_image (s : CGIFHelper) (now : ℚ) : (NextFrame s now).2.m_pImage = s.m_pImage := by
  unfold NextFrame
  cases h : s.m_pImage with
  | none => simp [h]
  | some img =>
    simp only
    split <;> rfl

theorem NextFrame_selected (s : CGIFHelper) (img : GifFileType) (now : ℚ)
    (h : s.m_pImage = some img) :
    (NextFrame s now).2.m_iSelectedFrame =
      (if s.m_iSelectedFrame + 1 ≥ img.ImageCount then 0 else s.m_iSelectedFrame + 1) ∧
    (NextFrame s now).1 = decide ((NextFrame s now).2.m_iSelectedFrame = 0) := by
  unfold NextFrame
  simp only [h]
  split <;> simp

theorem NextFrameCalls_state (clock : Nat → ℚ) (s : CGIFHelper) (img : GifFileType)
    (hopen : s.m_pImage = some img) (h0 : s.m_iSelectedFrame = 0) :
    ∀ i, i ≤ img.ImageCount →
      (NextFrameCalls clock i s).2.m_pImage = some img ∧
      (NextFrameCalls clock i s).2.m_iSelectedFrame = (if i = img.ImageCount then 0 else i) := by
  intro i
  induction i with
  | zero =>
    intro _
    refine ⟨hopen, ?_⟩
    simp only [NextFrameCalls, h0]
    split <;> rfl
  | succ k ih =>
    intro hk
    obtain ⟨hi, hs⟩ := ih (by omega)
    have hne : k ≠ img.ImageCount := by omega
    rw [if_neg hne] at hs
    refine ⟨?_, ?_⟩
    · simp only [NextFrameCalls, NextFrame_image, hi]
    · simp only [NextFrameCalls]
      rw [(NextFrame_selected _ img (clock k) hi).1, hs]
      by_cases hlast : k + 1 = img.ImageCount
      · rw [if_pos (by omega), if_pos hlast]
      · rw [if_neg (by omega), if_neg hlast]

/-- C1. For an open container with `N ≥ 1` frames whose selected index is 0, among `N`
consecutive `NextFrame` calls the `i`-th call (`1 ≤ i ≤ N`) returns true exactly when `i = N`,
leaves the selected index at `i` when `i < N`, and at 0 again after the `N`-th call. -/
theorem NextFrame_wraps (clock : Nat → ℚ) (s : CGIFHelper) (img : GifFileType)
    (hopen : s.m_pImage = some img) (h0 : s.GetSelectedFrame = 0)
    (i : Nat) (h1 : 1 ≤ i) (hi : i ≤ img.ImageCount) :
    (NextFrameCalls clock i s).1 = decide (i = img.ImageCount) ∧
    (NextFrameCalls clock i s).2.GetSelectedFrame = (if i = img.ImageCount then 0 else i) := by
  obtain ⟨k, rfl⟩ : ∃ k, i = k + 1 := ⟨i - 1, by omega⟩
  have hst := NextFrameCalls_state clock s img hopen h0
  obtain ⟨hik, _⟩ := hst k (by omega)
  obtain ⟨_, hsel⟩ := hst (k + 1) hi
  refine ⟨?_, hsel⟩
  have hflag := (NextFrame_selected (NextFrameCalls clock k s).2 img (clock k) hik).2
  simp only [NextFrameCalls] at hsel ⊢
  rw [hflag, hsel]
  by_cases hlast : k + 1 = img.ImageCount
  · simp [hlast]
  · simp only [if_neg hlast, hlast]
    simp

end CGIFHelper

/-! ## Composition of a frame -/

theorem IsComposition.unique {cm : ColorMapObject} {tr : Int} {bits : List GifByteType}
    {d : GifImageDesc} {sw sh : Nat} {c0 a b : List uint8}
    (ha : IsComposition cm tr bits d sw sh c0 a) (hb : IsComposition cm tr bits d sw sh c0 b) :
    a = b := by
  apply List.ext_getElem?
  intro p
  by_cases hp : ∃ y x k, y < d.Height ∧ y + d.Top < sh ∧ x < d.Width ∧ d.Left + x < sw ∧ k < 4 ∧
      p = pixOff sw (y + d.Top) (d.Left + x) k
  · obtain ⟨y, x, k, h1, h2, h3, h4, h5, rfl⟩ := hp
    rw [ha.1 y x k h1 h2 h3 h4 h5, hb.1 y x k h1 h2 h3 h4 h5]
  · have hp' : ∀ y x k, y < d.Height → y + d.Top < sh → x < d.Width → d.Left + x < sw → k < 4 →
        p ≠ pixOff sw (y + d.Top) (d.Left + x) k :=
      fun y x k h1 h2 h3 h4 h5 he => hp ⟨y, x, k, h1, h2, h3, h4, h5, he⟩
    rw [ha.2 p hp', hb.2 p hp']

theorem paintedByte_idem (cm : ColorMapObject) (tr : Int) (bits : List GifByteType)
    (i k : Nat) (v : uint8) :
    paintedByte cm tr bits i k (paintedByte cm tr bits i k v) = paintedByte cm tr bits i k v := by
  unfold paintedByte
  split_ifs <;> rfl

theorem IsComposition.idem {cm : ColorMapObject} {tr : Int} {bits : List GifByteType}
    {d : GifImageDesc} {sw sh : Nat} {c0 c : List uint8}
    (h : IsComposition cm tr bits d sw sh c0 c) : IsComposition cm tr bits d sw sh c c := by
  refine ⟨?_, fun _ _ => rfl⟩
  intro y x k h1 h2 h3 h4 h5
  rw [h.1 y x k h1 h2 h3 h4 h5, Option.map_map]
  congr 1
  funext v
  exact (paintedByte_idem cm tr bits _ k v).symm

theorem IsComposition.length {cm : ColorMapObject} {tr : Int} {bits : List GifByteType}
    {d : GifImageDesc} {sw sh : Nat} {c0 c : List uint8}
    (h : IsComposition cm tr bits d sw sh c0 c) : c.length = c0.length := by
  apply length_eq_of_getElem?_map
  intro p
  by_cases hp : ∃ y x k, y < d.Height ∧ y + d.Top < sh ∧ x < d.Width ∧ d.Left + x < sw ∧ k < 4 ∧
      p = pixOff sw (y + d.Top) (d.Left + x) k
  · obtain ⟨y, x, k, h1, h2, h3, h4, h5, rfl⟩ := hp
    exact ⟨_, h.1 y x k h1 h2 h3 h4 h5⟩
  · refine ⟨id, ?_⟩
    rw [h.2 p (fun y x k h1 h2 h3 h4 h5 he => hp ⟨y, x, k, h1, h2, h3, h4, h5, he⟩)]
    simp

namespace CGIFHelper

theorem lambdaComputeFrame_spec (cm : ColorMapObject) (tr : Int) (bits : List GifByteType)
    (d : GifImageDesc) (sw sh tw th o s : Nat) (hs : 1 ≤ s) (a : List uint8)
    (target : Option (List uint8)) :
    ∃ b, lambdaComputeFrame (some cm) tr (some bits) d sw sh tw th o s a target =
        some (b, target.map (resample b sw sh tw th)) ∧
      IsPass cm tr bits d sw sh o s a b := by
  obtain ⟨b, hrun, h1, h2⟩ := paintRows_spec cm tr bits d sw sh s hs d.Height o (o * d.Width) a
    (by omega)
  refine ⟨b, ?_, h1, h2⟩
  unfold lambdaComputeFrame
  rw [hrun]
  cases target <;> rfl

theorem compose_spec (cm : ColorMapObject) (tr : Int) (bits : List GifByteType)
    (d : GifImageDesc) (sw sh tw th : Nat) (comp0 : List uint8) :
    ∃ comp target, IsComposition cm tr bits d sw sh comp0 comp ∧
      (if d.Interlace then
        interlacePasses (some cm) tr (some bits) d sw sh tw th [0, 1, 2, 3] comp0
          (if tw = sw ∧ th = sh then none else some (List.replicate (tw * cBytesPerPixel * th) 0))
      else
        lambdaComputeFrame (some cm) tr (some bits) d sw sh tw th 0 1 comp0
          (if tw = sw ∧ th = sh then none else some (List.replicate (tw * cBytesPerPixel * th) 0)))
        = some (comp, target) ∧
      target.getD comp = targetBuffer comp sw sh tw th := by
  generalize hT : (if tw = sw ∧ th = sh then (none : Option (List uint8))
    else some (List.replicate (tw * cBytesPerPixel * th) 0)) = T0
  cases hi : d.Interlace with
  | false =>
    obtain ⟨b, hrun, hpass⟩ := lambdaComputeFrame_spec cm tr bits d sw sh tw th 0 1 (by omega) comp0 T0
    refine ⟨b, T0.map (resample b sw sh tw th), IsComposition.of_pass hi hpass,
      by simpa using hrun, ?_⟩
    unfold targetBuffer
    rw [← hT]
    split_ifs <;> rfl
  | true =>
    obtain ⟨c1, hrun1, hpass1⟩ := lambdaComputeFrame_spec cm tr bits d sw sh tw th 0 8 (by omega)
      comp0 T0
    obtain ⟨c2, hrun2, hpass2⟩ := lambdaComputeFrame_spec cm tr bits d sw sh tw th 4 8 (by omega)
      c1 (T0.map (resample c1 sw sh tw th))
    obtain ⟨c3, hrun3, hpass3⟩ := lambdaComputeFrame_spec cm tr bits d sw sh tw th 2 4 (by omega)
      c2 ((T0.map (resample c1 sw sh tw th)).map (resample c2 sw sh tw th))
    obtain ⟨c4, hrun4, hpass4⟩ := lambdaComputeFrame_spec cm tr bits d sw sh tw th 1 2 (by omega)
      c3 (((T0.map (resample c1 sw sh tw th)).map (resample c2 sw sh tw th)).map
        (resample c3 sw sh tw th))
    refine ⟨c4, (((T0.map (resample c1 sw sh tw th)).map (resample c2 sw sh tw th)).map
        (resample c3 sw sh tw th)).map (resample c4 sw sh tw th),
      IsComposition.of_passes hi hpass1 hpass2 hpass3 hpass4, ?_, ?_⟩
    · simp only [if_true, interlacePasses, k_rowOffsets, k_rowIncrements, List.getD_cons_zero,
        List.getD_cons_succ, hrun1, hrun2, hrun3, hrun4]
    · unfold targetBuffer
      rw [← hT]
      split_ifs with halias
      · rfl
      · simp only [Option.map_some', Option.getD_some]
        apply resample_congr
        · simp only [resample_length]
        · simp only [resample_length, List.length_replicate, cBytesPerPixel]
          exact Nat.le_of_eq (Nat.mul_comm _ _)

theorem Q_memcpy_stackalloc (prev : List uint8) (n : Nat) (h : prev.length = n) :
    Q_memcpy (stackalloc n) prev n = prev := by
  unfold Q_memcpy stackalloc
  rw [List.take_of_length_le (by omega), List.drop_of_length_le (by simp)]
  simp

theorem FrameData_eq (eng : ImageLoader) (s : CGIFHelper) (fmt : ImageFormat) (img : GifFileType)
    (frame : SavedImage) (bits : List GifByteType) (cm : ColorMapObject) (prev : List uint8)
    (hr : Renderable s img frame bits cm prev) (hfmt : (FrameSize eng s fmt).1 ≠ -1) :
    ∃ comp, IsComposition cm (frameControl img s.m_iSelectedFrame).1 bits frame.ImageDesc
        img.SWidth img.SHeight prev comp ∧
      (∀ bytes, FrameData eng s fmt (.caller bytes) =
        (applyDisposal img frame.ImageDesc (frameControl img s.m_iSelectedFrame).2 prev comp).map
          (fun prev1 =>
            ({ s with m_pubPrevFrameBuffer := some prev1 },
              OutBuffer.caller (writeBytes bytes (eng.ConvertImageFormat
                (targetBuffer comp img.SWidth img.SHeight (FrameSize eng s fmt).2.1
                  (FrameSize eng s fmt).2.2) fmt (FrameSize eng s fmt).2.1
                (FrameSize eng s fmt).2.2))))) ∧
      FrameData eng s fmt .prevFrame =
        (applyDisposal img frame.ImageDesc (frameControl img s.m_iSelectedFrame).2 prev comp).map
          (fun prev1 =>
            ({ s with m_pubPrevFrameBuffer := some (writeBytes prev1 (eng.ConvertImageFormat
                (targetBuffer comp img.SWidth img.SHeight (FrameSize eng s fmt).2.1
                  (FrameSize eng s fmt).2.2) fmt (FrameSize eng s fmt).2.1
                (FrameSize eng s fmt).2.2)) },
              OutBuffer.prevFrame)) := by
  obtain ⟨f, r, hhead, hfr⟩ := hr.first
  obtain ⟨comp, target, hcomp, hrun, htgt⟩ := compose_spec cm (frameControl img s.m_iSelectedFrame).1
    bits frame.ImageDesc img.SWidth img.SHeight (FrameSize eng s fmt).2.1 (FrameSize eng s fmt).2.2
    prev
  have hcomp0 : Q_memcpy (stackalloc (img.SWidth * cBytesPerPixel * img.SHeight)) prev
      (img.SWidth * cBytesPerPixel * img.SHeight) = prev :=
    Q_memcpy_stackalloc prev _ (by rw [hr.canvasSize]; simp only [cBytesPerPixel]; ring)
  refine ⟨comp, hcomp, fun bytes => ?_, ?_⟩
  · unfold FrameData
    simp only [hr.image, hhead, hfr, Option.isNone_some, Bool.false_eq_true, if_false, hfmt,
      hr.selected, hr.canvas, hr.raster, hr.colors, hcomp0, hrun]
    rw [← htgt]
    cases applyDisposal img frame.ImageDesc (frameControl img s.m_iSelectedFrame).2 prev comp <;> rfl
  · unfold FrameData
    simp only [hr.image, hhead, hfr, Option.isNone_some, Bool.false_eq_true, if_false, hfmt,
      hr.selected, hr.canvas, hr.raster, hr.colors, hcomp0, hrun]
    rw [← htgt]
    cases applyDisposal img frame.ImageDesc (frameControl img s.m_iSelectedFrame).2 prev comp <;> rfl

end CGIFHelper

/-! ## Pixels, background fill and disposal -/

theorem pixelAt_getElem? (buf : List uint8) (sw sy sx k : Nat) :
    (pixelAt buf sw sy sx)[k]? = if k < 4 then buf[pixOff sw sy sx k]? else none := by
  unfold pixelAt pixOff
  rw [List.getElem?_take, List.getElem?_drop]

theorem pixelAt_congr {a b : List uint8} {sw sy sx sy' sx' : Nat}
    (h : ∀ k, k < 4 → a[pixOff sw sy sx k]? = b[pixOff sw sy' sx' k]?) :
    pixelAt a sw sy sx = pixelAt b sw sy' sx' := by
  apply List.ext_getElem?
  intro k
  rw [pixelAt_getElem?, pixelAt_getElem?]
  split_ifs with hk
  · exact h k hk
  · rfl

theorem pixelAt_eq_rgba {a : List uint8} {sw sy sx : Nat} {c : GifColorType}
    (h : ∀ k, k < 4 → a[pixOff sw sy sx k]? = some (colorByte c k)) :
    pixelAt a sw sy sx = rgba c := by
  apply List.ext_getElem?
  intro k
  rw [pixelAt_getElem?]
  split_ifs with hk
  · rw [h k hk]
    have : k = 0 ∨ k = 1 ∨ k = 2 ∨ k = 3 := by omega
    rcases this with rfl | rfl | rfl | rfl <;> rfl
  · unfold rgba
    rw [List.getElem?_eq_none (by simp; omega)]

theorem packed_fill_color (r g b : Nat) (hr : r < 256) (hg : g < 256) (hb : b < 256) :
    (r ||| (g <<< 8) ||| (b <<< 16) ||| (0xFF <<< 24)) % 2 ^ 32 =
      r + 256 * g + 65536 * b + 16777216 * 255 := by
  have e1 : r ||| (g <<< 8) = 2 ^ 8 * g + r := by
    rw [Nat.shiftLeft_eq, Nat.or_comm, Nat.mul_comm g, ← Nat.mul_add_lt_is_or (by omega)]
  have e2 : (2 ^ 8 * g + r) ||| (b <<< 16) = 2 ^ 16 * b + (2 ^ 8 * g + r) := by
    rw [Nat.shiftLeft_eq, Nat.or_comm, Nat.mul_comm b, ← Nat.mul_add_lt_is_or (by omega)]
  have e3 : (2 ^ 16 * b + (2 ^ 8 * g + r)) ||| (0xFF <<< 24) =
      2 ^ 24 * 0xFF + (2 ^ 16 * b + (2 ^ 8 * g + r)) := by
    rw [Nat.shiftLeft_eq, Nat.or_comm, Nat.mul_comm 0xFF, ← Nat.mul_add_lt_is_or (by omega)]
  rw [e1, e2, e3]
  omega

theorem storeU32_fill_color (buf : List uint8) (off : Nat) (c : GifColorType) :
    storeU32 buf off
      ((c.Red.val ||| (c.Green.val <<< 8) ||| (c.Blue.val <<< 16) ||| (0xFF <<< 24)) % 2 ^ 32) =
    store4 buf off (colorByte c 0) (colorByte c 1) (colorByte c 2) (colorByte c 3) := by
  have hr := c.Red.isLt
  have hg := c.Green.isLt
  have hb := c.Blue.isLt
  unfold storeU32
  rw [packed_fill_color _ _ _ hr hg hb]
  have b0 : (Fin.ofNat ((c.Red.val + 256 * c.Green.val + 65536 * c.Blue.val + 16777216 * 255) % 256)
      : uint8) = colorByte c 0 := by
    apply Fin.ext
    show ((c.Red.val + 256 * c.Green.val + 65536 * c.Blue.val + 16777216 * 255) % 256) % 256 = c.Red.val
    omega
  have b1 : (Fin.ofNat ((c.Red.val + 256 * c.Green.val + 65536 * c.Blue.val + 16777216 * 255) /
      2 ^ 8 % 256) : uint8) = colorByte c 1 := by
    apply Fin.ext
    show ((c.Red.val + 256 * c.Green.val + 65536 * c.Blue.val + 16777216 * 255) / 2 ^ 8 % 256) % 256
      = c.Green.val
    omega
  have b2 : (Fin.ofNat ((c.Red.val + 256 * c.Green.val + 65536 * c.Blue.val + 16777216 * 255) /
      2 ^ 16 % 256) : uint8) = colorByte c 2 := by
    apply Fin.ext
    show ((c.Red.val + 256 * c.Green.val + 65536 * c.Blue.val + 16777216 * 255) / 2 ^ 16 % 256) % 256
      = c.Blue.val
    omega
  have b3 : (Fin.ofNat ((c.Red.val + 256 * c.Green.val + 65536 * c.Blue.val + 16777216 * 255) /
      2 ^ 24 % 256) : uint8) = colorByte c 3 := by
    apply Fin.ext
    show ((c.Red.val + 256 * c.Green.val + 65536 * c.Blue.val + 16777216 * 255) / 2 ^ 24 % 256) % 256
      = 255
    omega
  rw [b0, b1, b2, b3]

namespace CGIFHelper

theorem fillBackground_spec (prev : List uint8) (d : GifImageDesc) (sw : Nat) (fh fw : Int)
    (c : GifColorType) (hw : fw.toNat = 0 ∨ d.Left + fw.toNat ≤ sw) :
    (∀ y x k, y < fh.toNat → x < fw.toNat → k < 4 →
      (fillBackground prev d sw fh fw
        ((c.Red.val ||| (c.Green.val <<< 8) ||| (c.Blue.val <<< 16) ||| (0xFF <<< 24)) % 2 ^ 32))[
          pixOff sw (y + d.Top) (d.Left + x) k]? =
        (prev[pixOff sw (y + d.Top) (d.Left + x) k]?).map (fun _ => colorByte c k)) ∧
    (∀ p, (∀ y x k, y < fh.toNat → x < fw.toNat → k < 4 →
        p ≠ pixOff sw (y + d.Top) (d.Left + x) k) →
      (fillBackground prev d sw fh fw
        ((c.Red.val ||| (c.Green.val <<< 8) ||| (c.Blue.val <<< 16) ||| (0xFF <<< 24)) % 2 ^ 32))[p]? =
        prev[p]?) := by
  have hmul : ∀ y, (y + d.Top) * (sw * 4) = ((y + d.Top) * sw) * 4 := fun y => by ring
  have h := foldl_rows_spec
    (fun buf y =>
      (List.range fw.toNat).foldl
        (fun buf x =>
          storeU32 buf ((y + d.Top) * (sw * cBytesPerPixel) + d.Left * cBytesPerPixel + 4 * x)
            ((c.Red.val ||| (c.Green.val <<< 8) ||| (c.Blue.val <<< 16) ||| (0xFF <<< 24)) % 2 ^ 32))
        buf)
    (fun y => (y + d.Top) * (sw * 4) + d.Left * 4) fw.toNat
    (fun _ _ k => colorByte c k)
    (fun t y p => by
      have := foldl_store4_get
        (fun buf x =>
          storeU32 buf ((y + d.Top) * (sw * cBytesPerPixel) + d.Left * cBytesPerPixel + 4 * x)
            ((c.Red.val ||| (c.Green.val <<< 8) ||| (c.Blue.val <<< 16) ||| (0xFF <<< 24)) % 2 ^ 32))
        ((y + d.Top) * (sw * 4) + d.Left * 4) (fun _ k => colorByte c k)
        (fun t x => by
          show storeU32 t ((y + d.Top) * (sw * 4) + d.Left * 4 + 4 * x) _ = _
          rw [storeU32_fill_color, Nat.mul_comm 4 x])
        fw.toNat t p
      exact this)
    (fun y y' hyy => by
      show (y + d.Top) * (sw * 4) + d.Left * 4 + fw.toNat * 4 ≤ (y' + d.Top) * (sw * 4) + d.Left * 4
      rcases hw with h0 | hle
      · have := Nat.mul_le_mul_right (sw * 4) (show y + d.Top ≤ y' + d.Top by omega)
        omega
      · have := row_mul_le (sw * 4) (show y + d.Top < y' + d.Top by omega)
        omega)
    fh.toNat prev
  refine ⟨?_, ?_⟩
  · intro y x k hy hx hk
    have := h.1 y x k hy hx hk
    have e : (y + d.Top) * (sw * 4) + d.Left * 4 + x * 4 + k = pixOff sw (y + d.Top) (d.Left + x) k := by
      unfold pixOff; rw [hmul]; omega
    simp only [e] at this
    exact this
  · intro p hp
    apply h.2
    intro y hy hc
    refine hp y ((p - ((y + d.Top) * (sw * 4) + d.Left * 4)) / 4)
      ((p - ((y + d.Top) * (sw * 4) + d.Left * 4)) % 4) hy (by omega) (by omega) ?_
    unfold pixOff
    rw [hmul] at hc ⊢
    omega

theorem FrameSize_rgba (eng : ImageLoader) (s : CGIFHelper) (img : GifFileType)
    (h : s.m_pImage = some img) :
    FrameSize eng s .IMAGE_FORMAT_RGBA8888 =
      (((img.SWidth * img.SHeight * 4 : Nat) : Int), img.SWidth, img.SHeight) := by
  unfold FrameSize
  rw [h]
  rfl

theorem FrameSize_supported (eng : ImageLoader) (s : CGIFHelper) (img : GifFileType)
    (fmt : ImageFormat) (h : s.m_pImage = some img) (hfmt : ∀ c, fmt ≠ .other c) :
    (FrameSize eng s fmt).1 ≠ -1 := by
  unfold FrameSize
  rw [h]
  cases fmt <;> first | (simp only; omega) | exact absurd rfl (hfmt _)

theorem applyDisposal_keep (img : GifFileType) (d : GifImageDesc) (disp : Int)
    (prev comp : List uint8) (h2 : disp ≠ DISPOSE_BACKGROUND) (h3 : disp ≠ DISPOSE_PREVIOUS)
    (hprev : prev.length = img.SWidth * img.SHeight * 4) (hcomp : comp.length = prev.length) :
    applyDisposal img d disp prev comp = some comp := by
  unfold applyDisposal
  simp only [if_neg h2, if_neg h3]
  unfold Q_memcpy
  rw [List.take_of_length_le (by rw [hcomp, hprev]; simp only [cBytesPerPixel]; ring_nf; exact Nat.le_refl _),
    List.drop_of_length_le (by rw [hprev]; simp only [cBytesPerPixel]; ring_nf; exact Nat.le_refl _)]
  simp

theorem applyDisposal_previous (img : GifFileType) (d : GifImageDesc) (prev comp : List uint8) :
    applyDisposal img d DISPOSE_PREVIOUS prev comp = some prev := by
  unfold applyDisposal
  rw [if_neg (by decide), if_pos rfl]

theorem applyDisposal_background (img : GifFileType) (d : GifImageDesc) (prev comp : List uint8)
    (g : ColorMapObject) (hg : img.SColorMap = some g) (hbg : img.SBackGroundColor < g.ColorCount) :
    applyDisposal img d DISPOSE_BACKGROUND prev comp =
      some (fillBackground prev d img.SWidth
        (min (d.Height : Int) ((img.SHeight : Int) - d.Top))
        (min (d.Width : Int) ((img.SWidth : Int) - d.Left))
        (((g.Colors.getD img.SBackGroundColor ⟨0, 0, 0⟩).Red.val |||
          ((g.Colors.getD img.SBackGroundColor ⟨0, 0, 0⟩).Green.val <<< 8) |||
          ((g.Colors.getD img.SBackGroundColor ⟨0, 0, 0⟩).Blue.val <<< 16) |||
          (0xFF <<< 24)) % 2 ^ 32)) := by
  unfold applyDisposal
  simp only [if_true, hg, if_pos hbg]

theorem foldl_length_inv (f : List uint8 → Nat → List uint8)
    (hf : ∀ t x, (f t x).length = t.length) :
    ∀ (l : List Nat) (t : List uint8), (l.foldl f t).length = t.length := by
  intro l
  induction l with
  | nil => intro t; rfl
  | cons a l ih => intro t; rw [List.foldl_cons, ih, hf]

theorem fillBackground_length (prev : List uint8) (d : GifImageDesc) (sw : Nat) (fh fw : Int)
    (v : Nat) : (fillBackground prev d sw fh fw v).length = prev.length := by
  unfold fillBackground
  apply foldl_length_inv
  intro t y
  apply foldl_length_inv
  intro t x
  unfold storeU32
  rw [store4_length]

theorem applyDisposal_length (img : GifFileType) (d : GifImageDesc) (disp : Int)
    (prev comp prev1 : List uint8) (h : applyDisposal img d disp prev comp = some prev1)
    (hprev : prev.length = img.SWidth * img.SHeight * 4) (hcomp : comp.length = prev.length) :
    prev1.length = prev.length := by
  by_cases h2 : disp = DISPOSE_BACKGROUND
  · subst h2
    unfold applyDisposal at h
    rw [if_pos rfl] at h
    cases hg : img.SColorMap with
    | none => rw [hg] at h; simp at h
    | some g =>
      rw [hg] at h
      simp only at h
      split_ifs at h
      · injection h with h
        rw [← h, fillBackground_length]
      · injection h with h
        rw [← h]
  · by_cases h3 : disp = DISPOSE_PREVIOUS
    · subst h3
      rw [applyDisposal_previous] at h
      injection h with h
      rw [← h]
    · rw [applyDisposal_keep img d disp prev comp h2 h3 hprev hcomp] at h
      injection h with h
      rw [← h, hcomp]

theorem applyDisposal_isSome (img : GifFileType) (d : GifImageDesc) (disp : Int)
    (prev comp : List uint8) (hbg : disp = DISPOSE_BACKGROUND → img.SColorMap ≠ none) :
    ∃ prev1, applyDisposal img d disp prev comp = some prev1 := by
  unfold applyDisposal
  by_cases h2 : disp = DISPOSE_BACKGROUND
  · rw [if_pos h2]
    cases hg : img.SColorMap with
    | none => exact absurd hg (hbg h2)
    | some g =>
      simp only
      split_ifs <;> exact ⟨_, rfl⟩
  · rw [if_neg h2]
    split_ifs <;> exact ⟨_, rfl⟩

theorem applyDisposal_isSome_iff (img : GifFileType) (d : GifImageDesc) (disp : Int)
    (prev comp : List uint8) :
    (applyDisposal img d disp prev comp).isSome = true ↔
      (disp = DISPOSE_BACKGROUND → img.SColorMap ≠ none) := by
  constructor
  · intro h hd hnone
    unfold applyDisposal at h
    rw [if_pos hd, hnone] at h
    cases h
  · intro hbg
    obtain ⟨prev1, h⟩ := applyDisposal_isSome img d disp prev comp hbg
    rw [h]
    rfl

/-- Method `FrameData` with `IMAGE_FORMAT_RGBA8888`: the bytes written to the output are the composition
buffer. -/
theorem FrameData_rgba (eng : ImageLoader) (s : CGIFHelper) (img : GifFileType)
    (frame : SavedImage) (bits : List GifByteType) (cm : ColorMapObject) (prev : List uint8)
    (hr : Renderable s img frame bits cm prev) :
    ∃ comp, IsComposition cm (frameControl img s.m_iSelectedFrame).1 bits frame.ImageDesc
        img.SWidth img.SHeight prev comp ∧
      (∀ bytes, FrameData eng s .IMAGE_FORMAT_RGBA8888 (.caller bytes) =
        (applyDisposal img frame.ImageDesc (frameControl img s.m_iSelectedFrame).2 prev comp).map
          (fun prev1 =>
            ({ s with m_pubPrevFrameBuffer := some prev1 },
              OutBuffer.caller (writeBytes bytes comp)))) ∧
      FrameData eng s .IMAGE_FORMAT_RGBA8888 .prevFrame =
        (applyDisposal img frame.ImageDesc (frameControl img s.m_iSelectedFrame).2 prev comp).map
          (fun prev1 =>
            ({ s with m_pubPrevFrameBuffer := some (writeBytes prev1 comp) },
              OutBuffer.prevFrame)) := by
  obtain ⟨comp, hcomp, hfd1, hfd2⟩ := FrameData_eq eng s .IMAGE_FORMAT_RGBA8888 img frame bits cm
    prev hr (FrameSize_supported eng s img _ hr.image (fun c h => by cases h))
  have hw : eng.ConvertImageFormat (targetBuffer comp img.SWidth img.SHeight img.SWidth img.SHeight)
      .IMAGE_FORMAT_RGBA8888 img.SWidth img.SHeight = comp := by
    unfold ImageLoader.ConvertImageFormat targetBuffer
    rw [if_pos rfl, if_pos ⟨rfl, rfl⟩, List.take_of_length_le]
    rw [hcomp.length, hr.canvasSize]
  rw [FrameSize_rgba eng s img hr.image] at hfd1 hfd2
  simp only [hw] at hfd1 hfd2
  exact ⟨comp, hcomp, hfd1, hfd2⟩

end CGIFHelper

/-! ## Frame compositor: claims C3, C4, C6, C8 -/

theorem pixOff_lt {sw sh sy sx k : Nat} (hy : sy < sh) (hx : sx < sw) (hk : k < 4) :
    pixOff sw sy sx k < sw * sh * 4 := by
  unfold pixOff
  have := row_mul_le sw hy
  rw [Nat.mul_comm sw sh]
  omega

theorem pixelAt_writeBytes (out comp : List uint8) {sw sh sy sx : Nat}
    (hlen : comp.length = sw * sh * 4) (hy : sy < sh) (hx : sx < sw) :
    pixelAt (writeBytes out comp) sw sy sx = pixelAt comp sw sy sx := by
  apply pixelAt_congr
  intro k hk
  unfold writeBytes
  rw [List.getElem?_append_left (by rw [hlen]; exact pixOff_lt hy hx hk)]

theorem writeBytes_full (out comp : List uint8) (h : out.length ≤ comp.length) :
    writeBytes out comp = comp := by
  unfold writeBytes
  rw [List.drop_of_length_le h, List.append_nil]

theorem writeBytes_idem (out w : List uint8) : writeBytes (writeBytes out w) w = writeBytes out w := by
  unfold writeBytes
  rw [List.drop_left]

theorem paintedByte_skip (cm : ColorMapObject) (tr : Int) (bits : List GifByteType) (i k : Nat)
    (old : uint8)
    (h : cm.ColorCount ≤ (bits.getD i 0).val ∨ ((bits.getD i 0).val : Int) = tr) :
    paintedByte cm tr bits i k old = old := by
  unfold paintedByte
  rw [if_neg]
  rintro ⟨h1, h2⟩
  rcases h with h | h
  · omega
  · exact h2 h

theorem Renderable.withCanvas {s : CGIFHelper} {img : GifFileType} {frame : SavedImage}
    {bits : List GifByteType} {cm : ColorMapObject} {prev : List uint8}
    (hr : Renderable s img frame bits cm prev) (canvas : List uint8)
    (hlen : canvas.length = img.SWidth * img.SHeight * 4) :
    Renderable { s with m_pubPrevFrameBuffer := some canvas } img frame bits cm canvas :=
  ⟨hr.image, hr.first, hr.selected, hr.raster, hr.rasterSize, hr.colors, rfl, hlen⟩

namespace CGIFHelper

theorem FrameSize_congr (eng : ImageLoader) (s s' : CGIFHelper) (fmt : ImageFormat)
    (h : s'.m_pImage = s.m_pImage) : FrameSize eng s' fmt = FrameSize eng s fmt := by
  unfold FrameSize
  rw [h]

/-- C3. A frame pixel whose raster index is outside the active colour map or is the transparent
index leaves its destination untouched: in the RGBA8888 output of `FrameData` the pixel at
(`Top + y`, `Left + x`) is the pixel the persistent canvas held there before the call.  The
raster index of a pixel is the one the compositor reads for it, at row `srcRow Interlace y`
(row `y` itself for a frame that is not interlaced).  The call produces its output unless the
frame is disposed to background in a container without global colour table. -/
theorem FrameData_keeps_unpainted_pixel (eng : ImageLoader) (s : CGIFHelper) (img : GifFileType)
    (frame : SavedImage) (bits : List GifByteType) (cm : ColorMapObject) (prev out : List uint8)
    (y x : Nat) (hr : Renderable s img frame bits cm prev)
    (hy : y < frame.ImageDesc.Height) (hx : x < frame.ImageDesc.Width)
    (hsy : frame.ImageDesc.Top + y < img.SHeight) (hsx : frame.ImageDesc.Left + x < img.SWidth)
    (hidx : cm.ColorCount ≤
        (bits.getD (srcRow frame.ImageDesc.Interlace y * frame.ImageDesc.Width + x) 0).val ∨
      ((bits.getD (srcRow frame.ImageDesc.Interlace y * frame.ImageDesc.Width + x) 0).val : Int) =
        (frameControl img s.m_iSelectedFrame).1) :
    ((FrameData eng s .IMAGE_FORMAT_RGBA8888 (.caller out)).isSome = true ↔
      ((frameControl img s.m_iSelectedFrame).2 = DISPOSE_BACKGROUND → img.SColorMap ≠ none)) ∧
    ∀ s' out', FrameData eng s .IMAGE_FORMAT_RGBA8888 (.caller out) = some (s', .caller out') →
      pixelAt out' img.SWidth (frame.ImageDesc.Top + y) (frame.ImageDesc.Left + x) =
        pixelAt prev img.SWidth (frame.ImageDesc.Top + y) (frame.ImageDesc.Left + x) := by
  obtain ⟨comp, hcomp, hfd, _⟩ := FrameData_rgba eng s img frame bits cm prev hr
  refine ⟨?_, ?_⟩
  · rw [hfd out, Option.isSome_map']
    exact applyDisposal_isSome_iff _ _ _ _ _
  · intro s' out' hrun
    rw [hfd out] at hrun
    cases happ : applyDisposal img frame.ImageDesc (frameControl img s.m_iSelectedFrame).2 prev
        comp with
    | none => rw [happ] at hrun; cases hrun
    | some prev1 =>
      rw [happ, Option.map_some'] at hrun
      have hout : out' = writeBytes out comp := by
        injection hrun with hrun
        injection hrun with _ h2
        injection h2 with h2
        exact h2.symm
      subst hout
      rw [pixelAt_writeBytes out comp (by rw [hcomp.length, hr.canvasSize]) hsy hsx]
      apply pixelAt_congr
      intro k hk
      rw [Nat.add_comm frame.ImageDesc.Top y] at hsy ⊢
      rw [hcomp.1 y x k hy hsy hx hsx hk]
      cases prev[pixOff img.SWidth (y + frame.ImageDesc.Top) (frame.ImageDesc.Left + x) k]? with
      | none => rfl
      | some v => rw [Option.map_some', paintedByte_skip _ _ _ _ _ _ hidx]

/-- C4. For a frame whose disposal method is Unspecified or DoNotDispose (Unspecified is what a
frame without graphics control block gets), `FrameData` with a caller-owned output buffer leaves
in the persistent canvas the composition just computed: the previous canvas with the frame
painted over it.  With `IMAGE_FORMAT_RGBA8888` and an output buffer of `FrameSize` bytes the
output buffer equals the canvas byte for byte. -/
theorem FrameData_keep_disposal (eng : ImageLoader) (s : CGIFHelper) (img : GifFileType)
    (frame : SavedImage) (bits : List GifByteType) (cm : ColorMapObject) (prev out : List uint8)
    (fmt : ImageFormat) (hr : Renderable s img frame bits cm prev) (hfmt : ∀ c, fmt ≠ .other c)
    (hdisp : (frameControl img s.m_iSelectedFrame).2 = DISPOSAL_UNSPECIFIED ∨
      (frameControl img s.m_iSelectedFrame).2 = DISPOSE_DO_NOT) :
    ∃ comp out', IsComposition cm (frameControl img s.m_iSelectedFrame).1 bits frame.ImageDesc
        img.SWidth img.SHeight prev comp ∧
      FrameData eng s fmt (.caller out) =
        some ({ s with m_pubPrevFrameBuffer := some comp }, .caller out') ∧
      (fmt = .IMAGE_FORMAT_RGBA8888 → out.length = img.SWidth * img.SHeight * 4 → out' = comp) := by
  obtain ⟨comp, hcomp, hfd, _⟩ := FrameData_eq eng s fmt img frame bits cm prev hr
    (FrameSize_supported eng s img fmt hr.image hfmt)
  have hkeep := applyDisposal_keep img frame.ImageDesc (frameControl img s.m_iSelectedFrame).2 prev
    comp (by rcases hdisp with h | h <;> rw [h] <;> decide)
    (by rcases hdisp with h | h <;> rw [h] <;> decide) hr.canvasSize hcomp.length
  refine ⟨comp, _, hcomp, by rw [hfd out, hkeep]; rfl, ?_⟩
  intro hrgba hout
  subst hrgba
  rw [FrameSize_rgba eng s img hr.image]
  have hlen : comp.length = img.SWidth * img.SHeight * 4 := by rw [hcomp.length, hr.canvasSize]
  dsimp only
  unfold ImageLoader.ConvertImageFormat targetBuffer
  rw [if_pos rfl, if_pos ⟨rfl, rfl⟩, List.take_of_length_le (by omega)]
  exact writeBytes_full out comp (by omega)

/-- An unsupported format: `FrameSize` returns -1 and `FrameData` returns at once. -/
theorem FrameData_unsupported (eng : ImageLoader) (s : CGIFHelper) (img : GifFileType)
    (frame : SavedImage) (bits : List GifByteType) (cm : ColorMapObject) (prev : List uint8)
    (c : Nat) (out : OutBuffer) (hr : Renderable s img frame bits cm prev) :
    FrameData eng s (.other c) out = some (s, out) := by
  obtain ⟨f, r, hhead, hfr⟩ := hr.first
  have hfs : FrameSize eng s (.other c) = (-1, 0, 0) := by
    unfold FrameSize
    rw [hr.image]
  unfold FrameData
  simp only [hr.image, hhead, hfr, Option.isNone_some, Bool.false_eq_true, if_false, hfs, if_true]

/-- Two renderings of a kept frame in a supported format. -/
theorem FrameData_twice_supported (eng : ImageLoader) (s : CGIFHelper) (img : GifFileType)
    (frame : SavedImage) (bits : List GifByteType) (cm : ColorMapObject) (prev out : List uint8)
    (fmt : ImageFormat) (hr : Renderable s img frame bits cm prev) (hfmt : ∀ c, fmt ≠ .other c)
    (hdisp : (frameControl img s.m_iSelectedFrame).2 = DISPOSAL_UNSPECIFIED ∨
      (frameControl img s.m_iSelectedFrame).2 = DISPOSE_DO_NOT) :
    ∃ s1 written, FrameData eng s fmt (.caller out) = some (s1, .caller (writeBytes out written)) ∧
      (∀ out2, FrameData eng s1 fmt (.caller out2) = some (s1, .caller (writeBytes out2 written))) ∧
      FrameData eng s1 fmt (.caller (writeBytes out written)) =
        some (s1, .caller (writeBytes out written)) := by
  obtain ⟨comp, hcomp, hfd, _⟩ := FrameData_eq eng s fmt img frame bits cm prev hr
    (FrameSize_supported eng s img fmt hr.image hfmt)
  have hne2 : (frameControl img s.m_iSelectedFrame).2 ≠ DISPOSE_BACKGROUND := by
    rcases hdisp with h | h <;> rw [h] <;> decide
  have hne3 : (frameControl img s.m_iSelectedFrame).2 ≠ DISPOSE_PREVIOUS := by
    rcases hdisp with h | h <;> rw [h] <;> decide
  have hkeep := applyDisposal_keep img frame.ImageDesc (frameControl img s.m_iSelectedFrame).2 prev
    comp hne2 hne3 hr.canvasSize hcomp.length
  have hlen : comp.length = img.SWidth * img.SHeight * 4 := by rw [hcomp.length, hr.canvasSize]
  have hr1 := hr.withCanvas comp hlen
  obtain ⟨comp', hcomp', hfd', _⟩ := FrameData_eq eng { s with m_pubPrevFrameBuffer := some comp }
    fmt img frame bits cm comp hr1
    (FrameSize_supported eng _ img fmt hr1.image hfmt)
  have hsame : comp' = comp := IsComposition.unique hcomp' hcomp.idem
  subst hsame
  have hkeep' := applyDisposal_keep img frame.ImageDesc (frameControl img s.m_iSelectedFrame).2 comp'
    comp' hne2 hne3 hlen rfl
  have hfs : FrameSize eng { s with m_pubPrevFrameBuffer := some comp' } fmt = FrameSize eng s fmt :=
    FrameSize_congr eng s _ fmt rfl
  have hsecond : ∀ out2, FrameData eng { s with m_pubPrevFrameBuffer := some comp' } fmt
      (.caller out2) = some ({ s with m_pubPrevFrameBuffer := some comp' },
        .caller (writeBytes out2 (eng.ConvertImageFormat
          (targetBuffer comp' img.SWidth img.SHeight (FrameSize eng s fmt).2.1
            (FrameSize eng s fmt).2.2) fmt (FrameSize eng s fmt).2.1
          (FrameSize eng s fmt).2.2))) := by
    intro out2
    rw [hfd' out2, hfs]
    show Option.map _ (applyDisposal img frame.ImageDesc (frameControl img s.m_iSelectedFrame).2
      comp' comp') = _
    rw [hkeep']
    rfl
  refine ⟨{ s with m_pubPrevFrameBuffer := some comp' }, _, by rw [hfd out, hkeep]; rfl, hsecond,
    ?_⟩
  rw [hsecond, writeBytes_idem]

/-- C8. Disposal idempotence: for a frame whose disposal is DoNotDispose or Unspecified and every
output format, a second `FrameData` call for the same frame and format leaves the state, and so
the canvas, exactly as the first call left it, and writes the same bytes `written` to its output
buffer as the first call wrote: rendered twice into the same buffer, the buffer is the same
after both calls. -/
theorem FrameData_twice (eng : ImageLoader) (s : CGIFHelper) (img : GifFileType)
    (frame : SavedImage) (bits : List GifByteType) (cm : ColorMapObject) (prev out : List uint8)
    (fmt : ImageFormat) (hr : Renderable s img frame bits cm prev)
    (hdisp : (frameControl img s.m_iSelectedFrame).2 = DISPOSAL_UNSPECIFIED ∨
      (frameControl img s.m_iSelectedFrame).2 = DISPOSE_DO_NOT) :
    ∃ s1 written, FrameData eng s fmt (.caller out) = some (s1, .caller (writeBytes out written)) ∧
      (∀ out2, FrameData eng s1 fmt (.caller out2) = some (s1, .caller (writeBytes out2 written))) ∧
      FrameData eng s1 fmt (.caller (writeBytes out written)) =
        some (s1, .caller (writeBytes out written)) := by
  by_cases hfmt : ∀ c, fmt ≠ .other c
  · exact FrameData_twice_supported eng s img frame bits cm prev out fmt hr hfmt hdisp
  · obtain ⟨c, hc⟩ : ∃ c, fmt = .other c := by
      by_contra hno
      exact hfmt (fun c h => hno ⟨c, h⟩)
    subst hc
    have hw : ∀ b : List uint8, writeBytes b [] = b := fun b => rfl
    refine ⟨s, [], ?_, fun out2 => ?_, ?_⟩
    · rw [hw]; exact FrameData_unsupported eng s img frame bits cm prev c _ hr
    · rw [hw]; exact FrameData_unsupported eng s img frame bits cm prev c _ hr
    · rw [hw]; exact FrameData_unsupported eng s img frame bits cm prev c _ hr

end CGIFHelper

/-! ## Background disposal and opening: claims C5, C2, C7 -/

theorem srcRow_le (il : Bool) (y : Nat) : srcRow il y ≤ y := by
  unfold srcRow
  split_ifs <;> omega

theorem raster_index_lt (il : Bool) {y x W H : Nat} (hy : y < H) (hx : x < W) :
    srcRow il y * W + x < W * H := by
  have h1 := srcRow_le il y
  have h2 := row_mul_le W (show srcRow il y < H by omega)
  rw [Nat.mul_comm W H]
  omega

theorem exists_pixel_of_lt {p sw sh : Nat} (h : p < sw * sh * 4) :
    ∃ sy sx k, sy < sh ∧ sx < sw ∧ k < 4 ∧ p = pixOff sw sy sx k := by
  have hq : p / 4 < sh * sw := by rw [Nat.mul_comm sh sw]; omega
  obtain ⟨y, hy, h1, h2⟩ := exists_row_of_lt hq
  refine ⟨y, p / 4 - y * sw, p % 4, hy, by omega, by omega, ?_⟩
  unfold pixOff
  omega

namespace CGIFHelper

/-- The canvas after the `DISPOSE_BACKGROUND` fill: the frame's rectangle clipped to the screen
holds the background colour, every other pixel is kept. -/
theorem background_canvas (img : GifFileType) (d : GifImageDesc) (prev comp : List uint8)
    (g : ColorMapObject) (hg : img.SColorMap = some g) (hbgc : img.SBackGroundColor < g.ColorCount)
    (hprev : prev.length = img.SWidth * img.SHeight * 4) :
    ∃ canvas c, applyDisposal img d DISPOSE_BACKGROUND prev comp = some canvas ∧
      canvas.length = prev.length ∧ g.Colors[img.SBackGroundColor]? = some c ∧
      ∀ sy sx, sy < img.SHeight → sx < img.SWidth →
        pixelAt canvas img.SWidth sy sx =
          if d.Top ≤ sy ∧ sy < min (d.Top + d.Height) img.SHeight ∧
              d.Left ≤ sx ∧ sx < min (d.Left + d.Width) img.SWidth
          then rgba c else pixelAt prev img.SWidth sy sx := by
  have hc : g.Colors[img.SBackGroundColor]? =
      some (g.Colors.getD img.SBackGroundColor ⟨0, 0, 0⟩) := by
    rw [List.getD_eq_getElem?_getD, List.getElem?_eq_getElem hbgc]
    rfl
  refine ⟨_, _, applyDisposal_background img d prev comp g hg hbgc, fillBackground_length _ _ _ _ _ _,
    hc, ?_⟩
  intro sy sx hsy hsx
  have hspec := fillBackground_spec prev d img.SWidth
    (min (d.Height : Int) ((img.SHeight : Int) - d.Top))
    (min (d.Width : Int) ((img.SWidth : Int) - d.Left))
    (g.Colors.getD img.SBackGroundColor ⟨0, 0, 0⟩) (by omega)
  split_ifs with hin
  · apply pixelAt_eq_rgba
    intro k hk
    have := hspec.1 (sy - d.Top) (sx - d.Left) k (by omega) (by omega) hk
    rw [show sy - d.Top + d.Top = sy by omega, show d.Left + (sx - d.Left) = sx by omega] at this
    rw [this, List.getElem?_eq_getElem (by rw [hprev]; exact pixOff_lt hsy hsx hk)]
    rfl
  · apply pixelAt_congr
    intro k hk
    apply hspec.2
    intro y x k' hy hx hk' heq
    have := pixOff_inj hsx (show d.Left + x < img.SWidth by omega) hk hk' heq
    omega

theorem NextFrame_canvas (s : CGIFHelper) (now : ℚ) :
    (NextFrame s now).2.m_pubPrevFrameBuffer = s.m_pubPrevFrameBuffer := by
  unfold NextFrame
  cases h : s.m_pImage with
  | none => simp [h]
  | some img =>
    simp only
    split <;> rfl

end CGIFHelper

theorem IsComposition.transparent {cm : ColorMapObject} {tr : Int} {bits : List GifByteType}
    {d : GifImageDesc} {sw sh : Nat} {c0 c : List uint8}
    (h : IsComposition cm tr bits d sw sh c0 c) (hlen : bits.length = d.Width * d.Height)
    (hall : ∀ v ∈ bits, ((v : GifByteType).val : Int) = tr) : c = c0 := by
  apply IsComposition.unique h
  refine ⟨?_, fun _ _ => rfl⟩
  intro y x k hy _ hx _ _
  have hi : srcRow d.Interlace y * d.Width + x < bits.length := by
    rw [hlen]; exact raster_index_lt _ hy hx
  have hmem : bits.getD (srcRow d.Interlace y * d.Width + x) 0 ∈ bits := by
    rw [List.getD_eq_getElem?_getD, List.getElem?_eq_getElem hi]
    exact List.getElem_mem hi
  cases c0[pixOff sw (y + d.Top) (d.Left + x) k]? with
  | none => rfl
  | some v => rw [Option.map_some', paintedByte_skip _ _ _ _ _ _ (Or.inr (hall _ hmem))]

theorem referenceImage_length (cm : ColorMapObject) (bits : List GifByteType) :
    (referenceImage cm bits).length = 4 * bits.length := by
  induction bits with
  | nil => rfl
  | cons a l ih =>
    simp only [referenceImage, List.length_append, ih, List.length_cons, rgba, List.length_nil]
    omega

theorem referenceImage_getElem? (cm : ColorMapObject) (bits : List GifByteType) (i k : Nat)
    (hk : k < 4) :
    (referenceImage cm bits)[4 * i + k]? =
      (bits[i]?).map (fun idx => colorByte (cm.Colors.getD idx.val ⟨0, 0, 0⟩) k) := by
  induction bits generalizing i with
  | nil => simp [referenceImage]
  | cons a l ih =>
    rcases i with _ | i
    · simp only [referenceImage, Nat.mul_zero, Nat.zero_add, List.getElem?_cons_zero,
        Option.map_some']
      rw [List.getElem?_append_left (by simp [rgba]; omega)]
      have : k = 0 ∨ k = 1 ∨ k = 2 ∨ k = 3 := by omega
      rcases this with rfl | rfl | rfl | rfl <;> rfl
    · simp only [referenceImage, List.getElem?_cons_succ]
      rw [List.getElem?_append_right (by simp [rgba]; omega)]
      rw [show 4 * (i + 1) + k - (rgba (cm.Colors.getD a.val ⟨0, 0, 0⟩)).length = 4 * i + k by
        simp [rgba]; omega]
      exact ih i

namespace CGIFHelper

theorem CloseImage_false_selected (s : CGIFHelper) (h : s.m_pImage.isSome) :
    (s.CloseImage false).m_iSelectedFrame = 0 ∧
    (s.CloseImage false).m_dIterateTime = 0 := by
  unfold CloseImage
  cases hs : s.m_pImage with
  | none => rw [hs] at h; cases h
  | some img => exact ⟨rfl, rfl⟩

/-- Method `OpenImage` on a stream that giflib parses: the canvas becomes frame 0 composited over the
uninitialised bytes of the new array, whatever the disposal method of frame 0 (the disposal
step only decides whether the call faults). -/
theorem OpenImage_spec (eng : ImageLoader) (s0 : CGIFHelper) (img : GifFileType)
    (frame0 : SavedImage) (bits0 : List GifByteType) (cm0 : ColorMapObject) (fresh : Nat → uint8)
    (hclosed : s0.m_pImage = none → s0.m_iSelectedFrame = 0)
    (hfirst : img.SavedImages.head? = some frame0) (hbits : frame0.RasterBits = some bits0)
    (hsize : bits0.length = frame0.ImageDesc.Width * frame0.ImageDesc.Height)
    (hcm : (match frame0.ImageDesc.ColorMap with
      | some m => some m
      | none => img.SColorMap) = some cm0) :
    ∃ comp t,
      IsComposition cm0 (frameControl img 0).1 bits0 frame0.ImageDesc img.SWidth img.SHeight
        ((List.range (img.SWidth * img.SHeight * 4)).map fresh) comp ∧
      Renderable ⟨some img, some comp, 0, t⟩ img frame0 bits0 cm0 comp ∧
      OpenImage eng s0 (.ok img) fresh =
        (applyDisposal img frame0.ImageDesc (frameControl img 0).2
          ((List.range (img.SWidth * img.SHeight * 4)).map fresh) comp).map
          (fun _ => (true, ⟨some img, some comp, 0, t⟩)) := by
  have hsel : (if s0.m_pImage.isSome then s0.CloseImage false else s0).m_iSelectedFrame = 0 := by
    by_cases h : s0.m_pImage.isSome
    · rw [if_pos h]; exact (CloseImage_false_selected s0 h).1
    · rw [if_neg h]
      apply hclosed
      cases hs : s0.m_pImage with
      | none => rfl
      | some i => rw [hs] at h; exact absurd rfl h
  unfold OpenImage
  simp only
  generalize (if s0.m_pImage.isSome then s0.CloseImage false else s0) = t at hsel ⊢
  have hget : img.SavedImages.get? 0 = some frame0 := by
    cases hl : img.SavedImages with
    | nil => rw [hl] at hfirst; cases hfirst
    | cons a l => rw [hl] at hfirst; exact hfirst
  have hr2 : Renderable
      { m_pImage := some img,
        m_pubPrevFrameBuffer := some ((List.range (img.SWidth * img.SHeight * 4)).map fresh),
        m_iSelectedFrame := t.m_iSelectedFrame, m_dIterateTime := t.m_dIterateTime }
      img frame0 bits0 cm0 ((List.range (img.SWidth * img.SHeight * 4)).map fresh) :=
    ⟨rfl, ⟨frame0, bits0, hfirst, hbits⟩, by rw [hsel]; exact hget, hbits, hsize, hcm, rfl,
      by simp⟩
  obtain ⟨comp, hcomp, _, hfd⟩ := FrameData_rgba eng _ img frame0 bits0 cm0 _ hr2
  simp only [hsel] at hcomp hfd
  have hlenc : comp.length = img.SWidth * img.SHeight * 4 := by rw [hcomp.length]; simp
  refine ⟨comp, t.m_dIterateTime, hcomp,
    ⟨rfl, ⟨frame0, bits0, hfirst, hbits⟩, hget, hbits, hsize, hcm, rfl, hlenc⟩, ?_⟩
  rw [FrameSize_rgba eng _ img rfl]
  simp only [Int.toNat_ofNat, hsel]
  rw [hfd]
  cases happ : applyDisposal img frame0.ImageDesc (frameControl img 0).2
      ((List.range (img.SWidth * img.SHeight * 4)).map fresh) comp with
  | none => rfl
  | some prev1 =>
    have hlen1 := applyDisposal_length img frame0.ImageDesc _ _ comp prev1 happ (by simp)
      hcomp.length
    have hw : writeBytes prev1 comp = comp :=
      writeBytes_full prev1 comp (by rw [hlen1, hcomp.length])
    simp only [Option.map_some', hw]

/-- Method `OpenImage` succeeds when the disposal step of frame 0 finds the colour table it reads. -/
theorem OpenImage_ok (eng : ImageLoader) (s0 : CGIFHelper) (img : GifFileType)
    (frame0 : SavedImage) (bits0 : List GifByteType) (cm0 : ColorMapObject) (fresh : Nat → uint8)
    (hclosed : s0.m_pImage = none → s0.m_iSelectedFrame = 0)
    (hfirst : img.SavedImages.head? = some frame0) (hbits : frame0.RasterBits = some bits0)
    (hsize : bits0.length = frame0.ImageDesc.Width * frame0.ImageDesc.Height)
    (hcm : (match frame0.ImageDesc.ColorMap with
      | some m => some m
      | none => img.SColorMap) = some cm0)
    (hbg : (frameControl img 0).2 = DISPOSE_BACKGROUND → img.SColorMap ≠ none) :
    ∃ s1 canvas, OpenImage eng s0 (.ok img) fresh = some (true, s1) ∧
      Renderable s1 img frame0 bits0 cm0 canvas ∧ s1.m_iSelectedFrame = 0 ∧
      IsComposition cm0 (frameControl img 0).1 bits0 frame0.ImageDesc img.SWidth img.SHeight
        ((List.range (img.SWidth * img.SHeight * 4)).map fresh) canvas := by
  obtain ⟨comp, t, hcomp, hr, hopen⟩ := OpenImage_spec eng s0 img frame0 bits0 cm0 fresh hclosed
    hfirst hbits hsize hcm
  obtain ⟨prev1, hprev1⟩ := applyDisposal_isSome img frame0.ImageDesc (frameControl img 0).2
    ((List.range (img.SWidth * img.SHeight * 4)).map fresh) comp hbg
  rw [hprev1, Option.map_some'] at hopen
  exact ⟨_, comp, hopen, hr, rfl, hcomp⟩

theorem frameControl_some (img : GifFileType) (i : Nat) (frame : SavedImage)
    (gcb : GraphicsControlBlock) (h : img.SavedImages.get? i = some frame)
    (hg : frame.gcb = some gcb) :
    frameControl img i = (gcb.TransparentColor, gcb.DisposalMode) := by
  unfold frameControl DGifSavedExtensionToGCB
  rw [h]
  simp only [hg]

theorem frameControl_none (img : GifFileType) (i : Nat) (frame : SavedImage)
    (h : img.SavedImages.get? i = some frame) (hg : frame.gcb = none) :
    frameControl img i = (NO_TRANSPARENT_COLOR, DISPOSAL_UNSPECIFIED) := by
  unfold frameControl DGifSavedExtensionToGCB
  rw [h]
  simp only [hg]

theorem paintedByte_opaque (cm : ColorMapObject) (tr : Int) (bits : List GifByteType) (i k : Nat)
    (old : uint8) (h1 : (bits.getD i 0).val < cm.ColorCount)
    (h2 : ((bits.getD i 0).val : Int) ≠ tr) :
    paintedByte cm tr bits i k old = colorByte (cm.Colors.getD (bits.getD i 0).val ⟨0, 0, 0⟩) k := by
  unfold paintedByte
  rw [if_pos ⟨h1, h2⟩]

theorem srcRow_false (y : Nat) : srcRow false y = y := rfl

/-- C5. For a frame with disposal RestoreBackground in a container whose global colour table
contains the background colour index, `FrameData` (caller-owned output buffer) leaves a canvas of
the same size in which every pixel of the frame's rectangle clipped to the screen (rows
`Top .. min (Top + Height) SHeight - 1`, columns `Left .. min (Left + Width) SWidth - 1`) is the
opaque background colour `(R, G, B, 255)` of the global table, and every other pixel is the pixel
of the canvas before the call: nothing the frame painted is kept. -/
theorem FrameData_background_disposal (eng : ImageLoader) (s : CGIFHelper) (img : GifFileType)
    (frame : SavedImage) (bits : List GifByteType) (cm g : ColorMapObject) (prev out : List uint8)
    (fmt : ImageFormat) (hr : Renderable s img frame bits cm prev) (hfmt : ∀ c, fmt ≠ .other c)
    (hdisp : (frameControl img s.m_iSelectedFrame).2 = DISPOSE_BACKGROUND)
    (hg : img.SColorMap = some g) (hbgc : img.SBackGroundColor < g.ColorCount) :
    ∃ s' out' canvas c, FrameData eng s fmt (.caller out) = some (s', .caller out') ∧
      s'.m_pubPrevFrameBuffer = some canvas ∧ canvas.length = prev.length ∧
      g.Colors[img.SBackGroundColor]? = some c ∧
      ∀ sy sx, sy < img.SHeight → sx < img.SWidth →
        pixelAt canvas img.SWidth sy sx =
          if frame.ImageDesc.Top ≤ sy ∧
              sy < min (frame.ImageDesc.Top + frame.ImageDesc.Height) img.SHeight ∧
              frame.ImageDesc.Left ≤ sx ∧
              sx < min (frame.ImageDesc.Left + frame.ImageDesc.Width) img.SWidth
          then rgba c else pixelAt prev img.SWidth sy sx := by
  obtain ⟨comp, _, hfd, _⟩ := FrameData_eq eng s fmt img frame bits cm prev hr
    (FrameSize_supported eng s img fmt hr.image hfmt)
  obtain ⟨canvas, c, happ, hlen, hc, hpix⟩ := background_canvas img frame.ImageDesc prev comp g hg
    hbgc hr.canvasSize
  exact ⟨_, _, canvas, c, by rw [hfd out, hdisp, happ]; rfl, rfl, hlen, hc, hpix⟩

/-- C2. A container with a single frame that is not interlaced, has no transparent index and
whose raster indices are all inside the active colour table, on a screen whose RGBA size
`SWidth * SHeight * 4` fits the `int` the code computes it in (it is below `2^31`, so that the
canvas `OpenImage` allocates, the composition block and the row offsets are the exact products):
`OpenImage` followed by `FrameData( IMAGE_FORMAT_RGBA8888 )` gives an output in which every
on-screen pixel (`Top + y`, `Left + x`) of the frame is `(R, G, B, 255)` of the colour-table entry
of raster index `y * Width + x`; when the frame covers the whole screen (and the buffer has
`FrameSize` bytes) the output is the reference image of the raster.  `OpenImage` completes unless
the frame is disposed to background in a container without global colour table. -/
theorem OpenImage_FrameData_reference (eng : ImageLoader) (s0 : CGIFHelper) (img : GifFileType)
    (frame : SavedImage) (bits : List GifByteType) (cm : ColorMapObject) (fresh : Nat → uint8)
    (out : List uint8)
    (hclosed : s0.m_pImage = none → s0.m_iSelectedFrame = 0)
    (hsingle : img.SavedImages = [frame]) (hil : frame.ImageDesc.Interlace = false)
    (hbits : frame.RasterBits = some bits)
    (hsize : bits.length = frame.ImageDesc.Width * frame.ImageDesc.Height)
    (hcm : (match frame.ImageDesc.ColorMap with
      | some m => some m
      | none => img.SColorMap) = some cm)
    (hrange : ∀ v ∈ bits, (v : GifByteType).val < cm.ColorCount)
    (htr : ∀ gcb, frame.gcb = some gcb → gcb.TransparentColor = NO_TRANSPARENT_COLOR)
    (hfit : img.SWidth * img.SHeight * 4 < 2 ^ 31) :
    ScreenFitsInt img.SWidth img.SHeight ∧
    ((OpenImage eng s0 (.ok img) fresh).isSome = true ↔
      (∀ gcb, frame.gcb = some gcb → gcb.DisposalMode = DISPOSE_BACKGROUND →
        img.SColorMap ≠ none)) ∧
    ∀ b s1, OpenImage eng s0 (.ok img) fresh = some (b, s1) →
      b = true ∧
      ∃ s2 out', FrameData eng s1 .IMAGE_FORMAT_RGBA8888 (.caller out) = some (s2, .caller out') ∧
        (∀ y x, y < frame.ImageDesc.Height → x < frame.ImageDesc.Width →
          frame.ImageDesc.Top + y < img.SHeight → frame.ImageDesc.Left + x < img.SWidth →
          ∃ idx c, bits[y * frame.ImageDesc.Width + x]? = some idx ∧
            cm.Colors[idx.val]? = some c ∧
            pixelAt out' img.SWidth (frame.ImageDesc.Top + y) (frame.ImageDesc.Left + x) =
              rgba c) ∧
        (frame.ImageDesc.Left = 0 → frame.ImageDesc.Top = 0 →
          frame.ImageDesc.Width = img.SWidth → frame.ImageDesc.Height = img.SHeight →
          out.length = img.SWidth * img.SHeight * 4 → out' = referenceImage cm bits) := by
  refine ⟨screenFitsInt_of_lt hfit, ?_⟩
  have hget : img.SavedImages.get? 0 = some frame := by rw [hsingle]; rfl
  have htr0 : (frameControl img 0).1 = NO_TRANSPARENT_COLOR := by
    cases hgcb : frame.gcb with
    | none => rw [frameControl_none img 0 frame hget hgcb]
    | some gcb => rw [frameControl_some img 0 frame gcb hget hgcb]; exact htr gcb hgcb
  have hbgiff : ((frameControl img 0).2 = DISPOSE_BACKGROUND → img.SColorMap ≠ none) ↔
      (∀ gcb, frame.gcb = some gcb → gcb.DisposalMode = DISPOSE_BACKGROUND →
        img.SColorMap ≠ none) := by
    cases hgcb : frame.gcb with
    | none =>
      rw [frameControl_none img 0 frame hget hgcb]
      exact ⟨fun _ gcb h => (by cases h), fun _ h => absurd h (by decide)⟩
    | some gcb =>
      rw [frameControl_some img 0 frame gcb hget hgcb]
      exact ⟨fun h gcb' h' => (by cases h'; exact h), fun h => h gcb rfl⟩
  obtain ⟨canvas, t, hcanvas, hr1, hopen⟩ := OpenImage_spec eng s0 img frame bits cm fresh
    hclosed (by rw [hsingle]; rfl) hbits hsize hcm
  refine ⟨?_, ?_⟩
  · rw [hopen, Option.isSome_map', applyDisposal_isSome_iff]
    exact hbgiff
  intro b s1 hrun
  have hbg0 : (frameControl img 0).2 = DISPOSE_BACKGROUND → img.SColorMap ≠ none := by
    have hsome : (OpenImage eng s0 (.ok img) fresh).isSome = true := by rw [hrun]; rfl
    rw [hopen, Option.isSome_map'] at hsome
    exact (applyDisposal_isSome_iff img frame.ImageDesc (frameControl img 0).2
      ((List.range (img.SWidth * img.SHeight * 4)).map fresh) canvas).mp hsome
  obtain ⟨prev0, hprev0⟩ := applyDisposal_isSome img frame.ImageDesc (frameControl img 0).2
    ((List.range (img.SWidth * img.SHeight * 4)).map fresh) canvas hbg0
  rw [hopen, hprev0, Option.map_some'] at hrun
  injection hrun with hrun
  injection hrun with hb hs1
  subst hb hs1
  refine ⟨rfl, ?_⟩
  obtain ⟨comp, hcomp, hfd, _⟩ := FrameData_rgba eng _ img frame bits cm canvas hr1
  have hsame : comp = canvas := IsComposition.unique hcomp hcanvas.idem
  rw [hsame] at hfd
  obtain ⟨prev1, hprev1⟩ := applyDisposal_isSome img frame.ImageDesc (frameControl img 0).2 canvas
    canvas hbg0
  have hlen : canvas.length = img.SWidth * img.SHeight * 4 := hr1.canvasSize
  -- every on-screen frame pixel holds the colour of its raster index
  have hpix : ∀ y x k, y < frame.ImageDesc.Height → x < frame.ImageDesc.Width →
      y + frame.ImageDesc.Top < img.SHeight → frame.ImageDesc.Left + x < img.SWidth → k < 4 →
      canvas[pixOff img.SWidth (y + frame.ImageDesc.Top) (frame.ImageDesc.Left + x) k]? =
        some (colorByte (cm.Colors.getD (bits.getD (y * frame.ImageDesc.Width + x) 0).val ⟨0, 0, 0⟩)
          k) := by
    intro y x k hy hx hsy hsx hk
    have hi : y * frame.ImageDesc.Width + x < bits.length := by
      have := raster_index_lt false hy hx
      rw [hsize]; simpa [srcRow] using this
    have hmem : bits.getD (y * frame.ImageDesc.Width + x) 0 ∈ bits := by
      rw [List.getD_eq_getElem?_getD, List.getElem?_eq_getElem hi]
      exact List.getElem_mem hi
    have h1 := hcanvas.1 y x k hy hsy hx hsx hk
    rw [hil] at h1
    rw [h1, List.getElem?_eq_getElem (by simp; exact pixOff_lt hsy hsx hk), Option.map_some',
      srcRow_false, paintedByte_opaque _ _ _ _ _ _ (hrange _ hmem)
        (by rw [htr0]; unfold NO_TRANSPARENT_COLOR; omega)]
  refine ⟨_, writeBytes out canvas, by rw [hfd out]; erw [hprev1]; rfl, ?_, ?_⟩
  · intro y x hy hx hsy hsx
    have hi : y * frame.ImageDesc.Width + x < bits.length := by
      have := raster_index_lt false hy hx
      rw [hsize]; simpa [srcRow] using this
    have hc : (bits[y * frame.ImageDesc.Width + x]).val < cm.Colors.length :=
      hrange _ (List.getElem_mem hi)
    refine ⟨bits[y * frame.ImageDesc.Width + x], cm.Colors[(bits[y * frame.ImageDesc.Width + x]).val],
      List.getElem?_eq_getElem hi, List.getElem?_eq_getElem hc, ?_⟩
    rw [pixelAt_writeBytes out canvas hlen hsy hsx]
    apply pixelAt_eq_rgba
    intro k hk
    rw [Nat.add_comm frame.ImageDesc.Top y] at hsy ⊢
    rw [hpix y x k hy hx hsy hsx hk, List.getD_eq_getElem bits 0 hi,
      List.getD_eq_getElem cm.Colors _ hc]
  · intro hL hT hW hH hout
    rw [writeBytes_full out canvas (by omega)]
    apply List.ext_getElem?
    intro p
    by_cases hp : p < img.SWidth * img.SHeight * 4
    · obtain ⟨sy, sx, k, hsy, hsx, hk, rfl⟩ := exists_pixel_of_lt hp
      have h1 := hpix sy sx k (by omega) (by omega) (by omega) (by omega) hk
      rw [hT, hL, Nat.add_zero, Nat.zero_add] at h1
      rw [h1]
      have hi : sy * frame.ImageDesc.Width + sx < bits.length := by
        have := raster_index_lt false (show sy < frame.ImageDesc.Height by omega)
          (show sx < frame.ImageDesc.Width by omega)
        rw [hsize]; simpa [srcRow] using this
      have e : pixOff img.SWidth sy sx k = 4 * (sy * frame.ImageDesc.Width + sx) + k := by
        unfold pixOff; rw [hW]; omega
      rw [e, referenceImage_getElem? cm bits _ k hk, List.getElem?_eq_getElem hi, Option.map_some',
        List.getD_eq_getElem bits 0 hi]
    · rw [List.getElem?_eq_none (by omega), List.getElem?_eq_none]
      rw [referenceImage_length, hsize, hW, hH]
      have : 4 * (img.SWidth * img.SHeight) = img.SWidth * img.SHeight * 4 := by ring
      omega

/-- C7. A container of two frames with a global colour table that contains the background
colour index, frame 0 with disposal RestoreBackground and every raster index of frame 1 equal
to frame 1's transparent index, on a screen whose RGBA size `SWidth * SHeight * 4` fits the `int`
the code computes it in (below `2^31`, so that canvas, composition block and row offsets are the
exact products).  After `OpenImage`, `FrameData` (frame 0, in any of the direct formats, whose
target is the screen itself), `NextFrame`, `FrameData` (frame 1, `IMAGE_FORMAT_RGBA8888`), the
second output shows, at every screen pixel inside frame 0's rectangle (clipped to the screen),
the background colour `(R, G, B, 255)`, and at every other screen pixel the pixel that the canvas
held before frame 0 was rendered. -/
theorem FrameData_after_background_disposal (eng : ImageLoader) (s0 : CGIFHelper)
    (img : GifFileType) (f0 f1 : SavedImage) (bits0 bits1 : List GifByteType)
    (g : ColorMapObject) (g0 g1 : GraphicsControlBlock) (fresh : Nat → uint8) (fmt : ImageFormat)
    (outA outB : List uint8) (now : ℚ)
    (hclosed : s0.m_pImage = none → s0.m_iSelectedFrame = 0)
    (hframes : img.SavedImages = [f0, f1])
    (hg : img.SColorMap = some g) (hbgc : img.SBackGroundColor < g.ColorCount)
    (hgcb0 : f0.gcb = some g0) (hdisp0 : g0.DisposalMode = DISPOSE_BACKGROUND)
    (hbits0 : f0.RasterBits = some bits0)
    (hsize0 : bits0.length = f0.ImageDesc.Width * f0.ImageDesc.Height)
    (hgcb1 : f1.gcb = some g1) (hbits1 : f1.RasterBits = some bits1)
    (hsize1 : bits1.length = f1.ImageDesc.Width * f1.ImageDesc.Height)
    (htrans : ∀ v ∈ bits1, ((v : GifByteType).val : Int) = g1.TransparentColor)
    (hdirect : fmt = .IMAGE_FORMAT_RGBA8888 ∨ fmt = .IMAGE_FORMAT_BGRA8888 ∨
      fmt = .IMAGE_FORMAT_ARGB8888 ∨ fmt = .IMAGE_FORMAT_ABGR8888 ∨
      fmt = .IMAGE_FORMAT_RGB888 ∨ fmt = .IMAGE_FORMAT_BGR888)
    (hfit : img.SWidth * img.SHeight * 4 < 2 ^ 31) :
    ScreenFitsInt img.SWidth img.SHeight ∧
    ∃ s1 canvas0 s2 outA' s4 outB' c,
      OpenImage eng s0 (.ok img) fresh = some (true, s1) ∧
      s1.m_pubPrevFrameBuffer = some canvas0 ∧
      FrameData eng s1 fmt (.caller outA) = some (s2, .caller outA') ∧
      (NextFrame s2 now).2.GetSelectedFrame = 1 ∧
      FrameData eng (NextFrame s2 now).2 .IMAGE_FORMAT_RGBA8888 (.caller outB) =
        some (s4, .caller outB') ∧
      g.Colors[img.SBackGroundColor]? = some c ∧
      ∀ sy sx, sy < img.SHeight → sx < img.SWidth →
        pixelAt outB' img.SWidth sy sx =
          if f0.ImageDesc.Top ≤ sy ∧ sy < min (f0.ImageDesc.Top + f0.ImageDesc.Height) img.SHeight ∧
              f0.ImageDesc.Left ≤ sx ∧ sx < min (f0.ImageDesc.Left + f0.ImageDesc.Width) img.SWidth
          then rgba c else pixelAt canvas0 img.SWidth sy sx := by
  refine ⟨screenFitsInt_of_lt hfit, ?_⟩
  have hfmt : ∀ c, fmt ≠ .other c := by
    rcases hdirect with h | h | h | h | h | h <;> subst h <;> exact fun c hc => by cases hc
  have hget0 : img.SavedImages.get? 0 = some f0 := by rw [hframes]; rfl
  have hget1 : img.SavedImages.get? 1 = some f1 := by rw [hframes]; rfl
  have hhead : img.SavedImages.head? = some f0 := by rw [hframes]; rfl
  have hfc0 := frameControl_some img 0 f0 g0 hget0 hgcb0
  have hfc1 := frameControl_some img 1 f1 g1 hget1 hgcb1
  have hglobal : img.SColorMap ≠ none := by rw [hg]; exact fun h => by cases h
  obtain ⟨cm0, hcm0⟩ : ∃ cm0, (match f0.ImageDesc.ColorMap with
      | some m => some m
      | none => img.SColorMap) = some cm0 := by
    cases f0.ImageDesc.ColorMap with
    | none => exact ⟨g, hg⟩
    | some m => exact ⟨m, rfl⟩
  obtain ⟨cm1, hcm1⟩ : ∃ cm1, (match f1.ImageDesc.ColorMap with
      | some m => some m
      | none => img.SColorMap) = some cm1 := by
    cases f1.ImageDesc.ColorMap with
    | none => exact ⟨g, hg⟩
    | some m => exact ⟨m, rfl⟩
  -- OpenImage
  obtain ⟨s1, canvas0, hopen, hr1, hsel1, _⟩ := OpenImage_ok eng s0 img f0 bits0 cm0 fresh hclosed
    hhead hbits0 hsize0 hcm0 (fun _ => hglobal)
  -- FrameData on frame 0
  obtain ⟨comp, _, hfd, _⟩ := FrameData_eq eng s1 fmt img f0 bits0 cm0 canvas0 hr1
    (FrameSize_supported eng s1 img fmt hr1.image hfmt)
  have hd0 : (frameControl img s1.m_iSelectedFrame).2 = DISPOSE_BACKGROUND := by
    rw [hsel1, hfc0]; exact hdisp0
  obtain ⟨canvas1, c, happ, hlen1, hc, hpix⟩ := background_canvas img f0.ImageDesc canvas0 comp g hg
    hbgc hr1.canvasSize
  have hrun1 := hfd outA
  rw [hd0, happ, Option.map_some'] at hrun1
  -- NextFrame
  have himg2 : ({ s1 with m_pubPrevFrameBuffer := some canvas1 } : CGIFHelper).m_pImage = some img :=
    hr1.image
  have hnext := (NextFrame_selected { s1 with m_pubPrevFrameBuffer := some canvas1 } img now himg2).1
  have hsel3 : (NextFrame { s1 with m_pubPrevFrameBuffer := some canvas1 } now).2.m_iSelectedFrame
      = 1 := by
    rw [hnext]
    show (if s1.m_iSelectedFrame + 1 ≥ img.ImageCount then 0 else s1.m_iSelectedFrame + 1) = 1
    rw [hsel1]
    unfold GifFileType.ImageCount
    rw [hframes]
    rfl
  have hr3 : Renderable (NextFrame { s1 with m_pubPrevFrameBuffer := some canvas1 } now).2 img f1
      bits1 cm1 canvas1 :=
    ⟨by rw [NextFrame_image]; exact hr1.image, ⟨f0, bits0, hhead, hbits0⟩,
      by rw [hsel3]; exact hget1, hbits1, hsize1, hcm1, by rw [NextFrame_canvas],
      by rw [hlen1]; exact hr1.canvasSize⟩
  -- FrameData on frame 1
  obtain ⟨comp3, hcomp3, hfd3, _⟩ := FrameData_rgba eng _ img f1 bits1 cm1 canvas1 hr3
  rw [hsel3, hfc1] at hcomp3
  have hsame : comp3 = canvas1 := hcomp3.transparent hsize1 htrans
  rw [hsame] at hfd3
  obtain ⟨prev3, hprev3⟩ := applyDisposal_isSome img f1.ImageDesc
    (frameControl img (NextFrame { s1 with m_pubPrevFrameBuffer := some canvas1 } now).2.m_iSelectedFrame).2
    canvas1 canvas1 (fun _ => hglobal)
  have hrun3 := hfd3 outB
  rw [hprev3, Option.map_some'] at hrun3
  refine ⟨s1, canvas0, _, _, _, _, c, hopen, hr1.canvas, hrun1, hsel3, hrun3, hc, ?_⟩
  intro sy sx hsy hsx
  rw [pixelAt_writeBytes outB canvas1 (by rw [hlen1]; exact hr1.canvasSize) hsy hsx]
  exact hpix sy sx hsy hsx

end CGIFHelper

/-! ## Timing: claims C9, C10 -/

namespace CGIFHelper

theorem NextFrame_time (s : CGIFHelper) (img : GifFileType) (gcb : GraphicsControlBlock) (t : ℚ)
    (hopen : s.m_pImage = some img)
    (hgcb : DGifSavedExtensionToGCB img (nextSelected s img) = some gcb) :
    (NextFrame s t).2.m_dIterateTime =
      (if (gcb.DelayTime : ℚ) * (1 / 100) < k_dMinTime then k_dDefaultTime
        else (gcb.DelayTime : ℚ) * (1 / 100)) + t := by
  unfold NextFrame nextSelected at *
  simp only [hopen, hgcb]

/-- C9. When `NextFrame` at clock time `t` selects a frame whose graphics control block has a delay
of `d` centiseconds (a 16-bit unsigned value of the stream, so `0 ≤ d`), the new `m_dIterateTime`
is `t + 0.10` if `d / 100 < 0.02`, which is the case exactly for `d = 0` and `d = 1`, and
`t + d / 100` otherwise; the delay added to the clock is at least `0.02`.  Seconds are exact
rationals. -/
theorem NextFrame_delay (s : CGIFHelper) (img : GifFileType) (gcb : GraphicsControlBlock) (t : ℚ)
    (hopen : s.m_pImage = some img)
    (hgcb : DGifSavedExtensionToGCB img (nextSelected s img) = some gcb)
    (hd : 0 ≤ gcb.DelayTime) :
    ((gcb.DelayTime : ℚ) / 100 < 2 / 100 ↔ gcb.DelayTime = 0 ∨ gcb.DelayTime = 1) ∧
    (NextFrame s t).2.m_dIterateTime =
      (if (gcb.DelayTime : ℚ) / 100 < 2 / 100 then t + 1 / 10 else t + (gcb.DelayTime : ℚ) / 100) ∧
    2 / 100 ≤ (NextFrame s t).2.m_dIterateTime - t := by
  have hiff : (gcb.DelayTime : ℚ) / 100 < 2 / 100 ↔ gcb.DelayTime = 0 ∨ gcb.DelayTime = 1 := by
    rw [div_lt_div_iff_of_pos_right (by norm_num : (0 : ℚ) < 100)]
    constructor
    · intro h
      have h2 : gcb.DelayTime < 2 := by exact_mod_cast h
      omega
    · intro h
      have h2 : gcb.DelayTime < 2 := by omega
      exact_mod_cast h2
  have htime := NextFrame_time s img gcb t hopen hgcb
  have hmul : (gcb.DelayTime : ℚ) * (1 / 100) = (gcb.DelayTime : ℚ) / 100 := by ring
  rw [hmul] at htime
  simp only [k_dMinTime, k_dDefaultTime] at htime
  refine ⟨hiff, ?_, ?_⟩
  · rw [htime]
    split_ifs <;> ring
  · rw [htime]
    split_ifs with h
    · norm_num
    · have : (2 : ℚ) / 100 ≤ (gcb.DelayTime : ℚ) / 100 := not_lt.mp h
      linarith

/-- C10. Timing floor: after `NextFrame` at clock time `t` has selected a frame whose delay is 0
centiseconds, `ShouldIterateFrame` is false for every clock value `now ≤ t + 0.099` and true for
every clock value `now ≥ t + 0.101`; `ShouldIterateFrame` is the comparison
`m_dIterateTime < now` of a state it only reads.  Seconds are exact rationals. -/
theorem ShouldIterateFrame_floor (s : CGIFHelper) (img : GifFileType) (gcb : GraphicsControlBlock)
    (t now : ℚ) (hopen : s.m_pImage = some img)
    (hgcb : DGifSavedExtensionToGCB img (nextSelected s img) = some gcb)
    (hd : gcb.DelayTime = 0) :
    (now ≤ t + 99 / 1000 → (NextFrame s t).2.ShouldIterateFrame now = false) ∧
    (t + 101 / 1000 ≤ now → (NextFrame s t).2.ShouldIterateFrame now = true) ∧
    ((NextFrame s t).2.ShouldIterateFrame now = true ↔ (NextFrame s t).2.m_dIterateTime < now) := by
  have htime := NextFrame_time s img gcb t hopen hgcb
  rw [hd] at htime
  simp only [k_dMinTime, k_dDefaultTime] at htime
  norm_num at htime
  unfold ShouldIterateFrame
  rw [htime]
  refine ⟨fun h => ?_, fun h => ?_, ?_⟩
  · rw [decide_eq_false_iff_not]
    linarith
  · rw [decide_eq_true_iff]
    linarith
  · rw [decide_eq_true_iff]

end CGIFHelper

/-! ## The claims at the example data -/

theorem exRenderable (disposal : Int) :
    Renderable (exState [exFrame disposal] 0) (exImage [exFrame disposal]) (exFrame disposal)
      [1, 5] exColors exCanvas :=
  ⟨rfl, ⟨_, _, rfl, rfl⟩, rfl, rfl, rfl, rfl, rfl, rfl⟩

namespace CGIFHelper

theorem NextFrame_wraps_witness :
    (exState [exFrame 1, exClearFrame, exFullFrame] 0).m_pImage =
      some (exImage [exFrame 1, exClearFrame, exFullFrame]) ∧
    (exState [exFrame 1, exClearFrame, exFullFrame] 0).GetSelectedFrame = 0 ∧
    1 ≤ 3 ∧ 3 ≤ (exImage [exFrame 1, exClearFrame, exFullFrame]).ImageCount ∧
    (NextFrameCalls (fun j => j) 3 (exState [exFrame 1, exClearFrame, exFullFrame] 0)).1 =
      decide (3 = (exImage [exFrame 1, exClearFrame, exFullFrame]).ImageCount) ∧
    (NextFrameCalls (fun j => j) 3
      (exState [exFrame 1, exClearFrame, exFullFrame] 0)).2.GetSelectedFrame =
      (if 3 = (exImage [exFrame 1, exClearFrame, exFullFrame]).ImageCount then 0 else 3) :=
  ⟨rfl, rfl, by decide, by decide,
    NextFrame_wraps (fun j => j) (exState [exFrame 1, exClearFrame, exFullFrame] 0)
      (exImage [exFrame 1, exClearFrame, exFullFrame]) rfl rfl 3 (by decide) (by decide)⟩

set_option maxRecDepth 10000 in
theorem OpenImage_FrameData_reference_witness :
    (CGIFHelper.new.m_pImage = none → CGIFHelper.new.m_iSelectedFrame = 0) ∧
    (exImage [exFullFrame]).SavedImages = [exFullFrame] ∧
    exFullFrame.ImageDesc.Interlace = false ∧
    exFullFrame.RasterBits = some [1, 0, 0, 1] ∧
    ([1, 0, 0, 1] : List GifByteType).length =
      exFullFrame.ImageDesc.Width * exFullFrame.ImageDesc.Height ∧
    (∀ v ∈ ([1, 0, 0, 1] : List GifByteType), v.val < exColors.ColorCount) ∧
    (∀ gcb, exFullFrame.gcb = some gcb → gcb.TransparentColor = NO_TRANSPARENT_COLOR) ∧
    (exImage [exFullFrame]).SWidth * (exImage [exFullFrame]).SHeight * 4 < 2 ^ 31 ∧
    ScreenFitsInt (exImage [exFullFrame]).SWidth (exImage [exFullFrame]).SHeight ∧
    (((OpenImage exEngine CGIFHelper.new (.ok (exImage [exFullFrame])) (fun _ => 9)).isSome = true ↔
      (∀ gcb, exFullFrame.gcb = some gcb → gcb.DisposalMode = DISPOSE_BACKGROUND →
        (exImage [exFullFrame]).SColorMap ≠ none)) ∧
    ∀ b s1, OpenImage exEngine CGIFHelper.new (.ok (exImage [exFullFrame])) (fun _ => 9) =
        some (b, s1) →
      b = true ∧
      ∃ s2 out', FrameData exEngine s1 .IMAGE_FORMAT_RGBA8888 (.caller exOut) =
          some (s2, .caller out') ∧
        (∀ y x, y < exFullFrame.ImageDesc.Height → x < exFullFrame.ImageDesc.Width →
          exFullFrame.ImageDesc.Top + y < (exImage [exFullFrame]).SHeight →
          exFullFrame.ImageDesc.Left + x < (exImage [exFullFrame]).SWidth →
          ∃ idx c, ([1, 0, 0, 1] : List GifByteType)[y * exFullFrame.ImageDesc.Width + x]? =
              some idx ∧
            exColors.Colors[idx.val]? = some c ∧
            pixelAt out' (exImage [exFullFrame]).SWidth (exFullFrame.ImageDesc.Top + y)
              (exFullFrame.ImageDesc.Left + x) = rgba c) ∧
        (exFullFrame.ImageDesc.Left = 0 → exFullFrame.ImageDesc.Top = 0 →
          exFullFrame.ImageDesc.Width = (exImage [exFullFrame]).SWidth →
          exFullFrame.ImageDesc.Height = (exImage [exFullFrame]).SHeight →
          exOut.length = (exImage [exFullFrame]).SWidth * (exImage [exFullFrame]).SHeight * 4 →
          out' = referenceImage exColors [1, 0, 0, 1])) :=
  ⟨fun _ => rfl, rfl, rfl, rfl, rfl, by decide, (fun _ h => nomatch h), by decide,
    OpenImage_FrameData_reference exEngine CGIFHelper.new (exImage [exFullFrame]) exFullFrame
      [1, 0, 0, 1] exColors (fun _ => 9) exOut (fun _ => rfl) rfl rfl rfl rfl rfl (by decide)
      (fun _ h => nomatch h) (by decide)⟩

theorem FrameData_keeps_unpainted_pixel_witness :
    Renderable (exState [exFrame 1] 0) (exImage [exFrame 1]) (exFrame 1) [1, 5] exColors exCanvas ∧
    0 < (exFrame 1).ImageDesc.Height ∧ 1 < (exFrame 1).ImageDesc.Width ∧
    (exFrame 1).ImageDesc.Top + 0 < (exImage [exFrame 1]).SHeight ∧
    (exFrame 1).ImageDesc.Left + 1 < (exImage [exFrame 1]).SWidth ∧
    (exColors.ColorCount ≤ (([1, 5] : List GifByteType).getD
        (srcRow (exFrame 1).ImageDesc.Interlace 0 * (exFrame 1).ImageDesc.Width + 1) 0).val ∨
      ((([1, 5] : List GifByteType).getD
        (srcRow (exFrame 1).ImageDesc.Interlace 0 * (exFrame 1).ImageDesc.Width + 1) 0).val : Int) =
        (frameControl (exImage [exFrame 1]) (exState [exFrame 1] 0).m_iSelectedFrame).1) ∧
    (((FrameData exEngine (exState [exFrame 1] 0) .IMAGE_FORMAT_RGBA8888 (.caller exOut)).isSome =
        true ↔
      ((frameControl (exImage [exFrame 1]) (exState [exFrame 1] 0).m_iSelectedFrame).2 =
        DISPOSE_BACKGROUND → (exImage [exFrame 1]).SColorMap ≠ none)) ∧
    ∀ s' out', FrameData exEngine (exState [exFrame 1] 0) .IMAGE_FORMAT_RGBA8888 (.caller exOut) =
        some (s', .caller out') →
      pixelAt out' (exImage [exFrame 1]).SWidth ((exFrame 1).ImageDesc.Top + 0)
          ((exFrame 1).ImageDesc.Left + 1) =
        pixelAt exCanvas (exImage [exFrame 1]).SWidth ((exFrame 1).ImageDesc.Top + 0)
          ((exFrame 1).ImageDesc.Left + 1)) :=
  ⟨exRenderable 1, by decide, by decide, by decide, by decide, by decide,
    FrameData_keeps_unpainted_pixel exEngine (exState [exFrame 1] 0) (exImage [exFrame 1])
      (exFrame 1) [1, 5] exColors exCanvas exOut 0 1 (exRenderable 1) (by decide) (by decide)
      (by decide) (by decide) (by decide)⟩

theorem FrameData_keep_disposal_witness :
    Renderable (exState [exFrame 1] 0) (exImage [exFrame 1]) (exFrame 1) [1, 5] exColors exCanvas ∧
    (∀ c, ImageFormat.IMAGE_FORMAT_RGBA8888 ≠ .other c) ∧
    ((frameControl (exImage [exFrame 1]) (exState [exFrame 1] 0).m_iSelectedFrame).2 =
        DISPOSAL_UNSPECIFIED ∨
      (frameControl (exImage [exFrame 1]) (exState [exFrame 1] 0).m_iSelectedFrame).2 =
        DISPOSE_DO_NOT) ∧
    ∃ comp out', IsComposition exColors
        (frameControl (exImage [exFrame 1]) (exState [exFrame 1] 0).m_iSelectedFrame).1 [1, 5]
        (exFrame 1).ImageDesc (exImage [exFrame 1]).SWidth (exImage [exFrame 1]).SHeight exCanvas
        comp ∧
      FrameData exEngine (exState [exFrame 1] 0) .IMAGE_FORMAT_RGBA8888 (.caller exOut) =
        some ({ exState [exFrame 1] 0 with m_pubPrevFrameBuffer := some comp }, .caller out') ∧
      (ImageFormat.IMAGE_FORMAT_RGBA8888 = .IMAGE_FORMAT_RGBA8888 →
        exOut.length = (exImage [exFrame 1]).SWidth * (exImage [exFrame 1]).SHeight * 4 →
        out' = comp) :=
  ⟨exRenderable 1, (fun _ h => nomatch h), Or.inr rfl,
    FrameData_keep_disposal exEngine (exState [exFrame 1] 0) (exImage [exFrame 1]) (exFrame 1)
      [1, 5] exColors exCanvas exOut .IMAGE_FORMAT_RGBA8888 (exRenderable 1)
      (fun _ h => nomatch h) (Or.inr rfl)⟩

theorem FrameData_background_disposal_witness :
    Renderable (exState [exFrame 2] 0) (exImage [exFrame 2]) (exFrame 2) [1, 5] exColors exCanvas ∧
    (∀ c, ImageFormat.IMAGE_FORMAT_BGR888 ≠ .other c) ∧
    (frameControl (exImage [exFrame 2]) (exState [exFrame 2] 0).m_iSelectedFrame).2 =
      DISPOSE_BACKGROUND ∧
    (exImage [exFrame 2]).SColorMap = some exColors ∧
    (exImage [exFrame 2]).SBackGroundColor < exColors.ColorCount ∧
    ∃ s' out' canvas c,
      FrameData exEngine (exState [exFrame 2] 0) .IMAGE_FORMAT_BGR888 (.caller exOut) =
        some (s', .caller out') ∧
      s'.m_pubPrevFrameBuffer = some canvas ∧ canvas.length = exCanvas.length ∧
      exColors.Colors[(exImage [exFrame 2]).SBackGroundColor]? = some c ∧
      ∀ sy sx, sy < (exImage [exFrame 2]).SHeight → sx < (exImage [exFrame 2]).SWidth →
        pixelAt canvas (exImage [exFrame 2]).SWidth sy sx =
          if (exFrame 2).ImageDesc.Top ≤ sy ∧
              sy < min ((exFrame 2).ImageDesc.Top + (exFrame 2).ImageDesc.Height)
                (exImage [exFrame 2]).SHeight ∧
              (exFrame 2).ImageDesc.Left ≤ sx ∧
              sx < min ((exFrame 2).ImageDesc.Left + (exFrame 2).ImageDesc.Width)
                (exImage [exFrame 2]).SWidth
          then rgba c else pixelAt exCanvas (exImage [exFrame 2]).SWidth sy sx :=
  ⟨exRenderable 2, (fun _ h => nomatch h), rfl, rfl, by decide,
    FrameData_background_disposal exEngine (exState [exFrame 2] 0) (exImage [exFrame 2])
      (exFrame 2) [1, 5] exColors exColors exCanvas exOut .IMAGE_FORMAT_BGR888 (exRenderable 2)
      (fun _ h => nomatch h) rfl rfl (by decide)⟩

set_option maxRecDepth 10000 in
theorem FrameData_after_background_disposal_witness :
    (CGIFHelper.new.m_pImage = none → CGIFHelper.new.m_iSelectedFrame = 0) ∧
    (exImage [exFrame 2, exClearFrame]).SavedImages = [exFrame 2, exClearFrame] ∧
    (exImage [exFrame 2, exClearFrame]).SColorMap = some exColors ∧
    (exImage [exFrame 2, exClearFrame]).SBackGroundColor < exColors.ColorCount ∧
    (exFrame 2).gcb = some ⟨2, false, 0, 0⟩ ∧
    (⟨2, false, 0, 0⟩ : GraphicsControlBlock).DisposalMode = DISPOSE_BACKGROUND ∧
    (exFrame 2).RasterBits = some [1, 5] ∧
    ([1, 5] : List GifByteType).length = (exFrame 2).ImageDesc.Width * (exFrame 2).ImageDesc.Height ∧
    exClearFrame.gcb = some exClearGcb ∧ exClearFrame.RasterBits = some [0, 0, 0, 0] ∧
    ([0, 0, 0, 0] : List GifByteType).length =
      exClearFrame.ImageDesc.Width * exClearFrame.ImageDesc.Height ∧
    (∀ v ∈ ([0, 0, 0, 0] : List GifByteType), (v.val : Int) = exClearGcb.TransparentColor) ∧
    (exImage [exFrame 2, exClearFrame]).SWidth * (exImage [exFrame 2, exClearFrame]).SHeight * 4 <
      2 ^ 31 ∧
    ScreenFitsInt (exImage [exFrame 2, exClearFrame]).SWidth
      (exImage [exFrame 2, exClearFrame]).SHeight ∧
    ∃ s1 canvas0 s2 outA' s4 outB' c,
      OpenImage exEngine CGIFHelper.new (.ok (exImage [exFrame 2, exClearFrame])) (fun _ => 9) =
        some (true, s1) ∧
      s1.m_pubPrevFrameBuffer = some canvas0 ∧
      FrameData exEngine s1 .IMAGE_FORMAT_RGBA8888 (.caller exOut) = some (s2, .caller outA') ∧
      (NextFrame s2 3).2.GetSelectedFrame = 1 ∧
      FrameData exEngine (NextFrame s2 3).2 .IMAGE_FORMAT_RGBA8888 (.caller exOut) =
        some (s4, .caller outB') ∧
      exColors.Colors[(exImage [exFrame 2, exClearFrame]).SBackGroundColor]? = some c ∧
      ∀ sy sx, sy < (exImage [exFrame 2, exClearFrame]).SHeight →
        sx < (exImage [exFrame 2, exClearFrame]).SWidth →
        pixelAt outB' (exImage [exFrame 2, exClearFrame]).SWidth sy sx =
          if (exFrame 2).ImageDesc.Top ≤ sy ∧
              sy < min ((exFrame 2).ImageDesc.Top + (exFrame 2).ImageDesc.Height)
                (exImage [exFrame 2, exClearFrame]).SHeight ∧
              (exFrame 2).ImageDesc.Left ≤ sx ∧
              sx < min ((exFrame 2).ImageDesc.Left + (exFrame 2).ImageDesc.Width)
                (exImage [exFrame 2, exClearFrame]).SWidth
          then rgba c else pixelAt canvas0 (exImage [exFrame 2, exClearFrame]).SWidth sy sx :=
  ⟨fun _ => rfl, rfl, rfl, by decide, rfl, rfl, rfl, rfl, rfl, rfl, rfl, by decide,
    by decide,
    FrameData_after_background_disposal exEngine CGIFHelper.new (exImage [exFrame 2, exClearFrame])
      (exFrame 2) exClearFrame [1, 5] [0, 0, 0, 0] exColors ⟨2, false, 0, 0⟩ exClearGcb
      (fun _ => 9) .IMAGE_FORMAT_RGBA8888 exOut exOut 3 (fun _ => rfl) rfl rfl (by decide) rfl rfl
      rfl rfl rfl rfl rfl (by decide) (Or.inl rfl) (by decide)⟩

theorem FrameData_twice_witness :
    Renderable (exState [exFrame 1] 0) (exImage [exFrame 1]) (exFrame 1) [1, 5] exColors exCanvas ∧
    ((frameControl (exImage [exFrame 1]) (exState [exFrame 1] 0).m_iSelectedFrame).2 =
        DISPOSAL_UNSPECIFIED ∨
      (frameControl (exImage [exFrame 1]) (exState [exFrame 1] 0).m_iSelectedFrame).2 =
        DISPOSE_DO_NOT) ∧
    ∃ s1 written,
      FrameData exEngine (exState [exFrame 1] 0) .IMAGE_FORMAT_DXT1_RUNTIME (.caller exOut) =
        some (s1, .caller (writeBytes exOut written)) ∧
      (∀ out2, FrameData exEngine s1 .IMAGE_FORMAT_DXT1_RUNTIME (.caller out2) =
        some (s1, .caller (writeBytes out2 written))) ∧
      FrameData exEngine s1 .IMAGE_FORMAT_DXT1_RUNTIME (.caller (writeBytes exOut written)) =
        some (s1, .caller (writeBytes exOut written)) :=
  ⟨exRenderable 1, Or.inr rfl,
    FrameData_twice exEngine (exState [exFrame 1] 0) (exImage [exFrame 1]) (exFrame 1) [1, 5]
      exColors exCanvas exOut .IMAGE_FORMAT_DXT1_RUNTIME (exRenderable 1) (Or.inr rfl)⟩

theorem NextFrame_delay_witness :
    (exState [exFrame 1, exClearFrame] 0).m_pImage = some (exImage [exFrame 1, exClearFrame]) ∧
    DGifSavedExtensionToGCB (exImage [exFrame 1, exClearFrame])
      (nextSelected (exState [exFrame 1, exClearFrame] 0) (exImage [exFrame 1, exClearFrame])) =
      some exClearGcb ∧
    0 ≤ exClearGcb.DelayTime ∧
    ((exClearGcb.DelayTime : ℚ) / 100 < 2 / 100 ↔
      exClearGcb.DelayTime = 0 ∨ exClearGcb.DelayTime = 1) ∧
    (NextFrame (exState [exFrame 1, exClearFrame] 0) 7).2.m_dIterateTime =
      (if (exClearGcb.DelayTime : ℚ) / 100 < 2 / 100 then 7 + 1 / 10
        else 7 + (exClearGcb.DelayTime : ℚ) / 100) ∧
    2 / 100 ≤ (NextFrame (exState [exFrame 1, exClearFrame] 0) 7).2.m_dIterateTime - 7 :=
  ⟨rfl, rfl, by decide,
    NextFrame_delay (exState [exFrame 1, exClearFrame] 0) (exImage [exFrame 1, exClearFrame])
      exClearGcb 7 rfl rfl (by decide)⟩

theorem ShouldIterateFrame_floor_witness :
    (exState [exFrame 1, exClearFrame] 1).m_pImage = some (exImage [exFrame 1, exClearFrame]) ∧
    DGifSavedExtensionToGCB (exImage [exFrame 1, exClearFrame])
      (nextSelected (exState [exFrame 1, exClearFrame] 1) (exImage [exFrame 1, exClearFrame])) =
      some ⟨1, false, 0, 0⟩ ∧
    (⟨1, false, 0, 0⟩ : GraphicsControlBlock).DelayTime = 0 ∧
    ((7 + 1 / 20 : ℚ) ≤ 7 + 99 / 1000 →
      (NextFrame (exState [exFrame 1, exClearFrame] 1) 7).2.ShouldIterateFrame (7 + 1 / 20) =
        false) ∧
    ((7 : ℚ) + 101 / 1000 ≤ 7 + 1 / 20 →
      (NextFrame (exState [exFrame 1, exClearFrame] 1) 7).2.ShouldIterateFrame (7 + 1 / 20) =
        true) ∧
    ((NextFrame (exState [exFrame 1, exClearFrame] 1) 7).2.ShouldIterateFrame (7 + 1 / 20) = true ↔
      (NextFrame (exState [exFrame 1, exClearFrame] 1) 7).2.m_dIterateTime < 7 + 1 / 20) :=
  ⟨rfl, rfl, rfl,
    ShouldIterateFrame_floor (exState [exFrame 1, exClearFrame] 1)
      (exImage [exFrame 1, exClearFrame]) ⟨1, false, 0, 0⟩ 7 (7 + 1 / 20) rfl rfl rfl⟩

end CGIFHelper

/-! ## Frame sizes and the timer without control block: claims C11, C14, C15, C17 -/

namespace CGIFHelper

theorem growToPow2_spec (limit : Nat) :
    ∀ fuel n k, n = 2 ^ k → limit ≤ n + fuel → (k = 0 ∨ 2 ^ (k - 1) < limit) →
      ∃ j, growToPow2 limit fuel n = 2 ^ j ∧ limit ≤ 2 ^ j ∧ (j = 0 ∨ 2 ^ (j - 1) < limit) := by
  intro fuel
  induction fuel with
  | zero =>
    intro n k hn hle hk
    exact ⟨k, by rw [growToPow2, hn], by omega, hk⟩
  | succ fuel ih =>
    intro n k hn hle hk
    rw [growToPow2]
    by_cases hlt : n < limit
    · rw [if_pos hlt]
      have hpos : 0 < 2 ^ k := Nat.two_pow_pos k
      refine ih (n <<< 1) (k + 1) ?_ ?_ ?_
      · rw [Nat.shiftLeft_eq, hn, Nat.pow_one, Nat.pow_succ]
      · rw [Nat.shiftLeft_eq]; omega
      · right
        rw [Nat.add_sub_cancel, ← hn]
        exact hlt
    · rw [if_neg hlt]
      exact ⟨k, hn, by omega, hk⟩

theorem growToPow2_fuel (limit : Nat) :
    ∀ fuel n, 1 ≤ n → limit ≤ n + fuel →
      growToPow2 limit (fuel + 1) n = growToPow2 limit fuel n := by
  intro fuel
  induction fuel with
  | zero =>
    intro n _ hle
    rw [growToPow2, growToPow2, if_neg (by omega)]
  | succ fuel ih =>
    intro n hn hle
    rw [growToPow2, growToPow2.eq_def limit (fuel + 1) n]
    by_cases hlt : n < limit
    · simp only [if_pos hlt]
      exact ih (n <<< 1) (by rw [Nat.shiftLeft_eq]; omega) (by rw [Nat.shiftLeft_eq]; omega)
    · simp only [if_neg hlt]

theorem growToPow2_enough (limit : Nat) (fuel : Nat) (h : limit ≤ fuel) :
    growToPow2 limit fuel 1 = growToPow2 limit limit 1 := by
  induction fuel with
  | zero =>
    have : limit = 0 := by omega
    subst this
    rfl
  | succ fuel ih =>
    rcases Nat.lt_or_ge fuel limit with hlt | hge
    · have : limit = fuel + 1 := by omega
      rw [this]
    · rw [growToPow2_fuel limit fuel 1 (by omega) (by omega)]
      exact ih hge

theorem growToPow2_least (d : Nat) (hd : 1 ≤ d) : IsLeastPow2 d (growToPow2 d d 1) := by
  obtain ⟨j, hj, hle, hmin⟩ := growToPow2_spec d d 1 0 rfl (by omega) (Or.inl rfl)
  rw [hj]
  have hlt : 2 ^ j < 2 * d := by
    rcases hmin with h | h
    · subst h; simp; omega
    · have : 2 ^ j = 2 * 2 ^ (j - 1) := by
        cases j with
        | zero => simp at h; omega
        | succ j => rw [Nat.add_sub_cancel, Nat.pow_succ, Nat.mul_comm]
      omega
  refine ⟨⟨j, rfl⟩, hle, hlt, ?_, ?_⟩
  · intro i hi
    rcases hmin with h | h
    · subst h
      exact Nat.one_le_two_pow
    · have h1 : 2 ^ (j - 1) < 2 ^ i := by omega
      have h2 : j - 1 < i := (Nat.pow_lt_pow_iff_right (by decide)).1 h1
      exact Nat.pow_le_pow_right (by decide) (by omega)
  · rintro ⟨i, hi⟩
    subst hi
    have h1 : i ≤ j := (Nat.pow_le_pow_iff_right (by decide)).1 hle
    have h2 : j < i + 1 := by
      apply (Nat.pow_lt_pow_iff_right (a := 2) (by decide)).1
      rw [Nat.pow_succ]; omega
    have : j = i := by omega
    rw [this]

/-- C11. When the frame `NextFrame` selects has no graphics control block
(`DGifSavedExtensionToGCB` does not return `GIF_OK`), `m_dIterateTime` keeps exactly the value it
had before the call; the selected index still advances (wrapping to 0 after the last frame), the
returned flag still says whether the new index is 0, and nothing else of the state changes. -/
theorem NextFrame_without_gcb (s : CGIFHelper) (img : GifFileType) (now : ℚ)
    (himg : s.m_pImage = some img)
    (hgcb : DGifSavedExtensionToGCB img
      (if s.m_iSelectedFrame + 1 ≥ img.ImageCount then 0 else s.m_iSelectedFrame + 1) = none) :
    (NextFrame s now).2.m_dIterateTime = s.m_dIterateTime ∧
    (NextFrame s now).2.m_iSelectedFrame =
      (if s.m_iSelectedFrame + 1 ≥ img.ImageCount then 0 else s.m_iSelectedFrame + 1) ∧
    (NextFrame s now).1 = decide ((NextFrame s now).2.m_iSelectedFrame = 0) ∧
    (NextFrame s now).2 = { s with m_iSelectedFrame := (NextFrame s now).2.m_iSelectedFrame } := by
  have hsel := NextFrame_selected s img now himg
  have hstate : (NextFrame s now).2 = { s with m_iSelectedFrame :=
      (if s.m_iSelectedFrame + 1 ≥ img.ImageCount then 0 else s.m_iSelectedFrame + 1) } := by
    unfold NextFrame
    simp only [himg, hgcb]
  refine ⟨by rw [hstate], hsel.1, hsel.2, ?_⟩
  rw [hsel.1]
  exact hstate

theorem NextFrame_without_gcb_witness :
    (exState [exClearFrame, exFullFrame] 0).m_pImage = some (exImage [exClearFrame, exFullFrame]) ∧
    DGifSavedExtensionToGCB (exImage [exClearFrame, exFullFrame]) 1 = none ∧
    (NextFrame (exState [exClearFrame, exFullFrame] 0) 5).2.m_dIterateTime = 0 ∧
    (NextFrame (exState [exClearFrame, exFullFrame] 0) 5).2.m_iSelectedFrame = 1 ∧
    (NextFrame (exState [exClearFrame, exFullFrame] 0) 5).1 = false :=
  have h := NextFrame_without_gcb (exState [exClearFrame, exFullFrame] 0)
    (exImage [exClearFrame, exFullFrame]) 5 rfl rfl
  ⟨rfl, rfl, h.1, h.2.1, h.2.2.1.trans (by rw [h.2.1]; rfl)⟩

/-- C14. On an open container with screen size `SWidth` x `SHeight` whose byte size
`SWidth * SHeight * SizeInBytes( eFormat )` fits the `int` that `FrameSize` returns (it is below
`2^31`), `FrameSize` reports for each of the six direct formats the width `SWidth`, the height
`SHeight` and that byte size, the bytes per pixel being 4 for the 32-bit formats and 3 for the
24-bit ones.  The value is the one the 32-bit products of the code give (`cubFrameSize32`). -/
theorem FrameSize_direct (eng : ImageLoader) (s : CGIFHelper) (img : GifFileType)
    (fmt : ImageFormat) (himg : s.m_pImage = some img)
    (hfmt : fmt = .IMAGE_FORMAT_RGBA8888 ∨ fmt = .IMAGE_FORMAT_BGRA8888 ∨
      fmt = .IMAGE_FORMAT_ARGB8888 ∨ fmt = .IMAGE_FORMAT_ABGR8888 ∨
      fmt = .IMAGE_FORMAT_RGB888 ∨ fmt = .IMAGE_FORMAT_BGR888)
    (hfit : img.SWidth * img.SHeight * ImageLoader.SizeInBytes fmt < 2 ^ 31) :
    FrameSize eng s fmt =
      (cubFrameSize32 img.SWidth img.SHeight (ImageLoader.SizeInBytes fmt),
        img.SWidth, img.SHeight) ∧
    cubFrameSize32 img.SWidth img.SHeight (ImageLoader.SizeInBytes fmt) =
      ((img.SWidth * img.SHeight * ImageLoader.SizeInBytes fmt : Nat) : Int) ∧
    ImageLoader.SizeInBytes fmt =
      (if fmt = .IMAGE_FORMAT_RGB888 ∨ fmt = .IMAGE_FORMAT_BGR888 then 3 else 4) := by
  rw [cubFrameSize32_exact hfit]
  unfold FrameSize
  rw [himg]
  rcases hfmt with h | h | h | h | h | h <;> subst h <;> exact ⟨rfl, rfl, rfl⟩

theorem FrameSize_direct_witness :
    (exSized 100 150).m_pImage.isSome = true ∧
    100 * 150 * ImageLoader.SizeInBytes .IMAGE_FORMAT_BGR888 < 2 ^ 31 ∧
    FrameSize exEngine (exSized 100 150) .IMAGE_FORMAT_BGR888 = (45000, 100, 150) ∧
    cubFrameSize32 100 150 (ImageLoader.SizeInBytes .IMAGE_FORMAT_BGR888) = 45000 :=
  have h := FrameSize_direct exEngine (exSized 100 150) _ .IMAGE_FORMAT_BGR888 rfl
    (Or.inr (Or.inr (Or.inr (Or.inr (Or.inr rfl))))) (by decide)
  ⟨rfl, by decide, h.1.trans (by rw [h.2.1]; rfl), h.2.1⟩

/-- C15. For `IMAGE_FORMAT_DXT1_RUNTIME` and a screen with `1 ≤ SWidth, SHeight ≤ 65535`, the
doubling loops of `FrameSize` terminate (every iteration bound from the screen dimension on gives
the same value) and report, independently per axis, the least power of two that is at least the
screen dimension: a power of two `p` with `d ≤ p < 2 * d`, equal to `d` when `d` is a power of
two.  The values stay at or below 65536, inside the range of `int`; the returned size is
`GetMemRequired` of the two reported dimensions. -/
theorem FrameSize_dxt1 (eng : ImageLoader) (s : CGIFHelper) (img : GifFileType)
    (himg : s.m_pImage = some img)
    (hW : 1 ≤ img.SWidth ∧ img.SWidth ≤ 65535) (hH : 1 ≤ img.SHeight ∧ img.SHeight ≤ 65535) :
    IsLeastPow2 img.SWidth (FrameSize eng s .IMAGE_FORMAT_DXT1_RUNTIME).2.1 ∧
    IsLeastPow2 img.SHeight (FrameSize eng s .IMAGE_FORMAT_DXT1_RUNTIME).2.2 ∧
    (FrameSize eng s .IMAGE_FORMAT_DXT1_RUNTIME).2.1 ≤ 65536 ∧
    (FrameSize eng s .IMAGE_FORMAT_DXT1_RUNTIME).2.2 ≤ 65536 ∧
    (FrameSize eng s .IMAGE_FORMAT_DXT1_RUNTIME).1 =
      ((eng.GetMemRequired (FrameSize eng s .IMAGE_FORMAT_DXT1_RUNTIME).2.1
        (FrameSize eng s .IMAGE_FORMAT_DXT1_RUNTIME).2.2 .IMAGE_FORMAT_DXT1_RUNTIME : Nat) : Int) ∧
    (∀ fuel, img.SWidth ≤ fuel →
      growToPow2 img.SWidth fuel 1 = (FrameSize eng s .IMAGE_FORMAT_DXT1_RUNTIME).2.1) ∧
    (∀ fuel, img.SHeight ≤ fuel →
      growToPow2 img.SHeight fuel 1 = (FrameSize eng s .IMAGE_FORMAT_DXT1_RUNTIME).2.2) := by
  have hfs : FrameSize eng s .IMAGE_FORMAT_DXT1_RUNTIME =
      (((eng.GetMemRequired (growToPow2 img.SWidth img.SWidth 1)
        (growToPow2 img.SHeight img.SHeight 1) .IMAGE_FORMAT_DXT1_RUNTIME : Nat) : Int),
        growToPow2 img.SWidth img.SWidth 1, growToPow2 img.SHeight img.SHeight 1) := by
    unfold FrameSize
    rw [himg]
  rw [hfs]
  have hw := growToPow2_least img.SWidth hW.1
  have hh := growToPow2_least img.SHeight hH.1
  have hw2 := hw.2.2.2.1 16 (by omega)
  have hh2 := hh.2.2.2.1 16 (by omega)
  exact ⟨hw, hh, hw2, hh2, rfl, fun fuel hf => growToPow2_enough _ fuel hf,
    fun fuel hf => growToPow2_enough _ fuel hf⟩

theorem FrameSize_dxt1_witness :
    (1 ≤ 100 ∧ 100 ≤ 65535) ∧ (1 ≤ 150 ∧ 150 ≤ 65535) ∧
    FrameSize exEngine (exSized 100 150) .IMAGE_FORMAT_DXT1_RUNTIME = (16384, 128, 256) ∧
    IsLeastPow2 100 (FrameSize exEngine (exSized 100 150) .IMAGE_FORMAT_DXT1_RUNTIME).2.1 ∧
    IsLeastPow2 150 (FrameSize exEngine (exSized 100 150) .IMAGE_FORMAT_DXT1_RUNTIME).2.2 :=
  have h := FrameSize_dxt1 exEngine (exSized 100 150) _ rfl ⟨by decide, by decide⟩
    ⟨by decide, by decide⟩
  ⟨⟨by decide, by decide⟩, ⟨by decide, by decide⟩, by decide, h.1, h.2.1⟩

/-- C17 as stated fails: for a format outside the supported set the byte size `FrameSize` returns on
an open container is -1, not 0. -/
theorem FrameSize_unsupported_nonzero :
    (exSized 100 150).m_pImage.isSome = true ∧
    FrameSize exEngine (exSized 100 150) (.other 0) = (-1, 0, 0) ∧
    (FrameSize exEngine (exSized 100 150) (.other 0)).1 ≠ 0 :=
  ⟨rfl, rfl, by decide⟩

/-- C17, amended. For every image format outside the supported set (the six direct formats and
`IMAGE_FORMAT_DXT1_RUNTIME`), `FrameSize` on an open container fails: it returns the failure
value -1 as byte size and reports width 0 and height 0. -/
theorem FrameSize_unsupported (eng : ImageLoader) (img : GifFileType)
    (prev : Option (List uint8)) (selected : Nat) (t : ℚ) (code : Nat) :
    FrameSize eng ⟨some img, prev, selected, t⟩ (.other code) = (-1, 0, 0) := rfl

end CGIFHelper

/-! ## Clipping and resampling: claims C12, C16 -/

namespace CGIFHelper

/-- C12. Clipping keeps the raster in lockstep.  For a frame that is not interlaced, in
particular one whose rectangle overhangs the right or the bottom screen edge, the RGBA8888 output
of `FrameData` differs from the canvas before the call at most in the on-screen pixels of the
frame: nothing is written for a pixel with `Top + y ≥ SHeight` or `Left + x ≥ SWidth`, and the
on-screen pixel (`Top + y`, `Left + x`) is painted from raster position `y * Width + x`, whatever
part of the frame is clipped.  The call produces its output unless the frame is disposed to
background in a container without global colour table. -/
theorem FrameData_clipped (eng : ImageLoader) (s : CGIFHelper) (img : GifFileType)
    (frame : SavedImage) (bits : List GifByteType) (cm : ColorMapObject) (prev out : List uint8)
    (hr : Renderable s img frame bits cm prev) (hni : frame.ImageDesc.Interlace = false)
    (hout : out.length = img.SWidth * img.SHeight * 4) :
    ((FrameData eng s .IMAGE_FORMAT_RGBA8888 (.caller out)).isSome = true ↔
      ((frameControl img s.m_iSelectedFrame).2 = DISPOSE_BACKGROUND → img.SColorMap ≠ none)) ∧
    ∀ s' out', FrameData eng s .IMAGE_FORMAT_RGBA8888 (.caller out) = some (s', .caller out') →
      (∀ y x k, y < frame.ImageDesc.Height → x < frame.ImageDesc.Width →
        frame.ImageDesc.Top + y < img.SHeight → frame.ImageDesc.Left + x < img.SWidth → k < 4 →
        out'[pixOff img.SWidth (frame.ImageDesc.Top + y) (frame.ImageDesc.Left + x) k]? =
          some (paintedByte cm (frameControl img s.m_iSelectedFrame).1 bits
            (y * frame.ImageDesc.Width + x) k
            (prev.getD (pixOff img.SWidth (frame.ImageDesc.Top + y) (frame.ImageDesc.Left + x) k)
              0))) ∧
      (∀ p, (∀ y x k, y < frame.ImageDesc.Height → x < frame.ImageDesc.Width →
          frame.ImageDesc.Top + y < img.SHeight → frame.ImageDesc.Left + x < img.SWidth → k < 4 →
          p ≠ pixOff img.SWidth (frame.ImageDesc.Top + y) (frame.ImageDesc.Left + x) k) →
        out'[p]? = prev[p]?) := by
  obtain ⟨comp, hcomp, hfd, _⟩ := FrameData_rgba eng s img frame bits cm prev hr
  refine ⟨?_, ?_⟩
  · rw [hfd out, Option.isSome_map']
    exact applyDisposal_isSome_iff _ _ _ _ _
  · intro s' out' hrun
    rw [hfd out] at hrun
    cases happ : applyDisposal img frame.ImageDesc (frameControl img s.m_iSelectedFrame).2 prev
        comp with
    | none => rw [happ] at hrun; cases hrun
    | some prev1 =>
      rw [happ, Option.map_some'] at hrun
      have hout' : out' = comp := by
        injection hrun with hrun
        injection hrun with _ h2
        injection h2 with h2
        rw [← h2]
        exact writeBytes_full out comp (by rw [hcomp.length, hr.canvasSize, hout])
      subst hout'
      refine ⟨fun y x k hy hx hsy hsx hk => ?_, fun p hp => ?_⟩
      · have hlt : pixOff img.SWidth (frame.ImageDesc.Top + y) (frame.ImageDesc.Left + x) k <
            prev.length := by
          rw [hr.canvasSize]
          exact pixOff_lt hsy hsx hk
        have h := hcomp.1 y x k hy (by omega) hx hsx hk
        rw [Nat.add_comm y frame.ImageDesc.Top, hni, srcRow_false,
          List.getElem?_eq_getElem hlt, Option.map_some'] at h
        rw [h, List.getD_eq_getElem _ _ hlt]
      · apply hcomp.2 p
        intro y x k hy hsy hx hsx hk
        rw [Nat.add_comm y frame.ImageDesc.Top]
        exact hp y x k hy hx (by omega) hsx hk

theorem exOverhangRenderable :
    Renderable (exState [exOverhang] 0) (exImage [exOverhang]) exOverhang [1, 0, 1, 0] exColors
      exCanvas :=
  ⟨rfl, ⟨_, _, rfl, rfl⟩, rfl, rfl, rfl, rfl, rfl, rfl⟩

set_option maxRecDepth 10000 in
theorem FrameData_clipped_witness :
    Renderable (exState [exOverhang] 0) (exImage [exOverhang]) exOverhang [1, 0, 1, 0] exColors
      exCanvas ∧
    exOverhang.ImageDesc.Interlace = false ∧
    exOut.length = (exImage [exOverhang]).SWidth * (exImage [exOverhang]).SHeight * 4 ∧
    (exImage [exOverhang]).SWidth < exOverhang.ImageDesc.Left + exOverhang.ImageDesc.Width ∧
    (FrameData exEngine (exState [exOverhang] 0) .IMAGE_FORMAT_RGBA8888 (.caller exOut)).map
        (fun r => r.2) =
      some (.caller [7, 7, 7, 7, 40, 50, 60, 255, 7, 7, 7, 7, 40, 50, 60, 255]) ∧
    (((FrameData exEngine (exState [exOverhang] 0) .IMAGE_FORMAT_RGBA8888 (.caller exOut)).isSome =
        true ↔
      ((frameControl (exImage [exOverhang]) (exState [exOverhang] 0).m_iSelectedFrame).2 =
        DISPOSE_BACKGROUND → (exImage [exOverhang]).SColorMap ≠ none)) ∧
    ∀ s' out', FrameData exEngine (exState [exOverhang] 0) .IMAGE_FORMAT_RGBA8888 (.caller exOut) =
        some (s', .caller out') →
      (∀ y x k, y < exOverhang.ImageDesc.Height → x < exOverhang.ImageDesc.Width →
        exOverhang.ImageDesc.Top + y < (exImage [exOverhang]).SHeight →
        exOverhang.ImageDesc.Left + x < (exImage [exOverhang]).SWidth → k < 4 →
        out'[pixOff (exImage [exOverhang]).SWidth (exOverhang.ImageDesc.Top + y)
            (exOverhang.ImageDesc.Left + x) k]? =
          some (paintedByte exColors
            (frameControl (exImage [exOverhang]) (exState [exOverhang] 0).m_iSelectedFrame).1
            [1, 0, 1, 0] (y * exOverhang.ImageDesc.Width + x) k
            (exCanvas.getD (pixOff (exImage [exOverhang]).SWidth (exOverhang.ImageDesc.Top + y)
              (exOverhang.ImageDesc.Left + x) k) 0))) ∧
      (∀ p, (∀ y x k, y < exOverhang.ImageDesc.Height → x < exOverhang.ImageDesc.Width →
          exOverhang.ImageDesc.Top + y < (exImage [exOverhang]).SHeight →
          exOverhang.ImageDesc.Left + x < (exImage [exOverhang]).SWidth → k < 4 →
          p ≠ pixOff (exImage [exOverhang]).SWidth (exOverhang.ImageDesc.Top + y)
            (exOverhang.ImageDesc.Left + x) k) →
        out'[p]? = exCanvas[p]?)) :=
  ⟨exOverhangRenderable, rfl, by decide, by decide, by decide,
    FrameData_clipped exEngine (exState [exOverhang] 0) (exImage [exOverhang]) exOverhang
      [1, 0, 1, 0] exColors exCanvas exOut exOverhangRenderable rfl (by decide)⟩

end CGIFHelper

namespace CGIFHelper

theorem FrameSize_target_lt (eng : ImageLoader) (s : CGIFHelper) (img : GifFileType)
    (fmt : ImageFormat) (himg : s.m_pImage = some img) (hfmt : (FrameSize eng s fmt).1 ≠ -1)
    (hsize : ¬((FrameSize eng s fmt).2.1 = img.SWidth ∧ (FrameSize eng s fmt).2.2 = img.SHeight))
    (hpos : 0 < img.SWidth ∧ 0 < img.SHeight) :
    (FrameSize eng s fmt).2.1 < 2 * img.SWidth ∧ (FrameSize eng s fmt).2.2 < 2 * img.SHeight := by
  unfold FrameSize at hfmt hsize ⊢
  rw [himg] at hfmt hsize ⊢
  cases fmt with
  | IMAGE_FORMAT_DXT1_RUNTIME =>
    exact ⟨(growToPow2_least _ hpos.1).2.2.1, (growToPow2_least _ hpos.2).2.2.1⟩
  | other c => exact absurd rfl hfmt
  | _ => exact absurd ⟨rfl, rfl⟩ hsize

theorem resample_product_lt {x t d : Nat} (hx : x < t) (ht : t < 2 * d) (hd : d ≤ 32768) :
    x * d < 2 ^ 31 := by
  have h1 : x * d ≤ (2 * d - 2) * d := Nat.mul_le_mul_right d (by omega)
  have h2 : (2 * d - 2) * d ≤ (2 * 32768 - 2) * 32768 := Nat.mul_le_mul (by omega) hd
  omega

theorem nSrc_exact {x t d : Nat} (hx : x < t) (ht : t < 2 * d) (hd : d ≤ 32768) :
    nSrc x d t = ((x * d / t : Nat) : Int) := by
  have h := resample_product_lt hx ht hd
  unfold nSrc
  rw [int32_of_lt _ (by positivity) (by exact_mod_cast h)]
  rw [← Int.ofNat_mul, ← Int.ofNat_tdiv]

/-- C16. When the target size `FrameSize` reports differs from the screen size, the RGBA buffer
`FrameData` hands to `ImageLoader::ConvertImageFormat` is the nearest-neighbour resampling of the
final composition: it has `tw * th * 4` bytes and, for every `x < tw`, `y < th`, its pixel
(`x`, `y`) equals in all four channels the composition pixel (`x * sw / tw`, `y * sh / th`)
(integer division), which is a pixel of the screen.  Interlaced frames are included: the target
buffer after the fourth pass is the resampling of the composition after the fourth pass.
This is stated where the `int` arithmetic of the code is exact: both screen axes are at most
32768 pixels, and the screen and the target have fewer than `2^31` bytes.  There the products
`x * sw` and `y * sh` are below `2^31`, the source coordinates the code computes in 32 bits
(`nSrc`) are these quotients, and the block sizes are the exact products. -/
theorem FrameData_resampled (eng : ImageLoader) (s : CGIFHelper) (img : GifFileType)
    (frame : SavedImage) (bits : List GifByteType) (cm : ColorMapObject) (prev : List uint8)
    (fmt : ImageFormat) (hr : Renderable s img frame bits cm prev)
    (hfmt : (FrameSize eng s fmt).1 ≠ -1)
    (hsize : ¬((FrameSize eng s fmt).2.1 = img.SWidth ∧ (FrameSize eng s fmt).2.2 = img.SHeight))
    (hpos : 0 < img.SWidth ∧ 0 < img.SHeight)
    (haxis : img.SWidth ≤ 32768 ∧ img.SHeight ≤ 32768)
    (hfit : img.SWidth * img.SHeight * 4 < 2 ^ 31)
    (htarget : (FrameSize eng s fmt).2.1 * (FrameSize eng s fmt).2.2 * 4 < 2 ^ 31) :
    ScreenFitsInt img.SWidth img.SHeight ∧
    cubSize32 (FrameSize eng s fmt).2.1 (FrameSize eng s fmt).2.2 =
      (((FrameSize eng s fmt).2.1 * cBytesPerPixel * (FrameSize eng s fmt).2.2 : Nat) : Int) ∧
    ∃ comp target, IsComposition cm (frameControl img s.m_iSelectedFrame).1 bits frame.ImageDesc
        img.SWidth img.SHeight prev comp ∧
      comp.length = img.SWidth * img.SHeight * 4 ∧
      target.length = (FrameSize eng s fmt).2.1 * (FrameSize eng s fmt).2.2 * 4 ∧
      (∀ x y k, x < (FrameSize eng s fmt).2.1 → y < (FrameSize eng s fmt).2.2 → k < 4 →
        x * img.SWidth < 2 ^ 31 ∧ y * img.SHeight < 2 ^ 31 ∧
        nSrc x img.SWidth (FrameSize eng s fmt).2.1 =
          ((x * img.SWidth / (FrameSize eng s fmt).2.1 : Nat) : Int) ∧
        nSrc y img.SHeight (FrameSize eng s fmt).2.2 =
          ((y * img.SHeight / (FrameSize eng s fmt).2.2 : Nat) : Int) ∧
        y * img.SHeight / (FrameSize eng s fmt).2.2 < img.SHeight ∧
        x * img.SWidth / (FrameSize eng s fmt).2.1 < img.SWidth ∧
        target[pixOff (FrameSize eng s fmt).2.1 y x k]? =
          comp[pixOff img.SWidth (y * img.SHeight / (FrameSize eng s fmt).2.2)
            (x * img.SWidth / (FrameSize eng s fmt).2.1) k]?) ∧
      ∀ out, FrameData eng s fmt (.caller out) =
        (applyDisposal img frame.ImageDesc (frameControl img s.m_iSelectedFrame).2 prev comp).map
          (fun prev1 =>
            ({ s with m_pubPrevFrameBuffer := some prev1 },
              OutBuffer.caller (writeBytes out (eng.ConvertImageFormat target fmt
                (FrameSize eng s fmt).2.1 (FrameSize eng s fmt).2.2)))) := by
  refine ⟨screenFitsInt_of_lt hfit, cubSize32_exact htarget, ?_⟩
  obtain ⟨comp, hcomp, hfd, _⟩ := FrameData_eq eng s fmt img frame bits cm prev hr hfmt
  have hlt := FrameSize_target_lt eng s img fmt hr.image hfmt hsize hpos
  generalize (FrameSize eng s fmt).2.1 = tw at hsize hfd hlt ⊢
  generalize (FrameSize eng s fmt).2.2 = th at hsize hfd hlt ⊢
  have hclen : comp.length = img.SWidth * img.SHeight * 4 := by rw [hcomp.length, hr.canvasSize]
  have htb : targetBuffer comp img.SWidth img.SHeight tw th =
      resample comp img.SWidth img.SHeight tw th (List.replicate (tw * cBytesPerPixel * th) 0) := by
    unfold targetBuffer
    rw [if_neg hsize]
  have htlen : (targetBuffer comp img.SWidth img.SHeight tw th).length = tw * th * 4 := by
    rw [htb, resample_length, List.length_replicate]
    simp only [cBytesPerPixel]
    ring
  refine ⟨comp, targetBuffer comp img.SWidth img.SHeight tw th, hcomp, hclen, htlen, ?_, hfd⟩
  intro x y k hx hy hk
  have hsy : y * img.SHeight / th < img.SHeight :=
    Nat.div_lt_of_lt_mul (Nat.mul_lt_mul_of_lt_of_le hy (Nat.le_refl _) hpos.2)
  have hsx : x * img.SWidth / tw < img.SWidth :=
    Nat.div_lt_of_lt_mul (Nat.mul_lt_mul_of_lt_of_le hx (Nat.le_refl _) hpos.1)
  refine ⟨resample_product_lt hx hlt.1 haxis.1, resample_product_lt hy hlt.2 haxis.2,
    nSrc_exact hx hlt.1 haxis.1, nSrc_exact hy hlt.2 haxis.2, hsy, hsx, ?_⟩
  have hd : pixOff tw y x k = y * (tw * 4) + x * 4 + k := by unfold pixOff; ring
  have hsrc : pixOff img.SWidth (y * img.SHeight / th) (x * img.SWidth / tw) k =
      (y * img.SHeight / th) * (img.SWidth * 4) + (x * img.SWidth / tw) * 4 + k := by
    unfold pixOff; ring
  have hdlt : pixOff tw y x k < (List.replicate (tw * cBytesPerPixel * th) (0 : uint8)).length := by
    rw [List.length_replicate]
    have : pixOff tw y x k < tw * th * 4 := pixOff_lt hy hx hk
    simp only [cBytesPerPixel]
    calc pixOff tw y x k < tw * th * 4 := this
      _ = tw * 4 * th := by ring
  have hslt : pixOff img.SWidth (y * img.SHeight / th) (x * img.SWidth / tw) k < comp.length := by
    rw [hclen]
    exact pixOff_lt hsy hsx hk
  rw [htb, hd, (resample_spec comp img.SWidth img.SHeight tw th _).1 y x k hy hx hk, ← hd,
    List.getElem?_eq_getElem hdlt, Option.map_some', ← hsrc, List.getElem?_eq_getElem hslt,
    List.getD_eq_getElem _ _ hslt]

theorem exWideRenderable :
    Renderable exWideState (exWideImage [exWideFrame]) exWideFrame [1, 0, 1] exColors
      (List.replicate 12 7) :=
  ⟨rfl, ⟨_, _, rfl, rfl⟩, rfl, rfl, rfl, rfl, rfl, rfl⟩

set_option maxRecDepth 10000 in
theorem FrameData_resampled_witness :
    Renderable exWideState (exWideImage [exWideFrame]) exWideFrame [1, 0, 1] exColors
      (List.replicate 12 7) ∧
    FrameSize exRawEngine exWideState .IMAGE_FORMAT_DXT1_RUNTIME = (16, 4, 1) ∧
    (0 < (exWideImage [exWideFrame]).SWidth ∧ 0 < (exWideImage [exWideFrame]).SHeight) ∧
    ((exWideImage [exWideFrame]).SWidth ≤ 32768 ∧ (exWideImage [exWideFrame]).SHeight ≤ 32768) ∧
    (exWideImage [exWideFrame]).SWidth * (exWideImage [exWideFrame]).SHeight * 4 < 2 ^ 31 ∧
    (FrameSize exRawEngine exWideState .IMAGE_FORMAT_DXT1_RUNTIME).2.1 *
      (FrameSize exRawEngine exWideState .IMAGE_FORMAT_DXT1_RUNTIME).2.2 * 4 < 2 ^ 31 ∧
    (FrameData exRawEngine exWideState .IMAGE_FORMAT_DXT1_RUNTIME (.caller exOut)).map
        (fun r => r.2) =
      some (.caller [40, 50, 60, 255, 40, 50, 60, 255, 10, 20, 30, 255, 40, 50, 60, 255]) ∧
    ScreenFitsInt (exWideImage [exWideFrame]).SWidth (exWideImage [exWideFrame]).SHeight ∧
    cubSize32 (FrameSize exRawEngine exWideState .IMAGE_FORMAT_DXT1_RUNTIME).2.1
        (FrameSize exRawEngine exWideState .IMAGE_FORMAT_DXT1_RUNTIME).2.2 =
      (((FrameSize exRawEngine exWideState .IMAGE_FORMAT_DXT1_RUNTIME).2.1 * cBytesPerPixel *
        (FrameSize exRawEngine exWideState .IMAGE_FORMAT_DXT1_RUNTIME).2.2 : Nat) : Int) ∧
    ∃ comp target, IsComposition exColors
        (frameControl (exWideImage [exWideFrame]) exWideState.m_iSelectedFrame).1 [1, 0, 1]
        exWideFrame.ImageDesc (exWideImage [exWideFrame]).SWidth
        (exWideImage [exWideFrame]).SHeight (List.replicate 12 7) comp ∧
      comp.length = (exWideImage [exWideFrame]).SWidth * (exWideImage [exWideFrame]).SHeight * 4 ∧
      target.length = (FrameSize exRawEngine exWideState .IMAGE_FORMAT_DXT1_RUNTIME).2.1 *
        (FrameSize exRawEngine exWideState .IMAGE_FORMAT_DXT1_RUNTIME).2.2 * 4 ∧
      (∀ x y k, x < (FrameSize exRawEngine exWideState .IMAGE_FORMAT_DXT1_RUNTIME).2.1 →
        y < (FrameSize exRawEngine exWideState .IMAGE_FORMAT_DXT1_RUNTIME).2.2 → k < 4 →
        x * (exWideImage [exWideFrame]).SWidth < 2 ^ 31 ∧ y * (exWideImage [exWideFrame]).SHeight < 2 ^ 31 ∧
        nSrc x (exWideImage [exWideFrame]).SWidth
            (FrameSize exRawEngine exWideState .IMAGE_FORMAT_DXT1_RUNTIME).2.1 =
          ((x * (exWideImage [exWideFrame]).SWidth /
            (FrameSize exRawEngine exWideState .IMAGE_FORMAT_DXT1_RUNTIME).2.1 : Nat) : Int) ∧
        nSrc y (exWideImage [exWideFrame]).SHeight
            (FrameSize exRawEngine exWideState .IMAGE_FORMAT_DXT1_RUNTIME).2.2 =
          ((y * (exWideImage [exWideFrame]).SHeight /
            (FrameSize exRawEngine exWideState .IMAGE_FORMAT_DXT1_RUNTIME).2.2 : Nat) : Int) ∧
        y * (exWideImage [exWideFrame]).SHeight /
            (FrameSize exRawEngine exWideState .IMAGE_FORMAT_DXT1_RUNTIME).2.2 <
          (exWideImage [exWideFrame]).SHeight ∧
        x * (exWideImage [exWideFrame]).SWidth /
            (FrameSize exRawEngine exWideState .IMAGE_FORMAT_DXT1_RUNTIME).2.1 <
          (exWideImage [exWideFrame]).SWidth ∧
        target[pixOff (FrameSize exRawEngine exWideState .IMAGE_FORMAT_DXT1_RUNTIME).2.1 y x k]? =
          comp[pixOff (exWideImage [exWideFrame]).SWidth
            (y * (exWideImage [exWideFrame]).SHeight /
              (FrameSize exRawEngine exWideState .IMAGE_FORMAT_DXT1_RUNTIME).2.2)
            (x * (exWideImage [exWideFrame]).SWidth /
              (FrameSize exRawEngine exWideState .IMAGE_FORMAT_DXT1_RUNTIME).2.1) k]?) ∧
      ∀ out, FrameData exRawEngine exWideState .IMAGE_FORMAT_DXT1_RUNTIME (.caller out) =
        (applyDisposal (exWideImage [exWideFrame]) exWideFrame.ImageDesc
          (frameControl (exWideImage [exWideFrame]) exWideState.m_iSelectedFrame).2
          (List.replicate 12 7) comp).map
          (fun prev1 =>
            ({ exWideState with m_pubPrevFrameBuffer := some prev1 },
              OutBuffer.caller (writeBytes out (exRawEngine.ConvertImageFormat target
                .IMAGE_FORMAT_DXT1_RUNTIME
                (FrameSize exRawEngine exWideState .IMAGE_FORMAT_DXT1_RUNTIME).2.1
                (FrameSize exRawEngine exWideState .IMAGE_FORMAT_DXT1_RUNTIME).2.2)))) :=
  ⟨exWideRenderable, by decide, by decide, by decide, by decide, by decide, by decide,
    FrameData_resampled exRawEngine exWideState (exWideImage [exWideFrame]) exWideFrame [1, 0, 1]
      exColors (List.replicate 12 7) .IMAGE_FORMAT_DXT1_RUNTIME exWideRenderable (by decide)
      (by decide) (by decide) (by decide) (by decide) (by decide)⟩

end CGIFHelper

/-! ## Interlaced rows, the fresh canvas and the missing colour table: claims C13, C18, C19 -/

namespace CGIFHelper

set_option maxRecDepth 10000 in
/-- C13 fails on the code.  On the interlaced 1x5 frame whose stored row `r` holds index `r`, the
four passes visit the display rows in the order 0, 4, 2, 1, 3, but `FrameData` does not paint
the `k`-th visited row from stored row `k`: every pass restarts the raster position at
`nRowOffset * Width`, so display row 4 (visited second) shows stored row 4 instead of stored row
1, display row 1 shows stored row 1 instead of 3, and display row 3 shows stored row 2 instead of
4; stored row 3 is never read. -/
theorem FrameData_interlaced_not_sequential :
    interlaceRows 5 = [0, 4, 2, 1, 3] ∧
    (FrameData exRawEngine exInterlacedState .IMAGE_FORMAT_RGBA8888
        (.caller (List.replicate 20 0))).map (fun r => r.2) =
      some (.caller [10, 10, 10, 255, 20, 20, 20, 255, 30, 30, 30, 255, 30, 30, 30, 255,
        50, 50, 50, 255]) ∧
    (List.range 5).map (fun y => srcRow true y) = [0, 1, 2, 2, 4] ∧
    (List.range 5).map (fun y => (interlaceRows 5).indexOf y) = [0, 3, 2, 4, 1] := by
  decide

set_option maxRecDepth 10000 in
/-- C18 fails on the code.  `OpenImage` renders frame 0 over the bytes `new uint8[ n ]` happens to
hold: with the 2x1 frame on the 2x2 screen every canvas byte the frame does not paint keeps the
allocation's content (7, resp. 9, never written to 0), and opening the same stream twice gives two
different canvases.  The canvas has `2 * 2 * 4` bytes both times. -/
theorem OpenImage_canvas_not_zeroed :
    (OpenImage exEngine new (.ok (exImage [exFrame 1])) (fun _ => 7)).map
        (fun r => (r.1, r.2.m_pubPrevFrameBuffer)) =
      some (true, some [40, 50, 60, 255, 7, 7, 7, 7, 7, 7, 7, 7, 7, 7, 7, 7]) ∧
    (OpenImage exEngine new (.ok (exImage [exFrame 1])) (fun _ => 9)).map
        (fun r => (r.1, r.2.m_pubPrevFrameBuffer)) =
      some (true, some [40, 50, 60, 255, 9, 9, 9, 9, 9, 9, 9, 9, 9, 9, 9, 9]) := by
  decide

theorem paintRows_null (tr : Int) (RasterBits : Option (List GifByteType)) (d : GifImageDesc)
    (sw sh inc fuel iPixel : Nat) (comp : List uint8) (hfuel : 0 < fuel)
    (hH : 0 < d.Height) (hW : 0 < d.Width) (hT : d.Top < sh) (hL : d.Left < sw) :
    paintRows none tr RasterBits d sw sh inc fuel 0 iPixel comp = none := by
  obtain ⟨w, hw⟩ : ∃ w, d.Width = w + 1 := ⟨d.Width - 1, by omega⟩
  obtain ⟨f, hf⟩ : ∃ f, fuel = f + 1 := ⟨fuel - 1, by omega⟩
  subst hf
  unfold paintRows
  rw [if_pos hH, if_neg (by omega), hw]
  unfold paintRow
  simp only [if_neg (show ¬(0 + d.Left ≥ sw) by omega)]

theorem lambdaComputeFrame_null (tr : Int) (RasterBits : Option (List GifByteType))
    (d : GifImageDesc) (sw sh tw th inc : Nat) (comp : List uint8) (target : Option (List uint8))
    (hH : 0 < d.Height) (hW : 0 < d.Width) (hT : d.Top < sh) (hL : d.Left < sw) :
    lambdaComputeFrame none tr RasterBits d sw sh tw th 0 inc comp target = none := by
  unfold lambdaComputeFrame
  rw [paintRows_null tr RasterBits d sw sh inc d.Height (0 * d.Width) comp hH hH hW hT hL]

/-- C19 fails on the code.  When the selected frame has no local colour table, the container has
no global one and the first pixel of the frame lies on the screen, `FrameData` does not complete:
for every supported format and every output buffer it reads `pColorMap->ColorCount` through the
null table at that pixel (gifhelper.cpp:235), which the embedding records as the fault `none`. -/
theorem FrameData_null_color_map (eng : ImageLoader) (s : CGIFHelper) (img : GifFileType)
    (first frame : SavedImage) (r : List GifByteType) (prev : List uint8) (fmt : ImageFormat)
    (out : OutBuffer) (himg : s.m_pImage = some img)
    (hfirst : img.SavedImages.head? = some first) (hraster : first.RasterBits = some r)
    (hfmt : (FrameSize eng s fmt).1 ≠ -1)
    (hsel : img.SavedImages.get? s.m_iSelectedFrame = some frame)
    (hcanvas : s.m_pubPrevFrameBuffer = some prev)
    (hlocal : frame.ImageDesc.ColorMap = none) (hglobal : img.SColorMap = none)
    (hH : 0 < frame.ImageDesc.Height) (hW : 0 < frame.ImageDesc.Width)
    (hT : frame.ImageDesc.Top < img.SHeight) (hL : frame.ImageDesc.Left < img.SWidth) :
    FrameData eng s fmt out = none := by
  unfold FrameData
  simp only [himg, hfirst, hraster, Option.isNone_some, Bool.false_eq_true, if_false, hfmt, hsel,
    hcanvas, hlocal, hglobal, interlacePasses, k_rowOffsets, k_rowIncrements,
    List.getD_cons_zero, lambdaComputeFrame_null _ _ _ _ _ _ _ _ _ _ hH hW hT hL, ite_self]

theorem FrameData_null_color_map_witness :
    exNoColorsState.m_pImage.isSome = true ∧
    FrameSize exEngine exNoColorsState .IMAGE_FORMAT_RGBA8888 = (16, 2, 2) ∧
    exFullFrame.ImageDesc.ColorMap = none ∧
    exFullFrame.RasterBits = some [1, 0, 0, 1] ∧
    FrameData exEngine exNoColorsState .IMAGE_FORMAT_RGBA8888 (.caller exOut) = none :=
  ⟨rfl, by decide, rfl, rfl,
    FrameData_null_color_map exEngine exNoColorsState _ exFullFrame exFullFrame [1, 0, 0, 1]
      exCanvas .IMAGE_FORMAT_RGBA8888 (.caller exOut) rfl rfl rfl (by decide) rfl rfl rfl rfl
      (by decide) (by decide) (by decide) (by decide)⟩

end CGIFHelper

/-! ## Array accesses stay in range: claim C20 -/

theorem replayScratch_append (l1 l2 : List Access) (buf : List uint8) :
    replayScratch (l1 ++ l2) buf = replayScratch l2 (replayScratch l1 buf) := by
  induction l1 generalizing buf with
  | nil => rfl
  | cons a l1 ih => cases a <;> (rw [List.cons_append]; simp only [replayScratch]; exact ih _)

theorem replayCanvas_append (l1 l2 : List Access) (buf : List uint8) :
    replayCanvas (l1 ++ l2) buf = replayCanvas l2 (replayCanvas l1 buf) := by
  induction l1 generalizing buf with
  | nil => rfl
  | cons a l1 ih => cases a <;> (rw [List.cons_append]; simp only [replayCanvas]; exact ih _)

theorem replayScratch_flatMap {α : Type} (f : α → List Access) (l : List α) (buf : List uint8) :
    replayScratch (l.flatMap f) buf = l.foldl (fun b i => replayScratch (f i) b) buf := by
  induction l generalizing buf with
  | nil => rfl
  | cons a l ih => rw [List.flatMap_cons, replayScratch_append, ih, List.foldl_cons]

theorem replayCanvas_flatMap {α : Type} (f : α → List Access) (l : List α) (buf : List uint8) :
    replayCanvas (l.flatMap f) buf = l.foldl (fun b i => replayCanvas (f i) b) buf := by
  induction l generalizing buf with
  | nil => rfl
  | cons a l ih => rw [List.flatMap_cons, replayCanvas_append, ih, List.foldl_cons]

namespace CGIFHelper

theorem paintRow_replay (cm : ColorMapObject) (tr : Int) (bits : List GifByteType)
    (Left sw : Nat) : ∀ (n x iPixel pubDest : Nat) (comp : List uint8),
    paintRow (some cm) tr (some bits) Left sw n x iPixel pubDest comp =
      some ((paintRowAccesses cm tr bits Left sw n x iPixel pubDest).1,
        replayScratch (paintRowAccesses cm tr bits Left sw n x iPixel pubDest).2 comp) := by
  intro n
  induction n with
  | zero => intro x iPixel pubDest comp; rfl
  | succ n ih =>
    intro x iPixel pubDest comp
    unfold paintRow paintRowAccesses
    by_cases hclip : x + Left ≥ sw
    · simp only [if_pos hclip]
      exact ih _ _ _ _
    · simp only [if_neg hclip]
      rw [ih, replayScratch_append]
      by_cases hop : (bits.getD iPixel 0).val < cm.ColorCount ∧
          ((bits.getD iPixel 0).val : Int) ≠ tr
      · simp only [if_pos hop, replayScratch, store4]
      · simp only [if_neg hop, replayScratch]

theorem paintRows_replay (cm : ColorMapObject) (tr : Int) (bits : List GifByteType)
    (d : GifImageDesc) (sw sh inc : Nat) : ∀ (fuel y iPixel : Nat) (comp : List uint8),
    paintRows (some cm) tr (some bits) d sw sh inc fuel y iPixel comp =
      some (replayScratch (paintRowsAccesses cm tr bits d sw sh inc fuel y iPixel) comp) := by
  intro fuel
  induction fuel with
  | zero => intro y iPixel comp; rfl
  | succ fuel ih =>
    intro y iPixel comp
    unfold paintRows paintRowsAccesses
    by_cases hy : y < d.Height
    · simp only [if_pos hy]
      by_cases hclip : y + d.Top ≥ sh
      · simp only [if_pos hclip]
        exact ih _ _ _
      · simp only [if_neg hclip, paintRow_replay, ih, replayScratch_append]
    · simp only [if_neg hy]
      rfl

theorem lambdaComputeFrame_replay (cm : ColorMapObject) (tr : Int) (bits : List GifByteType)
    (d : GifImageDesc) (sw sh tw th o inc : Nat) (comp : List uint8)
    (target : Option (List uint8)) :
    ∃ target', lambdaComputeFrame (some cm) tr (some bits) d sw sh tw th o inc comp target =
      some (replayScratch (paintRowsAccesses cm tr bits d sw sh inc d.Height o (o * d.Width)) comp,
        target') := by
  unfold lambdaComputeFrame
  rw [paintRows_replay]
  cases target <;> exact ⟨_, rfl⟩

theorem compose_replay (cm : ColorMapObject) (tr : Int) (bits : List GifByteType)
    (d : GifImageDesc) (sw sh tw th : Nat) (comp0 : List uint8) (target0 : Option (List uint8)) :
    ∃ target,
      (if d.Interlace then
        interlacePasses (some cm) tr (some bits) d sw sh tw th [0, 1, 2, 3] comp0 target0
      else
        lambdaComputeFrame (some cm) tr (some bits) d sw sh tw th 0 1 comp0 target0) =
        some (replayScratch (composeAccesses cm tr bits d sw sh) comp0, target) := by
  unfold composeAccesses
  cases d.Interlace with
  | false => exact lambdaComputeFrame_replay cm tr bits d sw sh tw th 0 1 comp0 target0
  | true =>
    obtain ⟨t1, h1⟩ := lambdaComputeFrame_replay cm tr bits d sw sh tw th 0 8 comp0 target0
    obtain ⟨t2, h2⟩ := lambdaComputeFrame_replay cm tr bits d sw sh tw th 4 8 
      (replayScratch (paintRowsAccesses cm tr bits d sw sh 8 d.Height 0 (0 * d.Width)) comp0) t1
    obtain ⟨t3, h3⟩ := lambdaComputeFrame_replay cm tr bits d sw sh tw th 2 4
      (replayScratch (paintRowsAccesses cm tr bits d sw sh 8 d.Height 4 (4 * d.Width))
        (replayScratch (paintRowsAccesses cm tr bits d sw sh 8 d.Height 0 (0 * d.Width)) comp0)) t2
    obtain ⟨t4, h4⟩ := lambdaComputeFrame_replay cm tr bits d sw sh tw th 1 2
      (replayScratch (paintRowsAccesses cm tr bits d sw sh 4 d.Height 2 (2 * d.Width))
        (replayScratch (paintRowsAccesses cm tr bits d sw sh 8 d.Height 4 (4 * d.Width))
          (replayScratch (paintRowsAccesses cm tr bits d sw sh 8 d.Height 0 (0 * d.Width))
            comp0))) t3
    refine ⟨t4, ?_⟩
    simp only [if_true, interlacePasses, k_rowOffsets, k_rowIncrements, List.getD_cons_zero,
      List.getD_cons_succ, h1, h2, h3, h4, List.flatMap_cons, List.flatMap_nil,
      replayScratch_append, List.append_nil]

end CGIFHelper

theorem take_drop_set (src dst : List uint8) (n : Nat) (hs : n < src.length)
    (hd : n < dst.length) :
    (src.take n ++ dst.drop n).set n (src.getD n 0) = src.take (n + 1) ++ dst.drop (n + 1) := by
  have hlen : (src.take n).length = n := by rw [List.length_take]; omega
  rw [List.set_append_right _ _ (by omega), hlen, Nat.sub_self, List.drop_eq_getElem_cons hd,
    List.set_cons_zero, List.take_succ, List.getElem?_eq_getElem hs, List.getD_eq_getElem _ _ hs,
    Option.toList, List.append_assoc]
  rfl

theorem replayScratch_memcpy (src dst : List uint8) (n : Nat) (hs : n ≤ src.length)
    (hd : n ≤ dst.length) :
    replayScratch (memcpyAccesses .scratchWrite src n) dst = Q_memcpy dst src n := by
  unfold memcpyAccesses Q_memcpy
  induction n with
  | zero => simp [replayScratch]
  | succ n ih =>
    rw [List.range_succ, List.map_append, replayScratch_append, ih (by omega) (by omega)]
    simp only [List.map_cons, List.map_nil, replayScratch]
    exact take_drop_set src dst n (by omega) (by omega)

theorem replayCanvas_memcpy (src dst : List uint8) (n : Nat) (hs : n ≤ src.length)
    (hd : n ≤ dst.length) :
    replayCanvas (memcpyAccesses .canvasWrite src n) dst = Q_memcpy dst src n := by
  unfold memcpyAccesses Q_memcpy
  induction n with
  | zero => simp [replayCanvas]
  | succ n ih =>
    rw [List.range_succ, List.map_append, replayCanvas_append, ih (by omega) (by omega)]
    simp only [List.map_cons, List.map_nil, replayCanvas]
    exact take_drop_set src dst n (by omega) (by omega)

theorem replayCanvas_of_noCanvasWrite (l : List Access) (h : NoCanvasWrite l) (buf : List uint8) :
    replayCanvas l buf = buf := by
  induction l with
  | nil => rfl
  | cons a l ih =>
    have hl : NoCanvasWrite l := fun b hb => h b (List.mem_cons_of_mem _ hb)
    cases a with
    | canvasWrite o v => exact absurd rfl (h _ (List.mem_cons_self _ _) o v)
    | rasterRead i => simp only [replayCanvas]; exact ih hl
    | colorRead i c => simp only [replayCanvas]; exact ih hl
    | scratchWrite o v => simp only [replayCanvas]; exact ih hl

theorem replayScratch_of_noScratchWrite (l : List Access) (h : NoScratchWrite l)
    (buf : List uint8) : replayScratch l buf = buf := by
  induction l with
  | nil => rfl
  | cons a l ih =>
    have hl : NoScratchWrite l := fun b hb => h b (List.mem_cons_of_mem _ hb)
    cases a with
    | scratchWrite o v => exact absurd rfl (h _ (List.mem_cons_self _ _) o v)
    | rasterRead i => simp only [replayScratch]; exact ih hl
    | colorRead i c => simp only [replayScratch]; exact ih hl
    | canvasWrite o v => simp only [replayScratch]; exact ih hl

namespace CGIFHelper

theorem fillBackground_replay (prev : List uint8) (d : GifImageDesc) (sw : Nat) (fh fw : Int)
    (c : Nat) :
    fillBackground prev d sw fh fw c = replayCanvas (fillAccesses d sw fh fw c) prev := by
  unfold fillBackground fillAccesses
  rw [replayCanvas_flatMap]
  congr 1
  funext buf y
  simp only
  rw [replayCanvas_flatMap]
  congr 1

end CGIFHelper

theorem memcpyAccesses_mem (mk : Nat → uint8 → Access) (src : List uint8) (n : Nat) (a : Access)
    (h : a ∈ memcpyAccesses mk src n) : ∃ i, i < n ∧ a = mk i (src.getD i 0) := by
  unfold memcpyAccesses at h
  obtain ⟨i, hi, rfl⟩ := List.mem_map.1 h
  exact ⟨i, List.mem_range.1 hi, rfl⟩

namespace CGIFHelper

theorem paintRowAccesses_inRange (cm : ColorMapObject) (tr : Int) (bits : List GifByteType)
    (Left sw size base : Nat) (hbase : base + 4 * sw ≤ size) :
    ∀ (n x iPixel pubDest : Nat), pubDest = base + 4 * (x + Left) →
      ∀ a ∈ (paintRowAccesses cm tr bits Left sw n x iPixel pubDest).2,
        a.InRange size ∧ ∀ o v, a ≠ .canvasWrite o v := by
  intro n
  induction n with
  | zero => intro x iPixel pubDest _ a ha; cases ha
  | succ n ih =>
    intro x iPixel pubDest hdest a ha
    unfold paintRowAccesses at ha
    by_cases hclip : x + Left ≥ sw
    · simp only [if_pos hclip] at ha
      exact ih (x + 1) (iPixel + 1) (pubDest + cBytesPerPixel)
        (by simp only [cBytesPerPixel]; omega) a ha
    · simp only [if_neg hclip] at ha
      rcases List.mem_append.1 ha with hhere | hrest
      · by_cases hop : (bits.getD iPixel 0).val < cm.ColorCount ∧
            ((bits.getD iPixel 0).val : Int) ≠ tr
        · simp only [if_pos hop, List.mem_cons, List.mem_singleton, List.not_mem_nil,
            or_false] at hhere
          rcases hhere with rfl | rfl | rfl | rfl | rfl | rfl
          · exact ⟨trivial, fun _ _ h => by cases h⟩
          · exact ⟨hop.1, fun _ _ h => by cases h⟩
          · exact ⟨by show pubDest < size; omega, fun _ _ h => by cases h⟩
          · exact ⟨by show pubDest + 1 < size; omega, fun _ _ h => by cases h⟩
          · exact ⟨by show pubDest + 2 < size; omega, fun _ _ h => by cases h⟩
          · exact ⟨by show pubDest + 3 < size; omega, fun _ _ h => by cases h⟩
        · simp only [if_neg hop, List.mem_singleton] at hhere
          subst hhere
          exact ⟨trivial, fun _ _ h => by cases h⟩
      · exact ih (x + 1) (iPixel + 1) (pubDest + cBytesPerPixel)
          (by simp only [cBytesPerPixel]; omega) a hrest

theorem paintRowsAccesses_inRange (cm : ColorMapObject) (tr : Int) (bits : List GifByteType)
    (d : GifImageDesc) (sw sh inc : Nat) :
    ∀ (fuel y iPixel : Nat), ∀ a ∈ paintRowsAccesses cm tr bits d sw sh inc fuel y iPixel,
      a.InRange (sw * sh * 4) ∧ ∀ o v, a ≠ .canvasWrite o v := by
  intro fuel
  induction fuel with
  | zero => intro y iPixel a ha; cases ha
  | succ fuel ih =>
    intro y iPixel a ha
    unfold paintRowsAccesses at ha
    by_cases hy : y < d.Height
    · simp only [if_pos hy] at ha
      by_cases hclip : y + d.Top ≥ sh
      · simp only [if_pos hclip] at ha
        exact ih _ _ a ha
      · simp only [if_neg hclip] at ha
        rcases List.mem_append.1 ha with hrow | hrest
        · have hle : (y + d.Top) * (sw * 4) + 4 * sw ≤ sw * sh * 4 := by
            have := Nat.mul_le_mul_right (sw * 4) (show y + d.Top + 1 ≤ sh by omega)
            have e1 : (y + d.Top + 1) * (sw * 4) = (y + d.Top) * (sw * 4) + 4 * sw := by ring
            have e2 : sh * (sw * 4) = sw * sh * 4 := by ring
            omega
          exact paintRowAccesses_inRange cm tr bits d.Left sw (sw * sh * 4)
            ((y + d.Top) * (sw * 4)) hle d.Width 0 iPixel _
            (by simp only [cBytesPerPixel]; omega) a hrow
        · exact ih _ _ a hrest
    · simp only [if_neg hy] at ha
      cases ha

theorem composeAccesses_inRange (cm : ColorMapObject) (tr : Int) (bits : List GifByteType)
    (d : GifImageDesc) (sw sh : Nat) :
    ∀ a ∈ composeAccesses cm tr bits d sw sh,
      a.InRange (sw * sh * 4) ∧ ∀ o v, a ≠ .canvasWrite o v := by
  intro a ha
  unfold composeAccesses at ha
  split_ifs at ha
  · obtain ⟨nPass, _, h⟩ := List.mem_flatMap.1 ha
    exact paintRowsAccesses_inRange cm tr bits d sw sh _ _ _ _ a h
  · exact paintRowsAccesses_inRange cm tr bits d sw sh _ _ _ _ a ha

theorem fillAccesses_inRange (d : GifImageDesc) (sw sh : Nat) (fh fw : Int) (c : Nat)
    (hfh : fh ≤ (sh : Int) - d.Top) (hfw : fw ≤ (sw : Int) - d.Left) :
    ∀ a ∈ fillAccesses d sw fh fw c,
      a.InRange (sw * sh * 4) ∧ ∀ o v, a ≠ .scratchWrite o v := by
  intro a ha
  unfold fillAccesses at ha
  obtain ⟨y, hy, ha⟩ := List.mem_flatMap.1 ha
  obtain ⟨x, hx, ha⟩ := List.mem_flatMap.1 ha
  have hy' := List.mem_range.1 hy
  have hx' := List.mem_range.1 hx
  have hsy : y + d.Top < sh := by omega
  have hsx : d.Left + x < sw := by omega
  have hlt : ∀ k, k < 4 → (y + d.Top) * (sw * cBytesPerPixel) + d.Left * cBytesPerPixel + 4 * x + k <
      sw * sh * 4 := by
    intro k hk
    have h := pixOff_lt hsy hsx hk
    unfold pixOff at h
    have e : (y + d.Top) * (sw * cBytesPerPixel) = ((y + d.Top) * sw) * 4 := by
      simp only [cBytesPerPixel]; ring
    simp only [cBytesPerPixel] at e ⊢
    omega
  simp only [List.mem_cons, List.mem_singleton, List.not_mem_nil, or_false] at ha
  rcases ha with rfl | rfl | rfl | rfl
  · exact ⟨hlt 0 (by omega), fun _ _ h => by cases h⟩
  · exact ⟨hlt 1 (by omega), fun _ _ h => by cases h⟩
  · exact ⟨hlt 2 (by omega), fun _ _ h => by cases h⟩
  · exact ⟨hlt 3 (by omega), fun _ _ h => by cases h⟩

theorem disposalAccesses_inRange (img : GifFileType) (d : GifImageDesc) (disp : Int)
    (comp : List uint8) :
    ∀ a ∈ disposalAccesses img d disp comp,
      a.InRange (img.SWidth * img.SHeight * 4) ∧ ∀ o v, a ≠ .scratchWrite o v := by
  intro a ha
  unfold disposalAccesses at ha
  by_cases hbg : disp = DISPOSE_BACKGROUND
  · simp only [if_pos hbg] at ha
    cases hmap : img.SColorMap with
    | none => rw [hmap] at ha; cases ha
    | some m =>
      rw [hmap] at ha
      simp only at ha
      by_cases hidx : img.SBackGroundColor < m.ColorCount
      · rw [if_pos hidx] at ha
        rcases List.mem_cons.1 ha with rfl | hfill
        · exact ⟨hidx, fun _ _ h => by cases h⟩
        · exact fillAccesses_inRange d img.SWidth img.SHeight _ _ _ (min_le_right _ _)
            (min_le_right _ _) a hfill
      · rw [if_neg hidx] at ha
        cases ha
  · simp only [if_neg hbg] at ha
    by_cases hprev : disp = DISPOSE_PREVIOUS
    · simp only [if_pos hprev] at ha
      cases ha
    · simp only [if_neg hprev] at ha
      obtain ⟨i, hi, rfl⟩ := memcpyAccesses_mem _ _ _ _ ha
      refine ⟨?_, fun _ _ h => by cases h⟩
      show i < img.SWidth * img.SHeight * 4
      have e : img.SWidth * cBytesPerPixel * img.SHeight = img.SWidth * img.SHeight * 4 := by
        simp only [cBytesPerPixel]; ring
      omega

theorem applyDisposal_replay (img : GifFileType) (d : GifImageDesc) (disp : Int)
    (prev comp prev1 : List uint8) (hp : prev.length = img.SWidth * img.SHeight * 4)
    (hc : comp.length = img.SWidth * img.SHeight * 4)
    (h : applyDisposal img d disp prev comp = some prev1) :
    prev1 = replayCanvas (disposalAccesses img d disp comp) prev := by
  unfold applyDisposal at h
  unfold disposalAccesses
  by_cases hbg : disp = DISPOSE_BACKGROUND
  · simp only [if_pos hbg] at h ⊢
    cases hmap : img.SColorMap with
    | none => rw [hmap] at h; cases h
    | some m =>
      rw [hmap] at h
      simp only at h ⊢
      by_cases hidx : img.SBackGroundColor < m.ColorCount
      · rw [if_pos hidx] at h ⊢
        injection h with h
        rw [← h, fillBackground_replay]
        rfl
      · rw [if_neg hidx] at h ⊢
        injection h with h
        exact h.symm
  · simp only [if_neg hbg] at h ⊢
    by_cases hprev : disp = DISPOSE_PREVIOUS
    · simp only [if_pos hprev] at h ⊢
      injection h with h
      exact h.symm
    · simp only [if_neg hprev] at h ⊢
      injection h with h
      have e : img.SWidth * cBytesPerPixel * img.SHeight = img.SWidth * img.SHeight * 4 := by
        simp only [cBytesPerPixel]; ring
      rw [← h, replayCanvas_memcpy comp prev _ (by omega) (by omega)]

theorem composeAccesses_isComposition (cm : ColorMapObject) (tr : Int) (bits : List GifByteType)
    (d : GifImageDesc) (sw sh : Nat) (comp0 : List uint8) :
    IsComposition cm tr bits d sw sh comp0
      (replayScratch (composeAccesses cm tr bits d sw sh) comp0) := by
  obtain ⟨comp, target, hcomp, hrun, _⟩ := compose_spec cm tr bits d sw sh sw sh comp0
  obtain ⟨t, hrep⟩ := compose_replay cm tr bits d sw sh sw sh comp0
    (if sw = sw ∧ sh = sh then none else some (List.replicate (sw * cBytesPerPixel * sh) 0))
  rw [hrun] at hrep
  injection hrep with hrep
  injection hrep with h1 _
  rw [← h1]
  exact hcomp

theorem FrameDataAccesses_scratch (cm : ColorMapObject) (tr : Int) (bits : List GifByteType)
    (img : GifFileType) (d : GifImageDesc) (disp : Int) (prev : List uint8)
    (hp : prev.length = img.SWidth * img.SHeight * 4) :
    replayScratch (FrameDataAccesses cm tr bits img d disp prev)
        (stackalloc (img.SWidth * cBytesPerPixel * img.SHeight)) =
      replayScratch (composeAccesses cm tr bits d img.SWidth img.SHeight) prev ∧
    replayCanvas (FrameDataAccesses cm tr bits img d disp prev) prev =
      replayCanvas (disposalAccesses img d disp
        (replayScratch (composeAccesses cm tr bits d img.SWidth img.SHeight) prev)) prev := by
  have e : img.SWidth * cBytesPerPixel * img.SHeight = img.SWidth * img.SHeight * 4 := by
    simp only [cBytesPerPixel]; ring
  have hcopy : replayScratch (memcpyAccesses .scratchWrite prev
      (img.SWidth * cBytesPerPixel * img.SHeight))
      (stackalloc (img.SWidth * cBytesPerPixel * img.SHeight)) = prev := by
    rw [replayScratch_memcpy _ _ _ (by omega) (by unfold stackalloc; simp)]
    exact Q_memcpy_stackalloc prev _ (by omega)
  have hcomposing : replayScratch (memcpyAccesses .scratchWrite prev
      (img.SWidth * cBytesPerPixel * img.SHeight) ++
        composeAccesses cm tr bits d img.SWidth img.SHeight)
      (stackalloc (img.SWidth * cBytesPerPixel * img.SHeight)) =
      replayScratch (composeAccesses cm tr bits d img.SWidth img.SHeight) prev := by
    rw [replayScratch_append, hcopy]
  unfold FrameDataAccesses
  simp only [hcomposing]
  constructor
  · rw [replayScratch_append, hcomposing]
    exact replayScratch_of_noScratchWrite _
      (fun a ha => (disposalAccesses_inRange img d disp _ a ha).2) _
  · rw [replayCanvas_append, replayCanvas_append]
    rw [replayCanvas_of_noCanvasWrite (memcpyAccesses .scratchWrite prev _) (fun a ha o v => by
      obtain ⟨i, _, rfl⟩ := memcpyAccesses_mem _ _ _ _ ha
      intro h; cases h)]
    rw [replayCanvas_of_noCanvasWrite (composeAccesses cm tr bits d img.SWidth img.SHeight)
      (fun a ha => (composeAccesses_inRange cm tr bits d img.SWidth img.SHeight a ha).2)]

/-- Every access listed by `FrameDataAccesses`, whose offsets are the exact products, is in
range of a block of `SWidth * SHeight * 4` bytes.  These are the offsets the code computes, and
the blocks have that size, on a screen of fewer than `2^31` bytes (`ScreenFitsInt`). -/
theorem FrameDataAccesses_inRange (cm : ColorMapObject) (tr : Int) (bits : List GifByteType)
    (img : GifFileType) (d : GifImageDesc) (disp : Int) (prev : List uint8) :
    ∀ a ∈ FrameDataAccesses cm tr bits img d disp prev,
      a.InRange (img.SWidth * img.SHeight * 4) := by
  intro a ha
  unfold FrameDataAccesses at ha
  simp only [List.mem_append] at ha
  rcases ha with (hcopy | hcomp) | hdisp
  · obtain ⟨i, hi, rfl⟩ := memcpyAccesses_mem _ _ _ _ hcopy
    show i < img.SWidth * img.SHeight * 4
    have e : img.SWidth * cBytesPerPixel * img.SHeight = img.SWidth * img.SHeight * 4 := by
      simp only [cBytesPerPixel]; ring
    omega
  · exact (composeAccesses_inRange cm tr bits d img.SWidth img.SHeight a hcomp).1
  · exact (disposalAccesses_inRange img d disp _ a hdisp).1

/-- Where the RGBA size `SWidth * SHeight * 4` of the screen fits the `int` the code computes
it in (below `2^31`, so that the blocks have that size and the row offsets are the exact
products), `FrameData` does not index out of range.  For every frame (its `Left` and `Top` are
non-negative, its rectangle may overhang the screen) and every raster content, each access the
call makes stays inside its array: every colour-table read, of the active table while painting
and of the global table in the `DISPOSE_BACKGROUND` case, is at an index below that table's
`ColorCount`, and every byte stored to the composition buffer or to the persistent canvas, the
background fill and the two `Q_memcpy` included, is at an offset below `SWidth * SHeight * 4`.
The accesses listed are the ones the call makes: replaying their stores gives the canvas the call
leaves and the composition buffer its output is converted from. -/
theorem FrameData_accesses_in_range (eng : ImageLoader) (s : CGIFHelper) (img : GifFileType)
    (frame : SavedImage) (bits : List GifByteType) (cm : ColorMapObject) (prev : List uint8)
    (fmt : ImageFormat) (hr : Renderable s img frame bits cm prev)
    (hfmt : (FrameSize eng s fmt).1 ≠ -1)
    (hfit : img.SWidth * img.SHeight * 4 < 2 ^ 31) :
    ScreenFitsInt img.SWidth img.SHeight ∧
    (∀ a ∈ FrameDataAccesses cm (frameControl img s.m_iSelectedFrame).1 bits img frame.ImageDesc
        (frameControl img s.m_iSelectedFrame).2 prev,
      a.InRange (img.SWidth * img.SHeight * 4)) ∧
    ∀ out s' out', FrameData eng s fmt (.caller out) = some (s', out') →
      s' = { s with m_pubPrevFrameBuffer := some (replayCanvas
        (FrameDataAccesses cm (frameControl img s.m_iSelectedFrame).1 bits img frame.ImageDesc
          (frameControl img s.m_iSelectedFrame).2 prev) prev) } ∧
      out' = .caller (writeBytes out (eng.ConvertImageFormat
        (targetBuffer (replayScratch
          (FrameDataAccesses cm (frameControl img s.m_iSelectedFrame).1 bits img frame.ImageDesc
            (frameControl img s.m_iSelectedFrame).2 prev)
          (stackalloc (img.SWidth * cBytesPerPixel * img.SHeight)))
          img.SWidth img.SHeight (FrameSize eng s fmt).2.1 (FrameSize eng s fmt).2.2) fmt
        (FrameSize eng s fmt).2.1 (FrameSize eng s fmt).2.2)) := by
  refine ⟨screenFitsInt_of_lt hfit, FrameDataAccesses_inRange _ _ _ _ _ _ _, ?_⟩
  intro out s' out' hrun
  obtain ⟨comp, hcomp, hfd, _⟩ := FrameData_eq eng s fmt img frame bits cm prev hr hfmt
  have hcomp' : comp = replayScratch (composeAccesses cm (frameControl img s.m_iSelectedFrame).1
      bits frame.ImageDesc img.SWidth img.SHeight) prev :=
    hcomp.unique (composeAccesses_isComposition _ _ _ _ _ _ _)
  obtain ⟨hscratch, hcanvas⟩ := FrameDataAccesses_scratch cm (frameControl img s.m_iSelectedFrame).1
    bits img frame.ImageDesc (frameControl img s.m_iSelectedFrame).2 prev hr.canvasSize
  rw [hscratch, hcanvas, ← hcomp']
  rw [hfd out] at hrun
  cases happ : applyDisposal img frame.ImageDesc (frameControl img s.m_iSelectedFrame).2 prev
      comp with
  | none => rw [happ] at hrun; cases hrun
  | some prev1 =>
    rw [happ, Option.map_some'] at hrun
    have hprev1 := applyDisposal_replay img frame.ImageDesc _ prev comp prev1 hr.canvasSize
      (by rw [hcomp.length, hr.canvasSize]) happ
    injection hrun with hrun
    injection hrun with h1 h2
    rw [← h1, ← h2, hprev1]
    exact ⟨rfl, rfl⟩

theorem exBigRenderable :
    Renderable (exState [exBigFrame] 0) (exImage [exBigFrame]) exBigFrame
      [1, 5, 1, 0, 1, 1, 1, 1, 1] exColors exCanvas :=
  ⟨rfl, ⟨_, _, rfl, rfl⟩, rfl, rfl, rfl, rfl, rfl, rfl⟩

set_option maxRecDepth 10000 in
theorem FrameData_accesses_in_range_witness :
    Renderable (exState [exBigFrame] 0) (exImage [exBigFrame]) exBigFrame
      [1, 5, 1, 0, 1, 1, 1, 1, 1] exColors exCanvas ∧
    (FrameSize exEngine (exState [exBigFrame] 0) .IMAGE_FORMAT_RGBA8888).1 ≠ -1 ∧
    composeAccesses exColors 0 [1, 5, 1, 0, 1, 1, 1, 1, 1] exBigFrame.ImageDesc 2 2 =
      [.rasterRead 0, .colorRead 1 2, .scratchWrite 0 40, .scratchWrite 1 50, .scratchWrite 2 60,
        .scratchWrite 3 255, .rasterRead 1, .rasterRead 3, .rasterRead 4, .colorRead 1 2,
        .scratchWrite 12 40, .scratchWrite 13 50, .scratchWrite 14 60, .scratchWrite 15 255] ∧
    (FrameDataAccesses exColors 0 [1, 5, 1, 0, 1, 1, 1, 1, 1] (exImage [exBigFrame])
      exBigFrame.ImageDesc 2 exCanvas).length = 47 ∧
    (FrameData exEngine (exState [exBigFrame] 0) .IMAGE_FORMAT_RGBA8888 (.caller exOut)).map
        (fun r => (r.1.m_pubPrevFrameBuffer, r.2)) =
      some (some [40, 50, 60, 255, 40, 50, 60, 255, 40, 50, 60, 255, 40, 50, 60, 255],
        .caller [40, 50, 60, 255, 7, 7, 7, 7, 7, 7, 7, 7, 40, 50, 60, 255]) ∧
    (exImage [exBigFrame]).SWidth * (exImage [exBigFrame]).SHeight * 4 < 2 ^ 31 ∧
    ∀ a ∈ FrameDataAccesses exColors
        (frameControl (exImage [exBigFrame]) (exState [exBigFrame] 0).m_iSelectedFrame).1
        [1, 5, 1, 0, 1, 1, 1, 1, 1] (exImage [exBigFrame]) exBigFrame.ImageDesc
        (frameControl (exImage [exBigFrame]) (exState [exBigFrame] 0).m_iSelectedFrame).2 exCanvas,
      a.InRange ((exImage [exBigFrame]).SWidth * (exImage [exBigFrame]).SHeight * 4) :=
  ⟨exBigRenderable, by decide, by decide, by decide, by decide, by decide,
    (FrameData_accesses_in_range exEngine (exState [exBigFrame] 0) (exImage [exBigFrame])
      exBigFrame [1, 5, 1, 0, 1, 1, 1, 1, 1] exColors exCanvas .IMAGE_FORMAT_RGBA8888
      exBigRenderable (by decide) (by decide)).2.1⟩

/-- C20 fails on the code for a screen of `2^31` bytes or more.  On the 65535x16385 screen the
size `SWidth * SHeight * 4 = 4295163900` does not fit an `int`: the 32-bit products give 196604,
the length of the canvas `OpenImage` allocates and of the composition block of `FrameData`.  The
1x1 frame at `Top = 8193` lies on the screen and its pixel (index 1, inside the colour table, no
transparent index) is painted: the four stores of the painting loop are at row offset
`8193 * 262140 = 2147713020`, which the `int` product `nScreenY * nScreenStride` of the code
reduces to -2147254276, a negative offset, outside `[0, SWidth * SHeight * 4)` and outside the
block.  Already the second screen row, at offset 262140, lies outside the 196604 bytes. -/
theorem FrameData_store_outside_block :
    exHugeImage.SWidth * exHugeImage.SHeight * 4 = 4295163900 ∧
    cubFrameSize32 exHugeImage.SWidth exHugeImage.SHeight 4 = 196604 ∧
    cubSize32 exHugeImage.SWidth exHugeImage.SHeight = 196604 ∧
    frameControl exHugeImage 0 = (NO_TRANSPARENT_COLOR, DISPOSAL_UNSPECIFIED) ∧
    0 + exHugeFrame.ImageDesc.Top < exHugeImage.SHeight ∧
    composeAccesses exColors NO_TRANSPARENT_COLOR [1] exHugeFrame.ImageDesc exHugeImage.SWidth
        exHugeImage.SHeight =
      [.rasterRead 0, .colorRead 1 2, .scratchWrite 2147713020 40, .scratchWrite 2147713021 50,
        .scratchWrite 2147713022 60, .scratchWrite 2147713023 255] ∧
    nRowOffset32 (0 + exHugeFrame.ImageDesc.Top) exHugeImage.SWidth = -2147254276 ∧
    ¬(0 ≤ nRowOffset32 (0 + exHugeFrame.ImageDesc.Top) exHugeImage.SWidth) ∧
    ¬((2147713020 : Int) < cubSize32 exHugeImage.SWidth exHugeImage.SHeight) ∧
    nRowOffset32 1 exHugeImage.SWidth = 262140 ∧
    ¬(nRowOffset32 1 exHugeImage.SWidth < cubSize32 exHugeImage.SWidth exHugeImage.SHeight) := by
  decide

end CGIFHelper

/-! ## Life cycle of an instance: claims C21, C22, C23, C24, C25 -/

namespace CGIFHelper

theorem FrameData_frame (eng : ImageLoader) (s s' : CGIFHelper) (fmt : ImageFormat)
    (out out' : OutBuffer) (h : FrameData eng s fmt out = some (s', out')) :
    s'.m_pImage = s.m_pImage ∧ s'.m_iSelectedFrame = s.m_iSelectedFrame ∧
    s'.m_dIterateTime = s.m_dIterateTime ∧
    (∀ img, s.m_pImage = some img → img.SavedImages ≠ []) := by
  unfold FrameData at h
  split at h
  · injection h with h
    injection h with h1 h2
    subst h1
    refine ⟨rfl, rfl, rfl, ?_⟩
    intro img himg
    simp_all
  · rename_i img himg
    split at h
    · cases h
    · rename_i first hfirst
      have hne : ∀ img', s.m_pImage = some img' → img'.SavedImages ≠ [] := by
        intro img' h'
        rw [himg] at h'
        injection h' with h'
        subst h'
        intro hnil
        rw [hnil] at hfirst
        cases hfirst
      split at h
      · injection h with h
        injection h with h1 h2
        subst h1
        exact ⟨rfl, rfl, rfl, hne⟩
      · simp only at h
        split at h
        · injection h with h
          injection h with h1 h2
          subst h1
          exact ⟨rfl, rfl, rfl, hne⟩
        · split at h
          · split at h
            · cases h
            · split at h
              · cases h
              · split at h
                · injection h with h
                  injection h with h1 h2
                  subst h1
                  exact ⟨rfl, rfl, rfl, hne⟩
                · injection h with h
                  injection h with h1 h2
                  subst h1
                  exact ⟨rfl, rfl, rfl, hne⟩
          · cases h

theorem CloseImage_false_eq (s : CGIFHelper) (h : s.m_pImage = none → s = CGIFHelper.new) :
    s.CloseImage false = CGIFHelper.new := by
  unfold CloseImage
  cases hs : s.m_pImage with
  | none => exact h hs
  | some img => rfl

theorem CloseImage_true_frame (s : CGIFHelper) :
    (s.CloseImage true).m_iSelectedFrame = s.m_iSelectedFrame ∧
    (s.CloseImage true).m_dIterateTime = s.m_dIterateTime ∧
    (s.CloseImage true).GetFrameCount = s.GetFrameCount ∧
    ((s.CloseImage true).m_pImage = none ↔ s.m_pImage = none) := by
  unfold CloseImage GetFrameCount
  cases hs : s.m_pImage with
  | none => simp [hs]
  | some img => simp [GifFileType.ImageCount]

theorem FrameData_closed (eng : ImageLoader) (s : CGIFHelper) (fmt : ImageFormat)
    (out : OutBuffer) (h : s.m_pImage = none) : FrameData eng s fmt out = some (s, out) := by
  unfold FrameData
  rw [h]

theorem NextFrame_closed (s : CGIFHelper) (now : ℚ) (h : s.m_pImage = none) :
    NextFrame s now = (false, s) := by
  unfold NextFrame
  rw [h]

theorem Reachable.inv {eng : ImageLoader} {s : CGIFHelper} (h : Reachable eng s) :
    (∀ img, s.m_pImage = some img → s.m_iSelectedFrame < img.ImageCount) ∧
    (s.m_pImage = none → s = CGIFHelper.new) := by
  induction h with
  | fresh => exact ⟨fun _ h => (by cases h), fun _ => rfl⟩
  | openImage s gif heap r s' _ hopen ih =>
    have h0 : (if s.m_pImage.isSome then s.CloseImage false else s) = CGIFHelper.new := by
      cases hs : s.m_pImage with
      | none => simpa [hs] using ih.2 hs
      | some img => simpa [hs] using CloseImage_false_eq s ih.2
    unfold OpenImage at hopen
    simp only [h0] at hopen
    cases gif with
    | openFailed =>
      simp only [Option.some.injEq, Prod.mk.injEq] at hopen
      rw [← hopen.2]
      exact ⟨fun _ h => (by cases h), fun _ => rfl⟩
    | slurpFailed img =>
      simp only [Option.some.injEq, Prod.mk.injEq] at hopen
      rw [← hopen.2]
      exact ⟨fun _ h => (by cases h), fun _ => rfl⟩
    | ok img =>
      simp only at hopen
      split at hopen
      · cases hopen
      · rename_i s3 o3 hfd
        simp only [Option.some.injEq, Prod.mk.injEq] at hopen
        rw [← hopen.2]
        obtain ⟨h1, h2, _, h4⟩ := FrameData_frame _ _ _ _ _ _ hfd
        refine ⟨fun img' himg' => ?_, fun hnone => ?_⟩
        · rw [h1] at himg'
          rw [h2]
          have hne := h4 img' himg'
          show 0 < img'.SavedImages.length
          exact List.length_pos.2 hne
        · rw [h1] at hnone
          cases hnone
  | nextFrame s now _ ih =>
    refine ⟨fun img himg => ?_, fun hnone => ?_⟩
    · rw [NextFrame_image] at himg
      rw [(NextFrame_selected s img now himg).1]
      have := ih.1 img himg
      split_ifs <;> omega
    · rw [NextFrame_image] at hnone
      rw [NextFrame_closed s now hnone]
      exact ih.2 hnone
  | frameData s fmt bytes s' out' _ hfd ih =>
    obtain ⟨h1, h2, _, _⟩ := FrameData_frame _ _ _ _ _ _ hfd
    refine ⟨fun img himg => ?_, fun hnone => ?_⟩
    · rw [h1] at himg
      rw [h2]
      exact ih.1 img himg
    · rw [h1] at hnone
      rw [FrameData_closed eng s fmt _ hnone] at hfd
      simp only [Option.some.injEq, Prod.mk.injEq] at hfd
      rw [← hfd.1]
      exact ih.2 hnone
  | closeImage s b _ ih =>
    cases b with
    | false =>
      rw [CloseImage_false_eq s ih.2]
      exact ⟨fun _ h => (by cases h), fun _ => rfl⟩
    | true =>
      refine ⟨fun img himg => ?_, fun hnone => ?_⟩
      · rw [(CloseImage_true_frame s).1]
        unfold CloseImage at himg
        cases hs : s.m_pImage with
        | none =>
          rw [hs] at himg
          simp only at himg
          rw [hs] at himg
          cases himg
        | some img0 =>
          rw [hs] at himg
          simp only [Bool.not_true, Bool.false_eq_true, if_false, Option.some.injEq] at himg
          rw [← himg]
          have := ih.1 img0 hs
          simpa [GifFileType.ImageCount] using this
      · have hs := (CloseImage_true_frame s).2.2.2.1 hnone
        have : s.CloseImage true = s := by
          unfold CloseImage
          rw [hs]
        rw [this]
        exact ih.2 hs

theorem exOpened_eq :
    OpenImage exEngine CGIFHelper.new (.ok (exImage [exFrame 1, exFullFrame])) (fun _ => 7) =
      some (true, exOpened) := by
  rfl

theorem exOpened_reachable : Reachable exEngine exOpened :=
  Reachable.openImage _ _ _ _ _ Reachable.fresh exOpened_eq

theorem NextFrame_CloseImage_true (s : CGIFHelper) (now : ℚ) :
    NextFrame (s.CloseImage true) now =
      ((NextFrame s now).1, (NextFrame s now).2.CloseImage true) := by
  unfold NextFrame CloseImage
  cases hs : s.m_pImage with
  | none => simp [hs]
  | some img =>
    simp only [Bool.not_true, Bool.false_eq_true, if_false, GifFileType.ImageCount,
      List.length_map, DGifSavedExtensionToGCB, List.get?_eq_getElem?, List.getElem?_map]
    cases hg : img.SavedImages[if s.m_iSelectedFrame + 1 ≥ img.SavedImages.length then 0
        else s.m_iSelectedFrame + 1]? with
    | none => simp [hs]
    | some frame =>
      cases hgcb : frame.gcb with
      | none => simp [hs, hgcb]
      | some gcb => simp [hs, hgcb]

theorem NextFrameCalls_CloseImage_true (clock : Nat → ℚ) (s : CGIFHelper) (k : Nat) :
    NextFrameCalls clock k (s.CloseImage true) =
      ((NextFrameCalls clock k s).1, (NextFrameCalls clock k s).2.CloseImage true) := by
  induction k with
  | zero => rfl
  | succ k ih =>
    rw [NextFrameCalls, NextFrameCalls, ih]
    exact NextFrame_CloseImage_true _ _

theorem FrameSize_CloseImage_true (eng : ImageLoader) (s : CGIFHelper) (fmt : ImageFormat) :
    FrameSize eng (s.CloseImage true) fmt = FrameSize eng s fmt := by
  unfold FrameSize CloseImage
  cases hs : s.m_pImage with
  | none => simp [hs]
  | some img => rfl

theorem FrameData_released (eng : ImageLoader) (s : CGIFHelper) (img : GifFileType)
    (fmt : ImageFormat) (out : OutBuffer) (himg : s.m_pImage = some img)
    (hne : img.SavedImages ≠ []) :
    FrameData eng (s.CloseImage true) fmt out = some (s.CloseImage true, out) := by
  obtain ⟨f, rest, hf⟩ := List.exists_cons_of_ne_nil hne
  unfold FrameData
  have h1 : (s.CloseImage true).m_pImage = some
      { img with
        Image := { img.Image with ColorMap := none }
        SColorMap := none
        SavedImages := img.SavedImages.map fun pFrame =>
          { pFrame with
            ImageDesc := { pFrame.ImageDesc with ColorMap := none }
            RasterBits := none } } := by
    unfold CloseImage
    rw [himg]
    rfl
  rw [h1]
  simp only [hf, List.map_cons, List.head?_cons, Option.isNone_none, if_true]

theorem FrameData_other (eng : ImageLoader) (s : CGIFHelper) (img : GifFileType) (c : Nat)
    (out : OutBuffer) (himg : s.m_pImage = some img) (hne : img.SavedImages ≠ []) :
    FrameData eng s (.other c) out = some (s, out) := by
  obtain ⟨f, rest, hf⟩ := List.exists_cons_of_ne_nil hne
  unfold FrameData
  have hfs : FrameSize eng s (.other c) = (-1, 0, 0) := by
    unfold FrameSize
    rw [himg]
  simp only [himg, hf, List.head?_cons, hfs, if_true, ite_self]

/-- C21. After `CloseImage()` (`bKeepMetadata = false`) from any state the instance can be in, the
instance is closed: no image is held, `GetFrameCount()` and `GetSelectedFrame()` return 0 and
`m_dIterateTime` is 0, so that `ShouldIterateFrame` is true at every clock value above 0.
`CloseImage`, with either flag, on an already closed instance changes nothing. -/
theorem CloseImage_closes (eng : ImageLoader) (s : CGIFHelper) (h : Reachable eng s) :
    (s.CloseImage false).m_pImage = none ∧
    (s.CloseImage false).GetFrameCount = 0 ∧
    (s.CloseImage false).GetSelectedFrame = 0 ∧
    (s.CloseImage false).m_dIterateTime = 0 ∧
    (∀ now : ℚ, 0 < now → (s.CloseImage false).ShouldIterateFrame now = true) ∧
    (s.m_pImage = none → ∀ b, s.CloseImage b = s) := by
  rw [CloseImage_false_eq s h.inv.2]
  refine ⟨rfl, rfl, rfl, rfl, fun now hnow => ?_, fun hs b => ?_⟩
  · unfold ShouldIterateFrame
    exact decide_eq_true hnow
  · unfold CloseImage
    rw [hs]

theorem CloseImage_closes_witness :
    ((NextFrame exOpened 3).2.CloseImage false).m_pImage = none ∧
    ((NextFrame exOpened 3).2.CloseImage false).GetFrameCount = 0 ∧
    ((NextFrame exOpened 3).2.CloseImage false).GetSelectedFrame = 0 ∧
    ((NextFrame exOpened 3).2.CloseImage false).m_dIterateTime = 0 ∧
    (∀ now : ℚ, 0 < now → ((NextFrame exOpened 3).2.CloseImage false).ShouldIterateFrame now = true) ∧
    ((NextFrame exOpened 3).2.m_pImage = none → ∀ b, (NextFrame exOpened 3).2.CloseImage b =
      (NextFrame exOpened 3).2) :=
  CloseImage_closes exEngine (NextFrame exOpened 3).2
    (Reachable.nextFrame _ 3 exOpened_reachable)

/-- C22. `CloseImage( true )` keeps the metadata queryable: `GetFrameCount` and `FrameSize`, for
every format, return what they returned before the call, the selected frame index and
`m_dIterateTime` are unchanged, and every later `NextFrame` (the `k`-th one, at any clock values)
returns the same flag and leaves the same selected index and `m_dIterateTime` as it would have
without the close. -/
theorem CloseImage_keeps_metadata (eng : ImageLoader) (s : CGIFHelper) (clock : Nat → ℚ)
    (k : Nat) :
    (s.CloseImage true).GetFrameCount = s.GetFrameCount ∧
    (∀ fmt, FrameSize eng (s.CloseImage true) fmt = FrameSize eng s fmt) ∧
    (s.CloseImage true).GetSelectedFrame = s.GetSelectedFrame ∧
    (s.CloseImage true).m_dIterateTime = s.m_dIterateTime ∧
    (NextFrameCalls clock k (s.CloseImage true)).1 = (NextFrameCalls clock k s).1 ∧
    (NextFrameCalls clock k (s.CloseImage true)).2.GetSelectedFrame =
      (NextFrameCalls clock k s).2.GetSelectedFrame ∧
    (NextFrameCalls clock k (s.CloseImage true)).2.m_dIterateTime =
      (NextFrameCalls clock k s).2.m_dIterateTime := by
  have hf := CloseImage_true_frame s
  rw [NextFrameCalls_CloseImage_true]
  have hk := CloseImage_true_frame (NextFrameCalls clock k s).2
  exact ⟨hf.2.2.1, fun fmt => FrameSize_CloseImage_true eng s fmt, hf.1, hf.2.1, rfl, hk.1, hk.2.1⟩

/-- C23. `FrameData` is a complete no-op on its failure conditions.  In every state the instance
can be in, when no image is open, when the state was left by `CloseImage( true )` (which released
the rasters), or when the requested format is unsupported, the call returns with the caller's
output buffer and the whole instance (persistent canvas, selected frame index, `m_dIterateTime`)
unchanged. -/
theorem FrameData_noop_on_failure (eng : ImageLoader) (s : CGIFHelper) (fmt : ImageFormat)
    (out : OutBuffer) (h : Reachable eng s)
    (hfail : s.m_pImage = none ∨ (∃ s0, Reachable eng s0 ∧ s = s0.CloseImage true) ∨
      (∃ c, fmt = .other c)) :
    FrameData eng s fmt out = some (s, out) := by
  cases hs : s.m_pImage with
  | none => exact FrameData_closed eng s fmt out hs
  | some img =>
    rcases hfail with hnone | ⟨s0, h0, rfl⟩ | ⟨c, rfl⟩
    · rw [hs] at hnone
      cases hnone
    · cases hs0 : s0.m_pImage with
      | none =>
        have := (CloseImage_true_frame s0).2.2.2.2 hs0
        rw [hs] at this
        cases this
      | some img0 =>
        have hlt := h0.inv.1 img0 hs0
        exact FrameData_released eng s0 img0 fmt out hs0 (fun hnil => by
          rw [GifFileType.ImageCount, hnil] at hlt
          exact Nat.not_lt_zero _ hlt)
    · have hlt := h.inv.1 img hs
      exact FrameData_other eng s img c out hs (fun hnil => by
        rw [GifFileType.ImageCount, hnil] at hlt
        exact Nat.not_lt_zero _ hlt)

theorem FrameData_noop_on_failure_witness :
    FrameData exEngine exOpened (.other 7) (.caller exOut) = some (exOpened, .caller exOut) ∧
    FrameData exEngine (exOpened.CloseImage true) .IMAGE_FORMAT_RGBA8888 (.caller exOut) =
      some (exOpened.CloseImage true, .caller exOut) ∧
    FrameData exEngine CGIFHelper.new .IMAGE_FORMAT_RGBA8888 (.caller exOut) =
      some (CGIFHelper.new, .caller exOut) :=
  ⟨FrameData_noop_on_failure exEngine exOpened (.other 7) (.caller exOut) exOpened_reachable
      (Or.inr (Or.inr ⟨7, rfl⟩)),
    FrameData_noop_on_failure exEngine (exOpened.CloseImage true) .IMAGE_FORMAT_RGBA8888
      (.caller exOut) (Reachable.closeImage _ true exOpened_reachable)
      (Or.inr (Or.inl ⟨exOpened, exOpened_reachable, rfl⟩)),
    FrameData_noop_on_failure exEngine CGIFHelper.new .IMAGE_FORMAT_RGBA8888 (.caller exOut)
      Reachable.fresh (Or.inl rfl)⟩

/-- C24. Whenever `OpenImage` returns false the instance ends in the closed state, whether or not
an image was open before the call: no image and no canvas are held, `GetFrameCount()` and
`GetSelectedFrame()` return 0, `m_dIterateTime` is 0 and `FrameSize` fails (returns -1) for every
format.  `OpenImage` returns false exactly when `DGifOpen` rejects the stream or `DGifSlurp`
fails, and it does return then. -/
theorem OpenImage_failure_closes (eng : ImageLoader) (s : CGIFHelper) (gif : GifParse)
    (heap : Nat → uint8) (h : Reachable eng s) :
    (∀ s', OpenImage eng s gif heap = some (false, s') →
      s'.m_pImage = none ∧ s'.m_pubPrevFrameBuffer = none ∧ s'.GetFrameCount = 0 ∧
      s'.GetSelectedFrame = 0 ∧ s'.m_dIterateTime = 0 ∧
      ∀ fmt, (FrameSize eng s' fmt).1 = -1) ∧
    ((∀ img, gif ≠ .ok img) → ∃ s', OpenImage eng s gif heap = some (false, s')) ∧
    (∀ img r s', gif = .ok img → OpenImage eng s gif heap = some (r, s') → r = true) := by
  have h0 : (if s.m_pImage.isSome then s.CloseImage false else s) = CGIFHelper.new := by
    cases hs : s.m_pImage with
    | none => simpa [hs] using h.inv.2 hs
    | some img => simpa [hs] using CloseImage_false_eq s h.inv.2
  have hclosed : ∀ s', s' = CGIFHelper.new →
      s'.m_pImage = none ∧ s'.m_pubPrevFrameBuffer = none ∧ s'.GetFrameCount = 0 ∧
      s'.GetSelectedFrame = 0 ∧ s'.m_dIterateTime = 0 ∧
      ∀ fmt, (FrameSize eng s' fmt).1 = -1 := by
    rintro s' rfl
    exact ⟨rfl, rfl, rfl, rfl, rfl, fun fmt => rfl⟩
  refine ⟨fun s' hopen => ?_, fun hnot => ?_, fun img r s' hgif hopen => ?_⟩
  · unfold OpenImage at hopen
    simp only [h0] at hopen
    cases gif with
    | openFailed =>
      simp only [Option.some.injEq, Prod.mk.injEq, true_and] at hopen
      exact hclosed s' hopen.symm
    | slurpFailed img =>
      simp only [Option.some.injEq, Prod.mk.injEq, true_and] at hopen
      exact hclosed s' hopen.symm
    | ok img =>
      simp only at hopen
      split at hopen
      · cases hopen
      · simp only [Option.some.injEq, Prod.mk.injEq, Bool.true_eq_false, false_and] at hopen
  · unfold OpenImage
    simp only [h0]
    cases gif with
    | openFailed => exact ⟨_, rfl⟩
    | slurpFailed img => exact ⟨_, rfl⟩
    | ok img => exact absurd rfl (hnot img)
  · subst hgif
    unfold OpenImage at hopen
    simp only at hopen
    split at hopen
    · cases hopen
    · simp only [Option.some.injEq, Prod.mk.injEq] at hopen
      exact hopen.1.symm

theorem OpenImage_failure_closes_witness :
    OpenImage exEngine (NextFrame exOpened 3).2 (.slurpFailed (exImage [exFullFrame]))
        (fun _ => 7) = some (false, CGIFHelper.new) ∧
    (∀ s', OpenImage exEngine (NextFrame exOpened 3).2 (.slurpFailed (exImage [exFullFrame]))
        (fun _ => 7) = some (false, s') →
      s'.m_pImage = none ∧ s'.m_pubPrevFrameBuffer = none ∧ s'.GetFrameCount = 0 ∧
      s'.GetSelectedFrame = 0 ∧ s'.m_dIterateTime = 0 ∧
      ∀ fmt, (FrameSize exEngine s' fmt).1 = -1) :=
  ⟨rfl, (OpenImage_failure_closes exEngine (NextFrame exOpened 3).2
    (.slurpFailed (exImage [exFullFrame])) (fun _ => 7)
    (Reachable.nextFrame _ 3 exOpened_reachable)).1⟩

/-- C25. Selection-state invariant.  In every state reachable from a fresh `CGIFHelper` by
completed calls of `OpenImage`, `NextFrame`, `FrameData`, `CloseImage( true )` and
`CloseImage( false )`: while an image is held it has at least one frame and
`0 ≤ m_iSelectedFrame < GetFrameCount()`; while none is held `m_iSelectedFrame = 0` and
`m_dIterateTime = 0`, and `NextFrame` returns false and changes nothing. -/
theorem selection_invariant (eng : ImageLoader) (s : CGIFHelper) (h : Reachable eng s) :
    (s.m_pImage.isSome = true → 1 ≤ s.GetFrameCount ∧ s.GetSelectedFrame < s.GetFrameCount) ∧
    (s.m_pImage = none → s.GetSelectedFrame = 0 ∧ s.m_dIterateTime = 0 ∧
      ∀ now, NextFrame s now = (false, s)) := by
  refine ⟨fun hsome => ?_, fun hnone => ?_⟩
  · cases hs : s.m_pImage with
    | none => rw [hs] at hsome; cases hsome
    | some img =>
      have hlt := h.inv.1 img hs
      unfold GetFrameCount GetSelectedFrame
      rw [hs]
      show 1 ≤ img.ImageCount ∧ s.m_iSelectedFrame < img.ImageCount
      exact ⟨by omega, hlt⟩
  · have hnew := h.inv.2 hnone
    refine ⟨by rw [hnew]; rfl, by rw [hnew]; rfl, fun now => NextFrame_closed s now hnone⟩

theorem selection_invariant_witness :
    (NextFrame (NextFrame exOpened 3).2 4).2.m_pImage.isSome = true ∧
    (NextFrame (NextFrame exOpened 3).2 4).2.GetFrameCount = 2 ∧
    (NextFrame exOpened 3).2.GetSelectedFrame = 1 ∧
    (NextFrame (NextFrame exOpened 3).2 4).2.GetSelectedFrame = 0 ∧
    ((NextFrame (NextFrame exOpened 3).2 4).2.m_pImage.isSome = true →
      1 ≤ (NextFrame (NextFrame exOpened 3).2 4).2.GetFrameCount ∧
      (NextFrame (NextFrame exOpened 3).2 4).2.GetSelectedFrame <
        (NextFrame (NextFrame exOpened 3).2 4).2.GetFrameCount) :=
  ⟨rfl, rfl, rfl, rfl,
    (selection_invariant exEngine (NextFrame (NextFrame exOpened 3).2 4).2
      (Reachable.nextFrame _ 4 (Reachable.nextFrame _ 3 exOpened_reachable))).1⟩

end CGIFHelper

/-! ## Interlace row order: claim C26 -/

theorem passRows_count (H inc : Nat) (hinc : 1 ≤ inc) (r : Nat) :
    ∀ fuel y, H ≤ y + fuel →
      (passRows H inc fuel y).count r = if y ≤ r ∧ r < H ∧ (r - y) % inc = 0 then 1 else 0 := by
  intro fuel
  induction fuel with
  | zero =>
    intro y hy
    rw [passRows, List.count_nil, if_neg (by omega)]
  | succ fuel ih =>
    intro y hy
    rw [passRows]
    by_cases hlt : y < H
    · rw [if_pos hlt, List.count_cons, ih (y + inc) (by omega)]
      by_cases hyr : y = r
      · subst hyr
        have hno : ¬(y + inc ≤ y) := by omega
        simp [hno, hlt]
      · have hbeq : (y == r) = false := by simpa using hyr
        rw [hbeq]
        simp only [Bool.false_eq_true, if_false, Nat.add_zero]
        by_cases hge : y + inc ≤ r
        · have hmod : (r - y) % inc = (r - (y + inc)) % inc := by
            have e : r - y = (r - (y + inc)) + inc := by omega
            rw [e, Nat.add_mod_right]
          rw [hmod]
          by_cases hc : r < H ∧ (r - (y + inc)) % inc = 0
          · rw [if_pos ⟨hge, hc⟩, if_pos ⟨by omega, hc⟩]
          · rw [if_neg (fun h => hc h.2), if_neg (fun h => hc h.2)]
        · rw [if_neg (fun h => hge h.1), if_neg]
          rintro ⟨h1, _, h3⟩
          have : (r - y) % inc = r - y := Nat.mod_eq_of_lt (by omega)
          omega
    · rw [if_neg hlt, List.count_nil, if_neg (by omega)]

theorem interlaceRows_eq (h : Nat) :
    interlaceRows h =
      passRows h 8 h 0 ++ (passRows h 8 h 4 ++ (passRows h 4 h 2 ++ passRows h 2 h 1)) := by
  simp [interlaceRows, CGIFHelper.k_rowOffsets, CGIFHelper.k_rowIncrements]

theorem interlaceRows_count (h r : Nat) :
    (interlaceRows h).count r = if r < h then 1 else 0 := by
  rw [interlaceRows_eq, List.count_append, List.count_append, List.count_append,
    passRows_count h 8 (by omega) r h 0 (by omega), passRows_count h 8 (by omega) r h 4 (by omega),
    passRows_count h 4 (by omega) r h 2 (by omega), passRows_count h 2 (by omega) r h 1 (by omega)]
  split_ifs <;> omega

/-- C26. The four-pass interlace row order is a permutation.  For every frame height `h` the rows
that the passes with offsets 0, 4, 2, 1 and increments 8, 8, 4, 2 visit (pass by pass the rows
`offset`, `offset + increment`, ... below `h`) are exactly the rows `0 .. h - 1`, each visited
exactly once. -/
theorem interlaceRows_perm (h : Nat) :
    (interlaceRows h).Perm (List.range h) ∧
    (∀ r, (interlaceRows h).count r = if r < h then 1 else 0) ∧
    interlaceRows h =
      passRows h 8 h 0 ++ (passRows h 8 h 4 ++ (passRows h 4 h 2 ++ passRows h 2 h 1)) ∧
    (∀ inc o r, (inc = 8 ∧ (o = 0 ∨ o = 4)) ∨ (inc = 4 ∧ o = 2) ∨ (inc = 2 ∧ o = 1) →
      (r ∈ passRows h inc h o ↔ ∃ j, r = o + j * inc ∧ r < h)) := by
  refine ⟨?_, interlaceRows_count h, interlaceRows_eq h, ?_⟩
  · rw [List.perm_iff_count]
    intro r
    rw [interlaceRows_count]
    by_cases hr : r < h
    · rw [if_pos hr]
      exact (List.count_eq_one_of_mem (List.nodup_range h) (List.mem_range.2 hr)).symm
    · rw [if_neg hr]
      exact (List.count_eq_zero_of_not_mem (fun hm => hr (List.mem_range.1 hm))).symm
  · intro inc o r hpass
    have hinc : 1 ≤ inc := by omega
    have hc := passRows_count h inc hinc r h o (by omega)
    rw [← List.count_pos_iff, hc]
    constructor
    · intro hpos
      split_ifs at hpos with hcond
      · refine ⟨(r - o) / inc, ?_, hcond.2.1⟩
        have := Nat.div_add_mod (r - o) inc
        rw [hcond.2.2, Nat.add_zero, Nat.mul_comm] at this
        omega
      · omega
    · rintro ⟨j, rfl, hlt⟩
      rw [if_pos ⟨by omega, hlt, by simp⟩]
      omega

theorem interlaceRows_perm_witness :
    interlaceRows 10 = [0, 8, 4, 2, 6, 1, 3, 5, 7, 9] ∧
    (interlaceRows 10).Perm (List.range 10) :=
  ⟨by decide, (interlaceRows_perm 10).1⟩

/-! ## Priming of the canvas and raster reads: claims C27, C30 -/

namespace CGIFHelper

/-- C27. `OpenImage` primes the canvas with frame 0 whatever the frame's disposal method is.
On a screen whose RGBA size `SWidth * SHeight * 4` fits the `int` the code computes it in (below
`2^31`, so that the length passed to `new uint8[ ... ]`, the composition block and the row
offsets are the exact products), after a successful open, from any state the instance can be in,
the persistent canvas has `SWidth * SHeight * 4` bytes and every on-screen pixel
(`Top + y`, `Left + x`) of frame 0 whose raster index is inside the colour map and not the
transparent index holds (`Red`, `Green`, `Blue`, 255) of that colour, also when the disposal
method is RestoreBackground or RestorePrevious: the render at open time writes its output into
the canvas itself after the disposal step.  The raster index of a pixel is the one the compositor
reads for it (`srcRow`: row `y` itself unless the frame is interlaced).  The open succeeds unless
frame 0 is disposed to background in a container without global colour table. -/
theorem OpenImage_primes_canvas (eng : ImageLoader) (s0 : CGIFHelper) (img : GifFileType)
    (frame0 : SavedImage) (bits0 : List GifByteType) (cm0 : ColorMapObject) (heap : Nat → uint8)
    (hreach : Reachable eng s0)
    (hfirst : img.SavedImages.head? = some frame0) (hbits : frame0.RasterBits = some bits0)
    (hsize : bits0.length = frame0.ImageDesc.Width * frame0.ImageDesc.Height)
    (hcm : (match frame0.ImageDesc.ColorMap with
      | some m => some m
      | none => img.SColorMap) = some cm0)
    (hfit : img.SWidth * img.SHeight * 4 < 2 ^ 31) :
    ScreenFitsInt img.SWidth img.SHeight ∧
    ((OpenImage eng s0 (.ok img) heap).isSome = true ↔
      ((frameControl img 0).2 = DISPOSE_BACKGROUND → img.SColorMap ≠ none)) ∧
    ∀ r s1, OpenImage eng s0 (.ok img) heap = some (r, s1) →
      r = true ∧ ∃ canvas, s1.m_pubPrevFrameBuffer = some canvas ∧
        canvas.length = img.SWidth * img.SHeight * 4 ∧
        ∀ y x, y < frame0.ImageDesc.Height → x < frame0.ImageDesc.Width →
          frame0.ImageDesc.Top + y < img.SHeight → frame0.ImageDesc.Left + x < img.SWidth →
          (bits0.getD (srcRow frame0.ImageDesc.Interlace y * frame0.ImageDesc.Width + x) 0).val <
            cm0.ColorCount →
          ((bits0.getD (srcRow frame0.ImageDesc.Interlace y * frame0.ImageDesc.Width + x) 0).val :
            Int) ≠ (frameControl img 0).1 →
          pixelAt canvas img.SWidth (frame0.ImageDesc.Top + y) (frame0.ImageDesc.Left + x) =
            rgba (cm0.Colors.getD
              (bits0.getD (srcRow frame0.ImageDesc.Interlace y * frame0.ImageDesc.Width + x) 0).val
              ⟨0, 0, 0⟩) := by
  obtain ⟨comp, t, hcomp, hrend, hopen⟩ := OpenImage_spec eng s0 img frame0 bits0 cm0 heap
    (fun hnone => by rw [hreach.inv.2 hnone]; rfl) hfirst hbits hsize hcm
  refine ⟨screenFitsInt_of_lt hfit, ?_, ?_⟩
  · rw [hopen, Option.isSome_map']
    exact applyDisposal_isSome_iff _ _ _ _ _
  · intro r s1 h
    rw [hopen] at h
    cases happ : applyDisposal img frame0.ImageDesc (frameControl img 0).2
        ((List.range (img.SWidth * img.SHeight * 4)).map heap) comp with
    | none => rw [happ] at h; cases h
    | some prev1 =>
      rw [happ, Option.map_some'] at h
      injection h with h
      injection h with h1 h2
      subst h2
      refine ⟨h1.symm, comp, rfl, hrend.canvasSize, ?_⟩
      intro y x hy hx hsy hsx hin htr
      apply pixelAt_eq_rgba
      intro k hk
      have hlt : pixOff img.SWidth (frame0.ImageDesc.Top + y) (frame0.ImageDesc.Left + x) k <
          ((List.range (img.SWidth * img.SHeight * 4)).map heap).length := by
        rw [List.length_map, List.length_range]
        exact pixOff_lt hsy hsx hk
      have hpix := hcomp.1 y x k hy (by omega) hx hsx hk
      rw [Nat.add_comm y frame0.ImageDesc.Top, List.getElem?_eq_getElem hlt,
        Option.map_some', paintedByte_opaque _ _ _ _ _ _ hin htr] at hpix
      exact hpix

set_option maxRecDepth 10000 in
theorem OpenImage_primes_canvas_witness :
    (OpenImage exEngine CGIFHelper.new (.ok (exImage [exFrame 2])) (fun _ => 7)).map
        (fun r => r.2.m_pubPrevFrameBuffer) =
      some (some [40, 50, 60, 255, 7, 7, 7, 7, 7, 7, 7, 7, 7, 7, 7, 7]) ∧
    (OpenImage exEngine CGIFHelper.new (.ok (exImage [exFrame 3])) (fun _ => 7)).map
        (fun r => r.2.m_pubPrevFrameBuffer) =
      some (some [40, 50, 60, 255, 7, 7, 7, 7, 7, 7, 7, 7, 7, 7, 7, 7]) ∧
    (frameControl (exImage [exFrame 2]) 0).2 = DISPOSE_BACKGROUND ∧
    (exImage [exFrame 2]).SWidth * (exImage [exFrame 2]).SHeight * 4 < 2 ^ 31 ∧
    ScreenFitsInt (exImage [exFrame 2]).SWidth (exImage [exFrame 2]).SHeight ∧
    ∀ r s1, OpenImage exEngine CGIFHelper.new (.ok (exImage [exFrame 2])) (fun _ => 7) =
        some (r, s1) →
      r = true ∧ ∃ canvas, s1.m_pubPrevFrameBuffer = some canvas ∧
        canvas.length = (exImage [exFrame 2]).SWidth * (exImage [exFrame 2]).SHeight * 4 ∧
        ∀ y x, y < (exFrame 2).ImageDesc.Height → x < (exFrame 2).ImageDesc.Width →
          (exFrame 2).ImageDesc.Top + y < (exImage [exFrame 2]).SHeight →
          (exFrame 2).ImageDesc.Left + x < (exImage [exFrame 2]).SWidth →
          (([1, 5] : List GifByteType).getD
            (srcRow (exFrame 2).ImageDesc.Interlace y * (exFrame 2).ImageDesc.Width + x) 0).val <
            exColors.ColorCount →
          ((([1, 5] : List GifByteType).getD
            (srcRow (exFrame 2).ImageDesc.Interlace y * (exFrame 2).ImageDesc.Width + x) 0).val :
            Int) ≠ (frameControl (exImage [exFrame 2]) 0).1 →
          pixelAt canvas (exImage [exFrame 2]).SWidth ((exFrame 2).ImageDesc.Top + y)
              ((exFrame 2).ImageDesc.Left + x) =
            rgba (exColors.Colors.getD
              (([1, 5] : List GifByteType).getD
                (srcRow (exFrame 2).ImageDesc.Interlace y * (exFrame 2).ImageDesc.Width + x) 0).val
              ⟨0, 0, 0⟩) :=
  have h := OpenImage_primes_canvas exEngine CGIFHelper.new (exImage [exFrame 2]) (exFrame 2)
    [1, 5] exColors (fun _ => 7) Reachable.fresh rfl rfl rfl rfl (by decide)
  ⟨by decide, by decide, by decide, by decide, h.1, h.2.2⟩

theorem paintRowAccesses_raster (cm : ColorMapObject) (tr : Int) (bits : List GifByteType)
    (Left sw : Nat) : ∀ (n x iPixel pubDest : Nat),
    (paintRowAccesses cm tr bits Left sw n x iPixel pubDest).1 = iPixel + n ∧
    ∀ i, .rasterRead i ∈ (paintRowAccesses cm tr bits Left sw n x iPixel pubDest).2 →
      iPixel ≤ i ∧ i < iPixel + n := by
  intro n
  induction n with
  | zero => intro x iPixel pubDest; exact ⟨rfl, fun i hi => by cases hi⟩
  | succ n ih =>
    intro x iPixel pubDest
    obtain ⟨ih1, ih2⟩ := ih (x + 1) (iPixel + 1) (pubDest + cBytesPerPixel)
    unfold paintRowAccesses
    by_cases hclip : x + Left ≥ sw
    · simp only [if_pos hclip]
      exact ⟨by rw [ih1]; omega, fun i hi => by have := ih2 i hi; omega⟩
    · simp only [if_neg hclip]
      refine ⟨by rw [ih1]; omega, fun i hi => ?_⟩
      rcases List.mem_append.1 hi with hhere | hrest
      · have hi' : i = iPixel := by
          split_ifs at hhere
          · simp only [List.mem_cons, Access.rasterRead.injEq, List.mem_singleton,
              List.not_mem_nil, or_false, reduceCtorEq] at hhere
            exact hhere
          · simp only [List.mem_singleton, Access.rasterRead.injEq] at hhere
            exact hhere
        omega
      · have := ih2 i hrest
        omega

theorem paintRowsAccesses_raster (cm : ColorMapObject) (tr : Int) (bits : List GifByteType)
    (d : GifImageDesc) (sw sh inc : Nat) :
    ∀ (fuel y iPixel i : Nat),
      .rasterRead i ∈ paintRowsAccesses cm tr bits d sw sh inc fuel y iPixel →
      ∃ j x, y + j * inc < d.Height ∧ x < d.Width ∧ i = iPixel + j * d.Width + x := by
  intro fuel
  induction fuel with
  | zero => intro y iPixel i hi; cases hi
  | succ fuel ih =>
    intro y iPixel i hi
    unfold paintRowsAccesses at hi
    by_cases hy : y < d.Height
    · simp only [if_pos hy] at hi
      have hnext : ∀ iPixel', iPixel' = iPixel + d.Width →
          .rasterRead i ∈ paintRowsAccesses cm tr bits d sw sh inc fuel (y + inc) iPixel' →
          ∃ j x, y + j * inc < d.Height ∧ x < d.Width ∧ i = iPixel + j * d.Width + x := by
        rintro iPixel' rfl hmem
        obtain ⟨j, x, hj, hx, hi'⟩ := ih _ _ i hmem
        refine ⟨j + 1, x, ?_, hx, ?_⟩
        · rw [Nat.succ_mul]; omega
        · rw [Nat.succ_mul]; omega
      by_cases hclip : y + d.Top ≥ sh
      · simp only [if_pos hclip] at hi
        exact hnext _ rfl hi
      · simp only [if_neg hclip] at hi
        rcases List.mem_append.1 hi with hrow | hrest
        · have := (paintRowAccesses_raster cm tr bits d.Left sw d.Width 0 iPixel _).2 i hrow
          exact ⟨0, i - iPixel, by omega, by omega, by omega⟩
        · exact hnext _ (paintRowAccesses_raster cm tr bits d.Left sw d.Width 0 iPixel _).1 hrest
    · simp only [if_neg hy] at hi
      cases hi

theorem pass_raster_lt {o j s x W H i : Nat} (hs : 1 ≤ s) (hj : o + j * s < H) (hx : x < W)
    (hi : i = o * W + j * W + x) : i = (o + j) * W + x ∧ o + j < H ∧ i < W * H := by
  have hjs : j ≤ j * s := Nat.le_mul_of_pos_right j hs
  have hoj : o + j < H := by omega
  have e : (o + j) * W = o * W + j * W := Nat.add_mul o j W
  refine ⟨by omega, hoj, ?_⟩
  have h1 : (o + j) * W + W ≤ H * W := row_mul_le W hoj
  have h2 : H * W = W * H := Nat.mul_comm H W
  omega

theorem composeAccesses_raster (cm : ColorMapObject) (tr : Int) (bits : List GifByteType)
    (d : GifImageDesc) (sw sh i : Nat)
    (hi : .rasterRead i ∈ composeAccesses cm tr bits d sw sh) : i < d.Width * d.Height := by
  have hpass : ∀ o s, 1 ≤ s →
      .rasterRead i ∈ paintRowsAccesses cm tr bits d sw sh s d.Height o (o * d.Width) →
      i < d.Width * d.Height := by
    intro o s hs hmem
    obtain ⟨j, x, hj, hx, hi'⟩ := paintRowsAccesses_raster cm tr bits d sw sh s _ _ _ i hmem
    exact (pass_raster_lt hs hj hx hi').2.2
  unfold composeAccesses at hi
  split_ifs at hi
  · obtain ⟨nPass, hn, h⟩ := List.mem_flatMap.1 hi
    simp only [List.mem_cons, List.mem_singleton, List.not_mem_nil, or_false] at hn
    rcases hn with rfl | rfl | rfl | rfl <;> exact hpass _ _ (by decide) h
  · exact hpass 0 1 (by omega) hi

theorem disposalAccesses_no_raster (img : GifFileType) (d : GifImageDesc) (disp : Int)
    (comp : List uint8) (i : Nat) : Access.rasterRead i ∉ disposalAccesses img d disp comp := by
  intro hi
  unfold disposalAccesses at hi
  by_cases hbg : disp = DISPOSE_BACKGROUND
  · simp only [if_pos hbg] at hi
    cases hmap : img.SColorMap with
    | none => rw [hmap] at hi; cases hi
    | some m =>
      rw [hmap] at hi
      simp only at hi
      split_ifs at hi
      · rcases List.mem_cons.1 hi with h | hfill
        · cases h
        · unfold fillAccesses at hfill
          obtain ⟨y, _, hfill⟩ := List.mem_flatMap.1 hfill
          obtain ⟨x, _, hfill⟩ := List.mem_flatMap.1 hfill
          simp only [List.mem_cons, List.mem_singleton, List.not_mem_nil, or_false,
            reduceCtorEq] at hfill
      · cases hi
  · simp only [if_neg hbg] at hi
    split_ifs at hi
    · cases hi
    · obtain ⟨_, _, h⟩ := memcpyAccesses_mem _ _ _ _ hi
      cases h

theorem FrameDataAccesses_raster (cm : ColorMapObject) (tr : Int) (bits : List GifByteType)
    (img : GifFileType) (d : GifImageDesc) (disp : Int) (prev : List uint8) (i : Nat)
    (hi : .rasterRead i ∈ FrameDataAccesses cm tr bits img d disp prev) :
    .rasterRead i ∈ composeAccesses cm tr bits d img.SWidth img.SHeight := by
  unfold FrameDataAccesses at hi
  simp only [List.mem_append] at hi
  rcases hi with (hcopy | hcomp) | hdisp
  · obtain ⟨_, _, h⟩ := memcpyAccesses_mem _ _ _ _ hcopy
    cases h
  · exact hcomp
  · exact absurd hdisp (disposalAccesses_no_raster _ _ _ _ _)

/-- C30. Every index `FrameData` uses to read the raster of the selected frame is below
`Width * Height`, the size of the raster, whether the frame is interlaced or not and clipped or
not.  Within a pass with row offset `o` and increment `s` the `j`-th visited row (display row
`o + j * s < Height`) reads stored row `o + j`, which is below `Height`: a raster read of the
pass is at `(o + j) * Width + x` with `x < Width`.  The accesses are those of `FrameData`:
replaying their stores gives the composition of the frame over the canvas. -/
theorem FrameData_raster_reads_in_range (s : CGIFHelper) (img : GifFileType)
    (frame : SavedImage) (bits : List GifByteType) (cm : ColorMapObject) (prev : List uint8)
    (hr : Renderable s img frame bits cm prev) :
    (∀ i, .rasterRead i ∈ FrameDataAccesses cm (frameControl img s.m_iSelectedFrame).1 bits img
        frame.ImageDesc (frameControl img s.m_iSelectedFrame).2 prev →
      i < frame.ImageDesc.Width * frame.ImageDesc.Height ∧ i < bits.length) ∧
    (∀ o inc i, 1 ≤ inc →
      .rasterRead i ∈ paintRowsAccesses cm (frameControl img s.m_iSelectedFrame).1 bits
        frame.ImageDesc img.SWidth img.SHeight inc frame.ImageDesc.Height o
        (o * frame.ImageDesc.Width) →
      ∃ j x, o + j * inc < frame.ImageDesc.Height ∧ x < frame.ImageDesc.Width ∧
        i = (o + j) * frame.ImageDesc.Width + x ∧ o + j < frame.ImageDesc.Height) ∧
    IsComposition cm (frameControl img s.m_iSelectedFrame).1 bits frame.ImageDesc img.SWidth
      img.SHeight prev
      (replayScratch (FrameDataAccesses cm (frameControl img s.m_iSelectedFrame).1 bits img
        frame.ImageDesc (frameControl img s.m_iSelectedFrame).2 prev)
        (stackalloc (img.SWidth * cBytesPerPixel * img.SHeight))) := by
  refine ⟨fun i hi => ?_, fun o inc i hinc hi => ?_, ?_⟩
  · have := composeAccesses_raster _ _ _ _ _ _ i (FrameDataAccesses_raster _ _ _ _ _ _ _ i hi)
    exact ⟨this, by rw [hr.rasterSize]; exact this⟩
  · obtain ⟨j, x, hj, hx, hi'⟩ := paintRowsAccesses_raster _ _ _ _ _ _ _ _ _ _ i hi
    have := pass_raster_lt hinc hj hx hi'
    exact ⟨j, x, hj, hx, this.1, this.2.1⟩
  · rw [(FrameDataAccesses_scratch _ _ _ _ _ _ _ hr.canvasSize).1]
    exact composeAccesses_isComposition _ _ _ _ _ _ _

theorem exInterlacedRenderable :
    Renderable exInterlacedState
      { SWidth := 1, SHeight := 5, SBackGroundColor := 0, SColorMap := some exFiveColors,
        SavedImages := [exInterlacedFrame] }
      exInterlacedFrame [0, 1, 2, 3, 4] exFiveColors (List.replicate 20 7) :=
  ⟨rfl, ⟨_, _, rfl, rfl⟩, rfl, rfl, rfl, rfl, rfl, rfl⟩

set_option maxRecDepth 10000 in
theorem FrameData_raster_reads_in_range_witness :
    (composeAccesses exFiveColors (-1) [0, 1, 2, 3, 4] exInterlacedFrame.ImageDesc 1 5).filterMap
        (fun a => match a with
          | .rasterRead i => some i
          | _ => none) = [0, 4, 2, 1, 2] ∧
    ∀ i, .rasterRead i ∈ FrameDataAccesses exFiveColors
        (frameControl
          { SWidth := 1, SHeight := 5, SBackGroundColor := 0, SColorMap := some exFiveColors,
            SavedImages := [exInterlacedFrame] } exInterlacedState.m_iSelectedFrame).1
        [0, 1, 2, 3, 4]
        { SWidth := 1, SHeight := 5, SBackGroundColor := 0, SColorMap := some exFiveColors,
          SavedImages := [exInterlacedFrame] }
        exInterlacedFrame.ImageDesc
        (frameControl
          { SWidth := 1, SHeight := 5, SBackGroundColor := 0, SColorMap := some exFiveColors,
            SavedImages := [exInterlacedFrame] } exInterlacedState.m_iSelectedFrame).2
        (List.replicate 20 7) →
      i < exInterlacedFrame.ImageDesc.Width * exInterlacedFrame.ImageDesc.Height ∧
      i < ([0, 1, 2, 3, 4] : List GifByteType).length :=
  ⟨by decide,
    (FrameData_raster_reads_in_range exInterlacedState _ exInterlacedFrame [0, 1, 2, 3, 4]
      exFiveColors (List.replicate 20 7) exInterlacedRenderable).1⟩

end CGIFHelper

/-! ## The avatar panel's decoder: claims C28, C29 -/

theorem foldl_range' {β : Type} (f : β → Nat → β) (s n : Nat) (b : β) :
    (List.range' s n).foldl f b = (List.range n).foldl (fun b i => f b (s + i)) b := by
  rw [List.range'_eq_map_range, List.foldl_map]

namespace vgui_avatarimage

namespace CGIFHelper

theorem paintRow_some (cm : ColorMapObject) (tr : Int) (bits : List GifByteType)
    (L T sw y : Nat) : ∀ n x iPixel cur,
    (paintRow (some cm) tr (some bits) L T sw y n x iPixel cur).isSome = true := by
  intro n
  induction n with
  | zero => intro x iPixel cur; rfl
  | succ n ih =>
    intro x iPixel cur
    unfold paintRow
    split_ifs
    · exact ih _ _ _
    · exact ih _ _ _

theorem paintRows_some (cm : ColorMapObject) (tr : Int) (bits : List GifByteType)
    (L T W H sw sh inc : Nat) : ∀ fuel y iPixel cur,
    (paintRows (some cm) tr (some bits) L T W H sw sh inc fuel y iPixel cur).isSome = true := by
  intro fuel
  induction fuel with
  | zero => intro y iPixel cur; rfl
  | succ fuel ih =>
    intro y iPixel cur
    unfold paintRows
    split_ifs
    · exact ih _ _ _
    · have h := paintRow_some cm tr bits L T sw y W 0 iPixel cur
      cases hrow : paintRow (some cm) tr (some bits) L T sw y W 0 iPixel cur with
      | none => rw [hrow] at h; cases h
      | some r => exact ih _ _ _
    · rfl

theorem paintPasses_some (cm : ColorMapObject) (tr : Int) (bits : List GifByteType)
    (L T W H sw sh : Nat) : ∀ passes iPixel cur,
    (paintPasses (some cm) tr (some bits) L T W H sw sh passes iPixel cur).isSome = true := by
  intro passes
  induction passes with
  | nil => intro iPixel cur; rfl
  | cons nPass rest ih =>
    intro iPixel cur
    unfold paintPasses
    have h := paintRows_some cm tr bits L T W H sw sh (k_rowIncrements.getD nPass 0) H
      (k_rowOffsets.getD nPass 0) iPixel cur
    cases hrows : paintRows (some cm) tr (some bits) L T W H sw sh (k_rowIncrements.getD nPass 0) H
        (k_rowOffsets.getD nPass 0) iPixel cur with
    | none => rw [hrows] at h; cases h
    | some r => exact ih _ _

theorem avatarFill_spec (prev : List uint8) (b L T W H sw sh : Nat) :
    (∀ i j k, i < min (T + H) sh - T → j < min (L + W) sw - L → k < 4 →
      (fillBackground prev b L T W H sw sh)[pixOff sw (T + i) (L + j) k]? =
        (prev[pixOff sw (T + i) (L + j) k]?).map
          (fun _ => colorByte ⟨Fin.ofNat b, Fin.ofNat b, Fin.ofNat b⟩ k)) ∧
    (∀ p, (∀ i j k, i < min (T + H) sh - T → j < min (L + W) sw - L → k < 4 →
        p ≠ pixOff sw (T + i) (L + j) k) →
      (fillBackground prev b L T W H sw sh)[p]? = prev[p]?) := by
  have h := foldl_rows_spec
    (fun buf i =>
      (List.range (min (L + W) sw - L)).foldl
        (fun buf j =>
          store4 buf (((T + i) * sw + (L + j)) * 4) (Fin.ofNat b) (Fin.ofNat b) (Fin.ofNat b) 255)
        buf)
    (fun i => ((T + i) * sw + L) * 4) (min (L + W) sw - L)
    (fun _ _ k => colorByte ⟨Fin.ofNat b, Fin.ofNat b, Fin.ofNat b⟩ k)
    (fun t i p =>
      foldl_store4_get
        (fun buf j =>
          store4 buf (((T + i) * sw + (L + j)) * 4) (Fin.ofNat b) (Fin.ofNat b) (Fin.ofNat b) 255)
        (((T + i) * sw + L) * 4)
        (fun _ k => colorByte ⟨Fin.ofNat b, Fin.ofNat b, Fin.ofNat b⟩ k)
        (fun t j => by
          have e : ((T + i) * sw + (L + j)) * 4 = ((T + i) * sw + L) * 4 + j * 4 := by ring
          show store4 t (((T + i) * sw + (L + j)) * 4) _ _ _ _ = _
          rw [e]
          rfl)
        (min (L + W) sw - L) t p)
    (fun i i' hii => by
      show ((T + i) * sw + L) * 4 + (min (L + W) sw - L) * 4 ≤ ((T + i') * sw + L) * 4
      have := row_mul_le sw (show T + i < T + i' by omega)
      omega)
    (min (T + H) sh - T) prev
  have hfill : fillBackground prev b L T W H sw sh =
      (List.range (min (T + H) sh - T)).foldl
        (fun buf i =>
          (List.range (min (L + W) sw - L)).foldl
            (fun buf j =>
              store4 buf (((T + i) * sw + (L + j)) * 4) (Fin.ofNat b) (Fin.ofNat b) (Fin.ofNat b)
                255)
            buf)
        prev := by
    unfold fillBackground
    rw [foldl_range']
    congr 1
    funext buf i
    rw [foldl_range']
  rw [hfill]
  refine ⟨?_, ?_⟩
  · intro i j k hi hj hk
    have := h.1 i j k hi hj hk
    have e : ((T + i) * sw + L) * 4 + j * 4 + k = pixOff sw (T + i) (L + j) k := by
      unfold pixOff; ring
    simp only [e] at this
    exact this
  · intro p hp
    apply h.2
    intro i hi hc
    refine hp i ((p - ((T + i) * sw + L) * 4) / 4) ((p - ((T + i) * sw + L) * 4) % 4) hi
      (by omega) (by omega) ?_
    unfold pixOff
    omega

theorem avatarFill_length (prev : List uint8) (b L T W H sw sh : Nat) :
    (fillBackground prev b L T W H sw sh).length = prev.length := by
  apply length_eq_of_getElem?_map
  intro p
  by_cases hp : ∃ i j k, i < min (T + H) sh - T ∧ j < min (L + W) sw - L ∧ k < 4 ∧
      p = pixOff sw (T + i) (L + j) k
  · obtain ⟨i, j, k, hi, hj, hk, rfl⟩ := hp
    exact ⟨_, (avatarFill_spec prev b L T W H sw sh).1 i j k hi hj hk⟩
  · refine ⟨id, ?_⟩
    rw [(avatarFill_spec prev b L T W H sw sh).2 p
      (fun i j k hi hj hk heq => hp ⟨i, j, k, hi, hj, hk, heq⟩)]
    simp

theorem avatarFill_pixel (prev : List uint8) (b L T W H sw sh : Nat)
    (hprev : prev.length = sw * sh * 4) (sy sx : Nat) (hsy : sy < sh) (hsx : sx < sw) :
    pixelAt (fillBackground prev b L T W H sw sh) sw sy sx =
      if T ≤ sy ∧ sy < min (T + H) sh ∧ L ≤ sx ∧ sx < min (L + W) sw
      then rgba ⟨Fin.ofNat b, Fin.ofNat b, Fin.ofNat b⟩ else pixelAt prev sw sy sx := by
  have hspec := avatarFill_spec prev b L T W H sw sh
  split_ifs with hin
  · apply pixelAt_eq_rgba
    intro k hk
    have := hspec.1 (sy - T) (sx - L) k (by omega) (by omega) hk
    rw [show T + (sy - T) = sy by omega, show L + (sx - L) = sx by omega] at this
    rw [this, List.getElem?_eq_getElem (by rw [hprev]; exact pixOff_lt hsy hsx hk)]
    rfl
  · apply pixelAt_congr
    intro k hk
    apply hspec.2
    intro i j k' hi hj hk' heq
    have := pixOff_inj hsx (show L + j < sw by omega) hk hk' heq
    omega

/-- C28. In the avatar panel's decoder (`CGIFHelper::GetRGBA` of vgui_avatarimage.cpp) a frame
with disposal RestoreBackground leaves a canvas in which every pixel of the frame's rectangle
clipped to the screen is (`b`, `b`, `b`, 255), where `b` is the background colour index
`SBackGroundColor` itself (stored into a byte), not the entry of the global colour table, and
every screen pixel outside that rectangle is the pixel the canvas held before the call. -/
theorem GetRGBA_background_disposal (s : CGIFHelper) (img : GifFileType) (frame : SavedImage)
    (bits : List GifByteType) (cm : ColorMapObject) (gcb : GraphicsControlBlock)
    (prev out : List uint8) (himg : s.m_pImage = some img)
    (hsel : img.SavedImages.get? s.m_iSelectedFrame = some frame)
    (hbits : frame.RasterBits = some bits)
    (hcm : (match frame.ImageDesc.ColorMap with
      | some m => some m
      | none => img.SColorMap) = some cm)
    (hgcb : frame.gcb = some gcb) (hdisp : gcb.DisposalMode = DISPOSE_BACKGROUND)
    (hprev : s.m_pPrevFrameBuffer = some prev)
    (hlen : prev.length = img.SWidth * img.SHeight * 4) :
    ∃ s' out' canvas, s.GetRGBA out = some (s', out') ∧
      s'.m_pPrevFrameBuffer = some canvas ∧ canvas.length = prev.length ∧
      (img.SBackGroundColor < 256 →
        (Fin.ofNat img.SBackGroundColor : uint8).val = img.SBackGroundColor) ∧
      ∀ sy sx, sy < img.SHeight → sx < img.SWidth →
        pixelAt canvas img.SWidth sy sx =
          if frame.ImageDesc.Top ≤ sy ∧
              sy < min (frame.ImageDesc.Top + frame.ImageDesc.Height) img.SHeight ∧
              frame.ImageDesc.Left ≤ sx ∧
              sx < min (frame.ImageDesc.Left + frame.ImageDesc.Width) img.SWidth
          then [Fin.ofNat img.SBackGroundColor, Fin.ofNat img.SBackGroundColor,
            Fin.ofNat img.SBackGroundColor, 255]
          else pixelAt prev img.SWidth sy sx := by
  have hpainted : ∃ r,
      (if frame.ImageDesc.Interlace then
        paintPasses (some cm) gcb.TransparentColor (some bits) frame.ImageDesc.Left
          frame.ImageDesc.Top frame.ImageDesc.Width frame.ImageDesc.Height img.SWidth img.SHeight
          [0, 1, 2, 3] 0
          (Q_memcpy (stackalloc (img.SWidth * img.SHeight * 4)) prev
            (img.SWidth * img.SHeight * 4))
      else
        paintRows (some cm) gcb.TransparentColor (some bits) frame.ImageDesc.Left
          frame.ImageDesc.Top frame.ImageDesc.Width frame.ImageDesc.Height img.SWidth img.SHeight
          1 frame.ImageDesc.Height 0 0
          (Q_memcpy (stackalloc (img.SWidth * img.SHeight * 4)) prev
            (img.SWidth * img.SHeight * 4))) = some r := by
    split_ifs
    · exact Option.isSome_iff_exists.1 (paintPasses_some _ _ _ _ _ _ _ _ _ _ _ _)
    · exact Option.isSome_iff_exists.1 (paintRows_some _ _ _ _ _ _ _ _ _ _ _ _ _ _)
  obtain ⟨⟨iPixel, cur⟩, hrun⟩ := hpainted
  have hg : DGifSavedExtensionToGCB img s.m_iSelectedFrame = some gcb := by
    unfold DGifSavedExtensionToGCB
    rw [hsel]
    exact hgcb
  refine ⟨⟨s.m_pImage, some (fillBackground prev img.SBackGroundColor frame.ImageDesc.Left
      frame.ImageDesc.Top frame.ImageDesc.Width frame.ImageDesc.Height img.SWidth img.SHeight),
      s.m_iSelectedFrame, s.m_dIterateTime⟩,
    Q_memcpy out cur (img.SWidth * img.SHeight * 4),
    fillBackground prev img.SBackGroundColor frame.ImageDesc.Left frame.ImageDesc.Top
      frame.ImageDesc.Width frame.ImageDesc.Height img.SWidth img.SHeight, ?_, rfl,
    avatarFill_length _ _ _ _ _ _ _ _, ?_, ?_⟩
  · unfold GetRGBA
    cases hl : frame.ImageDesc.ColorMap with
    | none =>
      rw [hl] at hcm
      simp only at hcm
      simp only [himg, hsel, GetFrameSize, GetScreenSize, hprev, hbits, hl, hcm, hg, hrun, hdisp,
        if_true]
    | some m =>
      rw [hl] at hcm
      simp only at hcm
      simp only [himg, hsel, GetFrameSize, GetScreenSize, hprev, hbits, hl, hcm, hg, hrun, hdisp,
        if_true]
  · intro hb
    exact Nat.mod_eq_of_lt hb
  · intro sy sx hsy hsx
    exact avatarFill_pixel prev _ _ _ _ _ _ _ hlen sy sx hsy hsx

set_option maxRecDepth 10000 in
theorem GetRGBA_background_disposal_witness :
    ((exAvatarState [exFrame 2] 0).GetRGBA exOut).map (fun r => (r.1.m_pPrevFrameBuffer, r.2)) =
      some (some [1, 1, 1, 255, 1, 1, 1, 255, 7, 7, 7, 7, 7, 7, 7, 7],
        [40, 50, 60, 255, 7, 7, 7, 7, 7, 7, 7, 7, 7, 7, 7, 7]) ∧
    exColors.Colors[(exImage [exFrame 2]).SBackGroundColor]? = some ⟨40, 50, 60⟩ ∧
    ∃ s' out' canvas, (exAvatarState [exFrame 2] 0).GetRGBA exOut = some (s', out') ∧
      s'.m_pPrevFrameBuffer = some canvas ∧ canvas.length = exCanvas.length ∧
      ((exImage [exFrame 2]).SBackGroundColor < 256 →
        (Fin.ofNat (exImage [exFrame 2]).SBackGroundColor : uint8).val =
          (exImage [exFrame 2]).SBackGroundColor) ∧
      ∀ sy sx, sy < (exImage [exFrame 2]).SHeight → sx < (exImage [exFrame 2]).SWidth →
        pixelAt canvas (exImage [exFrame 2]).SWidth sy sx =
          if (exFrame 2).ImageDesc.Top ≤ sy ∧
              sy < min ((exFrame 2).ImageDesc.Top + (exFrame 2).ImageDesc.Height)
                (exImage [exFrame 2]).SHeight ∧
              (exFrame 2).ImageDesc.Left ≤ sx ∧
              sx < min ((exFrame 2).ImageDesc.Left + (exFrame 2).ImageDesc.Width)
                (exImage [exFrame 2]).SWidth
          then [Fin.ofNat (exImage [exFrame 2]).SBackGroundColor,
            Fin.ofNat (exImage [exFrame 2]).SBackGroundColor,
            Fin.ofNat (exImage [exFrame 2]).SBackGroundColor, 255]
          else pixelAt exCanvas (exImage [exFrame 2]).SWidth sy sx :=
  ⟨by decide, by decide,
    GetRGBA_background_disposal (exAvatarState [exFrame 2] 0) (exImage [exFrame 2]) (exFrame 2)
      [1, 5] exColors ⟨2, false, 0, 0⟩ exCanvas exOut rfl rfl rfl rfl rfl rfl rfl rfl⟩

set_option maxRecDepth 10000 in
/-- C29 fails on the code.  In the avatar panel's `GetRGBA` a clipped column takes `continue`
before `iPixel++` and a clipped row skips its columns without advancing `iPixel`, so the raster
is not consumed in lockstep: for the 2x2 frame one column to the right on the 2x2 screen (raster
1, 0, 1, 0) the on-screen pixel of frame row 1 is painted from `raster[1]` (colour 0), not from
`raster[1 * 2 + 0]` (colour 1).  `FrameData` of gifhelper.cpp, which advances `iPixel` in the
loop header, paints colour 1 there. -/
theorem GetRGBA_clipping_not_lockstep :
    ((exAvatarState [exOverhang] 0).GetRGBA exOut).map (fun r => r.2) =
      some [7, 7, 7, 7, 40, 50, 60, 255, 7, 7, 7, 7, 10, 20, 30, 255] ∧
    exOverhang.RasterBits = some [1, 0, 1, 0] ∧
    exColors.Colors = [⟨10, 20, 30⟩, ⟨40, 50, 60⟩] ∧
    exOverhang.ImageDesc.Left + 1 ≥ (exImage [exOverhang]).SWidth ∧
    (CGIFHelper.FrameData exEngine (exState [exOverhang] 0) .IMAGE_FORMAT_RGBA8888
        (.caller exOut)).map (fun r => r.2) =
      some (.caller [7, 7, 7, 7, 40, 50, 60, 255, 7, 7, 7, 7, 40, 50, 60, 255]) := by
  decide

end CGIFHelper

end vgui_avatarimage

/-! ## Stream readers: claim C35 -/

theorem GifReadData_spec (gif : CUtlBuffer) (dst : List uint8) (n : Nat)
    (hc : gif.m_Get ≤ gif.m_Memory.length) :
    GifReadData gif dst n =
      (((min n (gif.m_Memory.length - gif.m_Get) : Nat) : Int),
        (gif.m_Memory.drop gif.m_Get).take (min n (gif.m_Memory.length - gif.m_Get)) ++
          dst.drop (min n (gif.m_Memory.length - gif.m_Get)),
        ⟨gif.m_Memory, gif.m_Get + min n (gif.m_Memory.length - gif.m_Get)⟩) := by
  have hmin : min (n : Int) gif.GetBytesRemaining =
      ((min n (gif.m_Memory.length - gif.m_Get) : Nat) : Int) := by
    unfold CUtlBuffer.GetBytesRemaining
    omega
  unfold GifReadData
  simp only [hmin]
  by_cases h0 : min n (gif.m_Memory.length - gif.m_Get) = 0
  · rw [h0]
    simp
  · have hpos : ((min n (gif.m_Memory.length - gif.m_Get) : Nat) : Int) > 0 := by omega
    rw [if_pos hpos]
    simp only [CUtlBuffer.Get, Int.toNat_ofNat, writeBytes, List.length_take, List.length_drop]
    have : min (min n (gif.m_Memory.length - gif.m_Get)) (gif.m_Memory.length - gif.m_Get) =
        min n (gif.m_Memory.length - gif.m_Get) := by omega
    rw [this]

theorem ReadData_eq : vgui_avatarimage.CGIFHelper.ReadData = GifReadData := rfl

theorem readCalls_spec (reqs : List Nat) : ∀ gif : CUtlBuffer, gif.m_Get ≤ gif.m_Memory.length →
    ∃ total : Nat, (((readCalls GifReadData gif reqs).1.map (fun r => r.1)).sum = (total : Int)) ∧
      gif.m_Get + total ≤ gif.m_Memory.length ∧
      delivered (readCalls GifReadData gif reqs).1 = (gif.m_Memory.drop gif.m_Get).take total ∧
      (readCalls GifReadData gif reqs).2 = ⟨gif.m_Memory, gif.m_Get + total⟩ := by
  induction reqs with
  | nil => intro gif _; exact ⟨0, by simp [readCalls], by omega, by simp [readCalls, delivered], rfl⟩
  | cons n rest ih =>
    intro gif hc
    have h1 := GifReadData_spec gif (List.replicate n 0) n hc
    obtain ⟨t, ht1, ht2, ht3, ht4⟩ := ih ⟨gif.m_Memory, gif.m_Get + min n (gif.m_Memory.length - gif.m_Get)⟩
      (by show gif.m_Get + min n (gif.m_Memory.length - gif.m_Get) ≤ gif.m_Memory.length; omega)
    simp only at ht1 ht2 ht3 ht4
    refine ⟨min n (gif.m_Memory.length - gif.m_Get) + t, ?_, by omega, ?_, ?_⟩
    · simp only [readCalls, h1, List.map_cons, List.sum_cons, ht1]
      push_cast
      rfl
    · simp only [readCalls, h1, delivered, List.flatMap_cons, Int.toNat_ofNat]
      have := ht3
      unfold delivered at this
      rw [this]
      rw [List.take_append_of_le_length (by simp)]
      rw [List.take_take, Nat.min_self]
      rw [← List.drop_drop]
      conv_rhs => rw [← List.take_append_drop (min n (gif.m_Memory.length - gif.m_Get)) (List.drop gif.m_Get gif.m_Memory)]
      rw [List.take_append_eq_append_take]
      simp
    · simp only [readCalls, h1, ht4]
      congr 1
      omega

/-- C35.  The stream reader callbacks (`GifReadData` of gifhelper.cpp and `ReadData` of
vgui_avatarimage.cpp) never overrun the source: asked for `n ≥ 0` bytes with `r` bytes remaining,
each returns `min n r`, puts exactly the next `min n r` bytes of the buffer, in order, at the start
of the destination and advances the cursor by `min n r`, leaving destination and buffer as they
were when that is 0; and over any sequence of reads the delivered bytes are, in order, the bytes of
the buffer from the cursor on, the returned counts summing to at most the number of bytes that
remained, hence to at most the buffer length. -/
theorem GifReadData_no_overrun (gif : CUtlBuffer) (pubBuffer : List uint8) (n r : Nat)
    (reqs : List Nat) (hr : gif.GetBytesRemaining = (r : Int)) :
    ∀ read ∈ [GifReadData, vgui_avatarimage.CGIFHelper.ReadData],
      read gif pubBuffer n = (((min n r : Nat) : Int),
        (gif.m_Memory.drop gif.m_Get).take (min n r) ++ pubBuffer.drop (min n r),
        ⟨gif.m_Memory, gif.m_Get + min n r⟩) ∧
      (min n r = 0 → read gif pubBuffer n = (0, pubBuffer, gif)) ∧
      ∃ total : Nat, ((readCalls read gif reqs).1.map (fun c => c.1)).sum = (total : Int) ∧
        total ≤ r ∧ total ≤ gif.m_Memory.length ∧
        delivered (readCalls read gif reqs).1 = (gif.m_Memory.drop gif.m_Get).take total ∧
        (readCalls read gif reqs).2 = ⟨gif.m_Memory, gif.m_Get + total⟩ := by
  have hc : gif.m_Get ≤ gif.m_Memory.length := by
    unfold CUtlBuffer.GetBytesRemaining at hr
    omega
  have hlen : gif.m_Memory.length - gif.m_Get = r := by
    unfold CUtlBuffer.GetBytesRemaining at hr
    omega
  have key : GifReadData gif pubBuffer n = (((min n r : Nat) : Int),
        (gif.m_Memory.drop gif.m_Get).take (min n r) ++ pubBuffer.drop (min n r),
        ⟨gif.m_Memory, gif.m_Get + min n r⟩) := by
    rw [GifReadData_spec gif pubBuffer n hc, hlen]
  have all : (min n r = 0 → GifReadData gif pubBuffer n = (0, pubBuffer, gif)) ∧
      ∃ total : Nat, ((readCalls GifReadData gif reqs).1.map (fun c => c.1)).sum = (total : Int) ∧
        total ≤ r ∧ total ≤ gif.m_Memory.length ∧
        delivered (readCalls GifReadData gif reqs).1 = (gif.m_Memory.drop gif.m_Get).take total ∧
        (readCalls GifReadData gif reqs).2 = ⟨gif.m_Memory, gif.m_Get + total⟩ := by
    refine ⟨fun h0 => ?_, ?_⟩
    · rw [key, h0]
      simp
    · obtain ⟨t, h1, h2, h3, h4⟩ := readCalls_spec reqs gif hc
      exact ⟨t, h1, by omega, by omega, h3, h4⟩
  intro read hread
  simp only [List.mem_cons, List.mem_singleton, List.not_mem_nil, or_false] at hread
  rcases hread with h | h
  · subst h
    exact ⟨key, all⟩
  · subst h
    rw [ReadData_eq]
    exact ⟨key, all⟩

theorem GifReadData_no_overrun_witness :
    exBuffer.GetBytesRemaining = ((5 : Nat) : Int) ∧
    ∀ read ∈ [GifReadData, vgui_avatarimage.CGIFHelper.ReadData],
      read exBuffer [1, 2, 3, 4] 3 = (((min 3 5 : Nat) : Int),
        (exBuffer.m_Memory.drop exBuffer.m_Get).take (min 3 5) ++ [1, 2, 3, 4].drop (min 3 5),
        ⟨exBuffer.m_Memory, exBuffer.m_Get + min 3 5⟩) ∧
      (min 3 5 = 0 → read exBuffer [1, 2, 3, 4] 3 = (0, [1, 2, 3, 4], exBuffer)) ∧
      ∃ total : Nat, ((readCalls read exBuffer [2, 0, 7]).1.map (fun c => c.1)).sum = (total : Int) ∧
        total ≤ 5 ∧ total ≤ exBuffer.m_Memory.length ∧
        delivered (readCalls read exBuffer [2, 0, 7]).1 =
          (exBuffer.m_Memory.drop exBuffer.m_Get).take total ∧
        (readCalls read exBuffer [2, 0, 7]).2 = ⟨exBuffer.m_Memory, exBuffer.m_Get + total⟩ :=
  ⟨by decide, GifReadData_no_overrun exBuffer [1, 2, 3, 4] 3 5 [2, 0, 7] (by decide)⟩

/-! ## The two decoders side by side: claims C31, C32 -/

theorem avatar_paintRow_eq (pColorMap : Option ColorMapObject) (tr : Int)
    (bits : Option (List GifByteType)) (L T sw y : Nat) :
    ∀ n x iPixel cur, x + n + L ≤ sw →
      vgui_avatarimage.CGIFHelper.paintRow pColorMap tr bits L T sw y n x iPixel cur =
        CGIFHelper.paintRow pColorMap tr bits L sw n x iPixel (((y + T) * sw + (x + L)) * 4)
          cur := by
  intro n
  induction n with
  | zero => intro x iPixel cur _; rfl
  | succ n ih =>
    intro x iPixel cur h
    have hno : ¬(x + L ≥ sw) := by omega
    have hoff : ((y + T) * sw + (x + L)) * 4 + CGIFHelper.cBytesPerPixel =
        ((y + T) * sw + (x + 1 + L)) * 4 := by
      unfold CGIFHelper.cBytesPerPixel
      omega
    unfold vgui_avatarimage.CGIFHelper.paintRow CGIFHelper.paintRow
    simp only [if_neg hno, hoff]
    cases bits with
    | none => rfl
    | some b =>
      cases pColorMap with
      | none => rfl
      | some cm =>
        simp only
        exact ih (x + 1) (iPixel + 1) _ (by omega)

theorem avatar_paintRows_eq (pColorMap : Option ColorMapObject) (tr : Int)
    (bits : Option (List GifByteType)) (d : GifImageDesc) (sw sh inc : Nat)
    (hw : d.Left + d.Width ≤ sw) (hh : d.Top + d.Height ≤ sh) :
    ∀ fuel y iPixel cur,
      (vgui_avatarimage.CGIFHelper.paintRows pColorMap tr bits d.Left d.Top d.Width d.Height sw sh
        inc fuel y iPixel cur).map Prod.snd =
        CGIFHelper.paintRows pColorMap tr bits d sw sh inc fuel y iPixel cur := by
  intro fuel
  induction fuel with
  | zero => intro y iPixel cur; rfl
  | succ fuel ih =>
    intro y iPixel cur
    unfold vgui_avatarimage.CGIFHelper.paintRows CGIFHelper.paintRows
    by_cases hy : y < d.Height
    · have hno : ¬(y + d.Top ≥ sh) := by omega
      have hoff : (y + d.Top) * (sw * CGIFHelper.cBytesPerPixel) +
          d.Left * CGIFHelper.cBytesPerPixel = ((y + d.Top) * sw + (0 + d.Left)) * 4 := by
        unfold CGIFHelper.cBytesPerPixel
        ring
      simp only [if_pos hy, if_neg hno, hoff]
      rw [avatar_paintRow_eq pColorMap tr bits d.Left d.Top sw y d.Width 0 iPixel cur (by omega)]
      cases CGIFHelper.paintRow pColorMap tr bits d.Left sw d.Width 0 iPixel
          (((y + d.Top) * sw + (0 + d.Left)) * 4) cur with
      | none => rfl
      | some r => exact ih _ _ _
    · simp only [if_neg hy, Option.map_some']

/-- C31.  The two decoder variants agree on a non-interlaced frame that lies entirely inside
the screen and whose disposal is not RestoreBackground: started on the same image, selected frame
and canvas (any canvas of the screen's size), the avatar panel's `GetRGBA` and gifhelper's
`FrameData( IMAGE_FORMAT_RGBA8888 )` both return, with byte-identical output buffers and
byte-identical next canvases. -/
theorem GetRGBA_agrees_with_FrameData (eng : ImageLoader) (s : CGIFHelper)
    (a : vgui_avatarimage.CGIFHelper) (img : GifFileType) (frame : SavedImage)
    (bits : List GifByteType) (cm : ColorMapObject) (prev out : List uint8)
    (hr : Renderable s img frame bits cm prev)
    (himg : a.m_pImage = s.m_pImage) (hsel : a.m_iSelectedFrame = s.m_iSelectedFrame)
    (hcanvas : a.m_pPrevFrameBuffer = s.m_pubPrevFrameBuffer)
    (hi : frame.ImageDesc.Interlace = false)
    (hw : frame.ImageDesc.Left + frame.ImageDesc.Width ≤ img.SWidth)
    (hh : frame.ImageDesc.Top + frame.ImageDesc.Height ≤ img.SHeight)
    (hd : (CGIFHelper.frameControl img s.m_iSelectedFrame).2 ≠ DISPOSE_BACKGROUND) :
    ∃ out1 prev1,
      CGIFHelper.FrameData eng s .IMAGE_FORMAT_RGBA8888 (.caller out) =
        some ({ s with m_pubPrevFrameBuffer := some prev1 }, .caller out1) ∧
      a.GetRGBA out = some ({ a with m_pPrevFrameBuffer := some prev1 }, out1) := by
  obtain ⟨comp, hcomp, hfd, -⟩ := CGIFHelper.FrameData_rgba eng s img frame bits cm prev hr
  obtain ⟨b, hrun, hpass⟩ := CGIFHelper.lambdaComputeFrame_spec cm
    (CGIFHelper.frameControl img s.m_iSelectedFrame).1 bits frame.ImageDesc img.SWidth img.SHeight
    img.SWidth img.SHeight 0 1 (by omega) prev none
  have hb : b = comp := IsComposition.unique (IsComposition.of_pass hi hpass) hcomp
  subst hb
  have hrows : CGIFHelper.paintRows (some cm) (CGIFHelper.frameControl img s.m_iSelectedFrame).1
      (some bits) frame.ImageDesc img.SWidth img.SHeight 1 frame.ImageDesc.Height 0 0 prev =
      some b := by
    unfold CGIFHelper.lambdaComputeFrame at hrun
    rw [Nat.zero_mul] at hrun
    cases h : CGIFHelper.paintRows (some cm) (CGIFHelper.frameControl img s.m_iSelectedFrame).1
        (some bits) frame.ImageDesc img.SWidth img.SHeight 1 frame.ImageDesc.Height 0 0 prev with
    | none =>
      rw [h] at hrun
      cases hrun
    | some c =>
      rw [h] at hrun
      simp only [Option.some.injEq, Prod.mk.injEq] at hrun
      rw [hrun.1]
  have hav := avatar_paintRows_eq (some cm) (CGIFHelper.frameControl img s.m_iSelectedFrame).1
    (some bits) frame.ImageDesc img.SWidth img.SHeight 1 hw hh frame.ImageDesc.Height 0 0 prev
  rw [hrows] at hav
  obtain ⟨⟨iPixel, cur⟩, hcur, hcb⟩ := Option.map_eq_some'.1 hav
  simp only at hcb
  subst hcb
  have hlen : cur.length = img.SWidth * img.SHeight * 4 := by
    rw [hcomp.length, hr.canvasSize]
  have hout : Q_memcpy out cur (img.SWidth * img.SHeight * 4) = writeBytes out cur := by
    unfold Q_memcpy writeBytes
    rw [List.take_of_length_le (by omega), hlen]
  have hgif : CGIFHelper.applyDisposal img frame.ImageDesc
      (CGIFHelper.frameControl img s.m_iSelectedFrame).2 prev cur =
      some (if (CGIFHelper.frameControl img s.m_iSelectedFrame).2 = DISPOSE_PREVIOUS
        then prev else Q_memcpy prev cur (img.SWidth * img.SHeight * 4)) := by
    unfold CGIFHelper.applyDisposal
    simp only [if_neg hd]
    have e : img.SWidth * CGIFHelper.cBytesPerPixel * img.SHeight = img.SWidth * img.SHeight * 4 := by
      unfold CGIFHelper.cBytesPerPixel
      ring
    rw [e]
    split_ifs <;> rfl
  refine ⟨writeBytes out cur,
    if (CGIFHelper.frameControl img s.m_iSelectedFrame).2 = DISPOSE_PREVIOUS
      then prev else Q_memcpy prev cur (img.SWidth * img.SHeight * 4), ?_, ?_⟩
  · rw [hfd out, hgif]
    rfl
  · have hcolors := hr.colors
    have hprev0 : Q_memcpy (stackalloc (img.SWidth * img.SHeight * 4)) prev
        (img.SWidth * img.SHeight * 4) = prev := CGIFHelper.Q_memcpy_stackalloc prev _ hr.canvasSize
    unfold vgui_avatarimage.CGIFHelper.GetRGBA
    simp only [himg, hsel, hcanvas, hr.image, hr.selected, hr.canvas, hr.raster,
      vgui_avatarimage.CGIFHelper.GetFrameSize, vgui_avatarimage.CGIFHelper.GetScreenSize,
      hcolors, hi, hprev0]
    cases hg : DGifSavedExtensionToGCB img s.m_iSelectedFrame with
    | none =>
      have hfc : CGIFHelper.frameControl img s.m_iSelectedFrame =
          (NO_TRANSPARENT_COLOR, DISPOSAL_UNSPECIFIED) := by
        unfold CGIFHelper.frameControl
        rw [hg]
      rw [hfc] at hcur hd ⊢
      simp only at hcur hd ⊢
      simp only [hcur, hout, if_neg hd, Bool.false_eq_true, if_false]
    | some gcb =>
      have hfc : CGIFHelper.frameControl img s.m_iSelectedFrame =
          (gcb.TransparentColor, gcb.DisposalMode) := by
        unfold CGIFHelper.frameControl
        rw [hg]
      rw [hfc] at hcur hd ⊢
      simp only at hcur hd ⊢
      simp only [hcur, hout, if_neg hd, Bool.false_eq_true, if_false]

theorem GetRGBA_agrees_with_FrameData_witness :
    Renderable (exState [exFrame 1] 0) (exImage [exFrame 1]) (exFrame 1) [1, 5] exColors
      exCanvas ∧
    (exFrame 1).ImageDesc.Interlace = false ∧
    (exFrame 1).ImageDesc.Left + (exFrame 1).ImageDesc.Width ≤ (exImage [exFrame 1]).SWidth ∧
    (exFrame 1).ImageDesc.Top + (exFrame 1).ImageDesc.Height ≤ (exImage [exFrame 1]).SHeight ∧
    (CGIFHelper.frameControl (exImage [exFrame 1]) 0).2 ≠ DISPOSE_BACKGROUND ∧
    ∃ out1 prev1,
      CGIFHelper.FrameData exEngine (exState [exFrame 1] 0) .IMAGE_FORMAT_RGBA8888
          (.caller exOut) =
        some ({ exState [exFrame 1] 0 with m_pubPrevFrameBuffer := some prev1 },
          .caller out1) ∧
      (exAvatarState [exFrame 1] 0).GetRGBA exOut =
        some ({ exAvatarState [exFrame 1] 0 with m_pPrevFrameBuffer := some prev1 }, out1) :=
  ⟨exRenderable 1, rfl, by decide, by decide, by decide,
    GetRGBA_agrees_with_FrameData exEngine (exState [exFrame 1] 0) (exAvatarState [exFrame 1] 0)
      (exImage [exFrame 1]) (exFrame 1) [1, 5] exColors exCanvas exOut (exRenderable 1) rfl rfl
      rfl rfl (by decide) (by decide) (by decide)⟩

theorem delay_throttle_eq (d : Int) (now : ℚ) :
    (d : ℚ) * (1 / 100) + now =
      (if (d : ℚ) * (1 / 100) < CGIFHelper.k_dMinTime then CGIFHelper.k_dDefaultTime
        else (d : ℚ) * (1 / 100)) + now ↔ 2 ≤ d := by
  unfold CGIFHelper.k_dMinTime CGIFHelper.k_dDefaultTime
  constructor
  · intro h
    by_contra hd
    have hd2 : d ≤ 1 := by omega
    have hq : (d : ℚ) ≤ 1 := by exact_mod_cast hd2
    rw [if_pos (by linarith)] at h
    linarith
  · intro hd
    have hq : (2 : ℚ) ≤ d := by exact_mod_cast hd
    rw [if_neg (by linarith)]

/-- C32.  The two `NextFrame` implementations (gifhelper.cpp and vgui_avatarimage.cpp), run
from the same image, selected index and timer at the same clock value, return the same looped flag
and leave the same image and the same selected index, neither touching its canvas; and they leave
the same next eligible time exactly when the newly selected frame has no graphics control block or
its delay is at least 2 centiseconds. -/
theorem NextFrame_variants_agree (s : CGIFHelper) (a : vgui_avatarimage.CGIFHelper) (now : ℚ)
    (himg : a.m_pImage = s.m_pImage) (hsel : a.m_iSelectedFrame = s.m_iSelectedFrame)
    (htime : a.m_dIterateTime = s.m_dIterateTime) :
    (a.NextFrame now).1 = (s.NextFrame now).1 ∧
    (a.NextFrame now).2.m_pImage = (s.NextFrame now).2.m_pImage ∧
    (a.NextFrame now).2.m_iSelectedFrame = (s.NextFrame now).2.m_iSelectedFrame ∧
    (a.NextFrame now).2.m_pPrevFrameBuffer = a.m_pPrevFrameBuffer ∧
    (s.NextFrame now).2.m_pubPrevFrameBuffer = s.m_pubPrevFrameBuffer ∧
    ((a.NextFrame now).2.m_dIterateTime = (s.NextFrame now).2.m_dIterateTime ↔
      ∀ img gcb, s.m_pImage = some img →
        DGifSavedExtensionToGCB img (s.NextFrame now).2.m_iSelectedFrame = some gcb →
        2 ≤ gcb.DelayTime) := by
  unfold vgui_avatarimage.CGIFHelper.NextFrame CGIFHelper.NextFrame
  rw [himg, hsel]
  cases hi : s.m_pImage with
  | none => simp [himg, hi, htime, hsel]
  | some img =>
    simp only
    cases hg : DGifSavedExtensionToGCB img
        (if s.m_iSelectedFrame + 1 ≥ img.ImageCount then 0 else s.m_iSelectedFrame + 1) with
    | none =>
      simp only [himg, hi, htime, true_and, true_iff]
      intro img1 gcb h1 h2
      cases h1
      rw [hg] at h2
      cases h2
    | some gcb =>
      simp only [himg, hi, true_and]
      rw [delay_throttle_eq]
      constructor
      · intro h img1 gcb1 h1 h2
        cases h1
        rw [hg] at h2
        cases h2
        exact h
      · intro h
        exact h img gcb rfl hg

theorem NextFrame_variants_agree_witness :
    (exAvatarState [exFrame 1, exFullFrame] 0).m_pImage =
      (exState [exFrame 1, exFullFrame] 0).m_pImage ∧
    (exAvatarState [exFrame 1, exFullFrame] 0).m_iSelectedFrame =
      (exState [exFrame 1, exFullFrame] 0).m_iSelectedFrame ∧
    (exAvatarState [exFrame 1, exFullFrame] 0).m_dIterateTime =
      (exState [exFrame 1, exFullFrame] 0).m_dIterateTime ∧
    ((exAvatarState [exFrame 1, exFullFrame] 0).NextFrame 5).1 =
      ((exState [exFrame 1, exFullFrame] 0).NextFrame 5).1 ∧
    ((exAvatarState [exFrame 1, exFullFrame] 0).NextFrame 5).2.m_pImage =
      ((exState [exFrame 1, exFullFrame] 0).NextFrame 5).2.m_pImage ∧
    ((exAvatarState [exFrame 1, exFullFrame] 0).NextFrame 5).2.m_iSelectedFrame =
      ((exState [exFrame 1, exFullFrame] 0).NextFrame 5).2.m_iSelectedFrame ∧
    ((exAvatarState [exFrame 1, exFullFrame] 0).NextFrame 5).2.m_pPrevFrameBuffer =
      (exAvatarState [exFrame 1, exFullFrame] 0).m_pPrevFrameBuffer ∧
    ((exState [exFrame 1, exFullFrame] 0).NextFrame 5).2.m_pubPrevFrameBuffer =
      (exState [exFrame 1, exFullFrame] 0).m_pubPrevFrameBuffer ∧
    (((exAvatarState [exFrame 1, exFullFrame] 0).NextFrame 5).2.m_dIterateTime =
        ((exState [exFrame 1, exFullFrame] 0).NextFrame 5).2.m_dIterateTime ↔
      ∀ img gcb, (exState [exFrame 1, exFullFrame] 0).m_pImage = some img →
        DGifSavedExtensionToGCB img
          ((exState [exFrame 1, exFullFrame] 0).NextFrame 5).2.m_iSelectedFrame = some gcb →
        2 ≤ gcb.DelayTime) :=
  ⟨rfl, rfl, rfl,
    NextFrame_variants_agree (exState [exFrame 1, exFullFrame] 0)
      (exAvatarState [exFrame 1, exFullFrame] 0) 5 rfl rfl rfl⟩

/-! ## Resampling in 32-bit arithmetic: claim C34 -/

/-- C34 fails on the code for a screen wider or taller than 32768.  For the 32769x1 screen
`FrameSize` reports the power-of-two target 65536x1 for `IMAGE_FORMAT_DXT1_RUNTIME`, and at the
target column `x = 65535 < 65536` the product `x * nScreenWide = 2147516415` does not fit in a
signed 32-bit `int` (`INT_MAX = 2147483647`): reduced to 32 bits it is -2147450881, and the
sampled source column is -32767, which is neither `floor( x * 32769 / 65536 ) = 32768` nor inside
`[0, 32769)`. -/
theorem resample_product_overflows :
    (CGIFHelper.FrameSize exRawEngine (exSized 32769 1) .IMAGE_FORMAT_DXT1_RUNTIME).2 =
      (65536, 1) ∧
    ¬((65535 : Int) * 32769 ≤ 2 ^ 31 - 1) ∧
    int32 (65535 * 32769) = -2147450881 ∧
    CGIFHelper.nSrc 65535 32769 65536 = -32767 ∧
    65535 * 32769 / 65536 = 32768 ∧
    CGIFHelper.nSrc 65535 32769 65536 ≠ ((65535 * 32769 / 65536 : Nat) : Int) ∧
    ¬(0 ≤ CGIFHelper.nSrc 65535 32769 65536 ∧ CGIFHelper.nSrc 65535 32769 65536 < 32769) := by
  decide

/-! ## Texture indices of the avatar panel: claim C33 -/

namespace vgui_avatarimage

theorem GetRGBA_fields (a : CGIFHelper) (out : List uint8) (r : CGIFHelper × List uint8)
    (h : a.GetRGBA out = some r) :
    r.1.m_pImage = a.m_pImage ∧ r.1.m_iSelectedFrame = a.m_iSelectedFrame ∧
      r.1.m_dIterateTime = a.m_dIterateTime := by
  unfold CGIFHelper.GetRGBA at h
  split at h
  · cases h
    exact ⟨rfl, rfl, rfl⟩
  · split at h
    · simp only at h
      split at h
      · cases h
      · cases h
        exact ⟨rfl, rfl, rfl⟩
    · cases h

theorem GetRGBA_some (a : CGIFHelper) (img : GifFileType) (frame : SavedImage)
    (bits : List GifByteType) (cm : ColorMapObject) (prev out : List uint8)
    (himg : a.m_pImage = some img)
    (hsel : img.SavedImages.get? a.m_iSelectedFrame = some frame)
    (hbits : frame.RasterBits = some bits)
    (hcm : (match frame.ImageDesc.ColorMap with
      | some m => some m
      | none => img.SColorMap) = some cm)
    (hprev : a.m_pPrevFrameBuffer = some prev) :
    ∃ r, a.GetRGBA out = some r ∧ r.1.m_pPrevFrameBuffer.isSome = true := by
  have hpainted : ∀ tr : Int, ∃ r,
      (if frame.ImageDesc.Interlace then
        CGIFHelper.paintPasses (some cm) tr (some bits) frame.ImageDesc.Left
          frame.ImageDesc.Top frame.ImageDesc.Width frame.ImageDesc.Height img.SWidth img.SHeight
          [0, 1, 2, 3] 0
          (Q_memcpy (stackalloc (img.SWidth * img.SHeight * 4)) prev
            (img.SWidth * img.SHeight * 4))
      else
        CGIFHelper.paintRows (some cm) tr (some bits) frame.ImageDesc.Left
          frame.ImageDesc.Top frame.ImageDesc.Width frame.ImageDesc.Height img.SWidth img.SHeight
          1 frame.ImageDesc.Height 0 0
          (Q_memcpy (stackalloc (img.SWidth * img.SHeight * 4)) prev
            (img.SWidth * img.SHeight * 4))) = some r := by
    intro tr
    split_ifs
    · exact Option.isSome_iff_exists.1 (CGIFHelper.paintPasses_some _ _ _ _ _ _ _ _ _ _ _ _)
    · exact Option.isSome_iff_exists.1 (CGIFHelper.paintRows_some _ _ _ _ _ _ _ _ _ _ _ _ _ _)
  have hcm2 : ∀ o : Option ColorMapObject, frame.ImageDesc.ColorMap = o →
      (match o with
        | some m => some m
        | none => img.SColorMap) = some cm := fun o ho => by rw [← ho]; exact hcm
  unfold CGIFHelper.GetRGBA
  cases hg : DGifSavedExtensionToGCB img a.m_iSelectedFrame with
  | none =>
    obtain ⟨⟨iPixel, cur⟩, hrun⟩ := hpainted NO_TRANSPARENT_COLOR
    cases hl : frame.ImageDesc.ColorMap with
    | none =>
      have := hcm2 _ hl
      simp only at this
      simp only [himg, hsel, CGIFHelper.GetFrameSize, CGIFHelper.GetScreenSize, hprev, hbits, hl,
        this, hg, hrun]
      exact ⟨_, rfl, rfl⟩
    | some m =>
      have := hcm2 _ hl
      simp only at this
      simp only [himg, hsel, CGIFHelper.GetFrameSize, CGIFHelper.GetScreenSize, hprev, hbits, hl,
        this, hg, hrun]
      exact ⟨_, rfl, rfl⟩
  | some gcb =>
    obtain ⟨⟨iPixel, cur⟩, hrun⟩ := hpainted gcb.TransparentColor
    cases hl : frame.ImageDesc.ColorMap with
    | none =>
      have := hcm2 _ hl
      simp only at this
      simp only [himg, hsel, CGIFHelper.GetFrameSize, CGIFHelper.GetScreenSize, hprev, hbits, hl,
        this, hg, hrun]
      exact ⟨_, rfl, rfl⟩
    | some m =>
      have := hcm2 _ hl
      simp only at this
      simp only [himg, hsel, CGIFHelper.GetFrameSize, CGIFHelper.GetScreenSize, hprev, hbits, hl,
        this, hg, hrun]
      exact ⟨_, rfl, rfl⟩

theorem avatar_NextFrame_step (a : CGIFHelper) (img : GifFileType) (now : ℚ)
    (himg : a.m_pImage = some img) (hlt : a.m_iSelectedFrame + 1 < img.ImageCount) :
    (a.NextFrame now).1 = false ∧ (a.NextFrame now).2.m_pImage = some img ∧
      (a.NextFrame now).2.m_iSelectedFrame = a.m_iSelectedFrame + 1 ∧
      (a.NextFrame now).2.m_pPrevFrameBuffer = a.m_pPrevFrameBuffer := by
  unfold CGIFHelper.NextFrame
  rw [himg]
  have hno : ¬(a.m_iSelectedFrame + 1 ≥ img.ImageCount) := by omega
  simp only [if_neg hno]
  cases DGifSavedExtensionToGCB img (a.m_iSelectedFrame + 1) with
  | none => simp [himg]
  | some gcb => simp [himg]

theorem buildTextures_used (N : Nat → Int) (heap : Nat → uint8) (clock : Nat → ℚ) :
    ∀ fuel k self used r, CAvatarImage.buildTextures N heap clock fuel k self used = some r →
      ∀ i ∈ r.2, i ∈ used ∨ i < ANIMATED_AVATAR_MAX_FRAME_COUNT := by
  intro fuel
  induction fuel with
  | zero => intro k self used r h; cases h
  | succ fuel ih =>
    intro k self used r h i hi
    unfold CAvatarImage.buildTextures at h
    by_cases hge : self.m_animatedImage.GetSelectedFrame ≥ ANIMATED_AVATAR_MAX_FRAME_COUNT
    · rw [if_pos hge] at h
      cases h
      exact Or.inl hi
    · rw [if_neg hge] at h
      simp only at h
      cases hG : self.m_animatedImage.GetRGBA
          (List.map heap (List.range (self.m_animatedImage.GetScreenSize.1 *
            self.m_animatedImage.GetScreenSize.2 * 4))) with
      | none =>
        rw [hG] at h
        cases h
      | some g =>
        rw [hG] at h
        simp only at h
        have hsel : g.1.GetSelectedFrame = self.m_animatedImage.GetSelectedFrame :=
          (GetRGBA_fields _ _ _ hG).2.1
        have hmem : ∀ j ∈ used ++ [self.m_animatedImage.GetSelectedFrame, g.1.GetSelectedFrame],
            j ∈ used ∨ j < ANIMATED_AVATAR_MAX_FRAME_COUNT := by
          intro j hj
          rw [hsel] at hj
          simp only [List.mem_append, List.mem_cons, List.mem_singleton, List.not_mem_nil,
            or_false, or_self] at hj
          rcases hj with hj | hj
          · exact Or.inl hj
          · exact Or.inr (by omega)
        split at h
        · cases h
          exact hmem i hi
        · rcases ih _ _ _ _ h i hi with h1 | h1
          · exact hmem i h1
          · exact Or.inr h1

theorem buildTextures_many (N : Nat → Int) (heap : Nat → uint8) (clock : Nat → ℚ)
    (img : GifFileType)
    (hwf : ∀ frame ∈ img.SavedImages, ∃ bits cm, frame.RasterBits = some bits ∧
      (match frame.ImageDesc.ColorMap with
        | some m => some m
        | none => img.SColorMap) = some cm)
    (hcount : ANIMATED_AVATAR_MAX_FRAME_COUNT < img.ImageCount) :
    ∀ fuel k self used, self.m_animatedImage.m_pImage = some img →
      self.m_animatedImage.m_pPrevFrameBuffer.isSome = true →
      self.m_animatedImage.m_iSelectedFrame ≤ ANIMATED_AVATAR_MAX_FRAME_COUNT →
      ANIMATED_AVATAR_MAX_FRAME_COUNT - self.m_animatedImage.m_iSelectedFrame < fuel →
      ∃ r, CAvatarImage.buildTextures N heap clock fuel k self used = some r ∧
        r.1.m_animatedImage.m_pImage = some img ∧
        r.1.m_animatedImage.m_iSelectedFrame = ANIMATED_AVATAR_MAX_FRAME_COUNT ∧
        r.1.m_bAnimating = self.m_bAnimating := by
  intro fuel
  induction fuel with
  | zero => intro k self used _ _ _ h; omega
  | succ fuel ih =>
    intro k self used himg hprev hle hfuel
    have hsf : self.m_animatedImage.GetSelectedFrame = self.m_animatedImage.m_iSelectedFrame :=
      rfl
    unfold CAvatarImage.buildTextures
    by_cases hge : self.m_animatedImage.GetSelectedFrame ≥ ANIMATED_AVATAR_MAX_FRAME_COUNT
    · rw [if_pos hge]
      refine ⟨_, rfl, himg, ?_, rfl⟩
      show self.m_animatedImage.m_iSelectedFrame = ANIMATED_AVATAR_MAX_FRAME_COUNT
      omega
    · rw [if_neg hge]
      simp only
      have hlt : self.m_animatedImage.m_iSelectedFrame < img.SavedImages.length := by
        unfold GifFileType.ImageCount at hcount
        omega
      have hframe : img.SavedImages.get? self.m_animatedImage.m_iSelectedFrame =
          some (img.SavedImages.get ⟨_, hlt⟩) := List.get?_eq_get hlt
      obtain ⟨bits, cm, hbits, hcm⟩ := hwf _ (List.get_mem img.SavedImages _ hlt)
      obtain ⟨prev, hp⟩ := Option.isSome_iff_exists.1 hprev
      obtain ⟨g, hG, hcanvas⟩ := GetRGBA_some self.m_animatedImage img _ bits cm prev
        (List.map heap (List.range (self.m_animatedImage.GetScreenSize.1 *
            self.m_animatedImage.GetScreenSize.2 * 4))) himg hframe hbits hcm hp
      obtain ⟨hgi, hgs, -⟩ := GetRGBA_fields _ _ _ hG
      rw [hG]
      simp only
      have hstep := avatar_NextFrame_step g.1 img (clock k) (hgi.trans himg) (by
        rw [hgs]
        omega)
      rw [hstep.1]
      simp only [Bool.false_eq_true, if_false]
      obtain ⟨r, hr, h1, h2, h3⟩ := ih (k + 1)
        { self with
          m_textureIDs := self.m_textureIDs.set self.m_animatedImage.GetSelectedFrame (N k)
          m_animatedImage := (g.1.NextFrame (clock k)).2 }
        (used ++ [self.m_animatedImage.GetSelectedFrame, g.1.GetSelectedFrame])
        hstep.2.1 (by rw [hstep.2.2.2]; exact hcanvas)
        (by
          show ((g.1.NextFrame (clock k)).2).m_iSelectedFrame ≤ _
          rw [hstep.2.2.1, hgs]
          omega)
        (by
          show _ - ((g.1.NextFrame (clock k)).2).m_iSelectedFrame < _
          rw [hstep.2.2.1, hgs]
          omega)
      exact ⟨r, hr, h1, h2, h3⟩

theorem Paint_index (self : CAvatarImage) (img : GifFileType) (now : ℚ)
    (hanim : self.m_bAnimating = true) (himg : self.m_animatedImage.m_pImage = some img)
    (hlt : self.m_animatedImage.m_iSelectedFrame + 1 < img.ImageCount) :
    (self.Paint now).2 = [0, self.m_animatedImage.m_iSelectedFrame] ∨
      (self.Paint now).2 = [0, self.m_animatedImage.m_iSelectedFrame + 1] := by
  unfold CAvatarImage.Paint
  rw [if_pos hanim]
  simp only
  by_cases hs : self.m_animatedImage.ShouldIterateFrame now = true
  · rw [if_pos hs]
    right
    unfold CGIFHelper.GetSelectedFrame
    rw [(avatar_NextFrame_step _ img now himg hlt).2.2.1]
  · rw [if_neg hs]
    left
    rfl

/-- C33 fails on the code, in `Paint`.  For an animated avatar GIF of 258 frames the texture-building
loop of `OnHTTPRequestCompleted` applies to `m_textureIDs` only indices below
`ANIMATED_AVATAR_MAX_FRAME_COUNT`, stops at its guard with the decoder's selected frame at 256
and marks the panel as animating; `Paint`, which has no such guard, then indexes `m_textureIDs`
with the selected frame, 256 or 257, at every clock value. -/
theorem Paint_texture_index_out_of_range :
    ∃ panel used,
      exPanel.OnHTTPRequestCompleted (fun k => (k : Int)) (fun _ => 0) (fun _ => 0)
        (.ok exManyFrames) = some (panel, used) ∧
      (∀ i ∈ used, i < ANIMATED_AVATAR_MAX_FRAME_COUNT) ∧
      panel.m_bAnimating = true ∧
      panel.m_animatedImage.GetSelectedFrame = 256 ∧
      ∀ now, ∃ i ∈ (panel.Paint now).2, ANIMATED_AVATAR_MAX_FRAME_COUNT ≤ i := by
  have hcount : exManyFrames.ImageCount = 258 := by
    unfold exManyFrames exImage GifFileType.ImageCount
    exact List.length_replicate _ _
  have hwf : ∀ frame ∈ exManyFrames.SavedImages, ∃ bits cm, frame.RasterBits = some bits ∧
      (match frame.ImageDesc.ColorMap with
        | some m => some m
        | none => exManyFrames.SColorMap) = some cm := by
    intro frame hf
    have : frame = exFullFrame := List.eq_of_mem_replicate hf
    subst this
    exact ⟨_, _, rfl, rfl⟩
  have hopen : exPanel.m_animatedImage.OpenImage (.ok exManyFrames) (fun _ => 0) =
      (true, ⟨some exManyFrames, some ((List.range (2 * 2 * 4)).map (fun _ => 0)), 0, 0⟩) := rfl
  obtain ⟨r, hr, h1, h2, h3⟩ := buildTextures_many (fun k => (k : Int)) (fun _ => 0)
    (fun _ => 0) exManyFrames hwf (by rw [hcount]; decide)
    (ANIMATED_AVATAR_MAX_FRAME_COUNT + 1) 0
    { exPanel with
      m_animatedImage := ⟨some exManyFrames, some ((List.range (2 * 2 * 4)).map (fun _ => 0)), 0, 0⟩ }
    [] rfl rfl (by decide) (by decide)
  have hused := buildTextures_used _ _ _ _ _ _ _ _ hr
  refine ⟨{ r.1 with m_bAnimating := true }, r.2, ?_, ?_, rfl, h2, ?_⟩
  · unfold CAvatarImage.OnHTTPRequestCompleted
    simp only [hopen, Bool.not_true, Bool.false_eq_true, if_false, hr]
  · intro i hi
    rcases hused i hi with h | h
    · cases h
    · exact h
  · intro now
    have hp := Paint_index { r.1 with m_bAnimating := true } exManyFrames now rfl h1 (by
      show r.1.m_animatedImage.m_iSelectedFrame + 1 < _
      rw [h2, hcount]
      decide)
    have e : ({ r.1 with m_bAnimating := true } : CAvatarImage).m_animatedImage.m_iSelectedFrame =
        ANIMATED_AVATAR_MAX_FRAME_COUNT := h2
    rw [e] at hp
    rcases hp with hp | hp
    · exact ⟨_, by rw [hp]; simp, Nat.le_refl _⟩
    · exact ⟨ANIMATED_AVATAR_MAX_FRAME_COUNT + 1, by rw [hp]; simp, Nat.le_succ _⟩

end vgui_avatarimage
